import Mathlib

/-!
# Texas Hold'em server (`server/index.js`): the socket handlers over an abstract engine

`index.js` keeps two global maps (`rooms`, `disconnectedPlayers`) and reacts to socket
events.  Each handler is embedded as a pure function from the server state (and the
event's arguments) to an `Outcome`: the new state, the messages emitted, and the calls
made to the poker engine.

The engine (`game.js`: the classes `Game` and `Player`) is not among the sources, so its
methods are the fields of the parameter `Engine`.  `Player` objects are shared by
reference between `room.players` and the `Game`; they live in a per-room heap and both
sides hold references into it.  One concrete engine, the hand evaluator and the pot manager
are written from the spec, in definitions marked as such.
-/

namespace TexasHoldem

/-! ## JavaScript values and maps -/

/-- A JavaScript value received from a client and handed on without inspection. -/
inductive JsVal where
  | undefined
  | null
  | bool (b : Bool)
  | num (n : Int)
  | str (s : String)
deriving DecidableEq, Repr

/-- `m.get(k)` / `obj[k]` on a map with string keys, kept as a list in insertion order. -/
def lookup {α : Type} (k : String) : List (String × α) → Option α
  | [] => none
  | (k', v) :: rest => if k' = k then some v else lookup k rest

/-- `m.delete(k)` / `delete obj[k]`. -/
def erase {α : Type} (k : String) (m : List (String × α)) : List (String × α) :=
  m.filter (fun e => decide (e.1 ≠ k))

/-- `m.set(k, v)` / `obj[k] = v`: an existing key keeps its place, a new key goes last. -/
def insert {α : Type} (k : String) (v : α) : List (String × α) → List (String × α)
  | [] => [(k, v)]
  | (k', v') :: rest => if k' = k then (k, v) :: rest else (k', v') :: insert k v rest

/-- `Object.keys(obj)`. -/
def keys {α : Type} (m : List (String × α)) : List String :=
  m.map (fun e => e.1)

/-! ## Data model -/

/-- The phase of a table (`game.gameState`). -/
inductive GameState where
  | WAITING
  | PREFLOP
  | FLOP
  | TURN
  | RIVER
  | SHOWDOWN
  | SHOWDOWN_COMPLETE
  | GAME_OVER
deriving DecidableEq, Repr

/-- The status of a player (`player.status`). -/
inductive Status where
  | inGame
  | folded
  | allIn
  | sittingOut
deriving DecidableEq, Repr

/-- The four suits. -/
inductive Suit where
  | hearts
  | diamonds
  | clubs
  | spades
deriving DecidableEq, Repr

/-- A playing card. -/
structure Card where
  suit : Suit
  rank : Nat
deriving DecidableEq, Repr

/-- A `Player` object. -/
structure Player where
  id : String
  nickname : String
  chips : Int
  hand : List Card
  status : Status
  currentBet : Int
  totalBetThisHand : Int
  hasActed : Bool
deriving DecidableEq, Repr

instance : Inhabited Player :=
  ⟨{ id := "", nickname := "", chips := 0, hand := [], status := .inGame, currentBet := 0,
     totalBetThisHand := 0, hasActed := false }⟩

/-- A reference to a `Player` object. -/
abbrev Ref := Nat

/-- The `Player` objects of one room, by reference. -/
abbrev Heap := Ref → Player

/-- Assignment to a field of the object behind a reference: `heap[r] = p`. -/
def Heap.set (h : Heap) (r : Ref) (p : Player) : Heap :=
  fun r' => if r' = r then p else h r'

/-- One side pot. -/
structure SidePot where
  amount : Int
  eligiblePlayerIds : List String
deriving DecidableEq, Repr

/-- The fields of a `Game` object that `index.js` reads or writes, with the deck. -/
structure Game where
  players : List Ref
  activePlayers : List Ref
  deck : List Card
  communityCards : List Card
  mainPot : Int
  sidePots : List SidePot
  currentBet : Int
  smallBlind : Int
  bigBlind : Int
  dealerPosition : Int
  smallBlindPosition : Int
  bigBlindPosition : Int
  /-- The id of the player to act; `none` is the sentinel `-1`. -/
  currentPlayerTurn : Option String
  lastRaiser : Option String
  roundComplete : Bool
  gameState : GameState
deriving DecidableEq, Repr

/-- Room settings; `initialChips` may be missing. -/
structure Settings where
  showAllHands : JsVal
  initialChips : Option Int
deriving DecidableEq, Repr

/-- An entry of `room.spectators`. -/
structure Spectator where
  id : String
  nickname : String
deriving DecidableEq, Repr

/-- A row of the leaderboard built by `endGame`. -/
structure LeaderEntry where
  id : String
  nickname : String
  chips : Int
deriving DecidableEq, Repr

/-- A room of the `rooms` map.  `heap` holds the `Player` objects that `players` and
`game` refer to; `nextRef` is the next unused reference. -/
structure Room where
  roomId : String
  players : List (String × Ref)
  spectators : List (String × Spectator)
  heap : Heap
  nextRef : Ref
  game : Game
  maxPlayers : Nat
  creator : String
  /-- `none` when `room.settings` is missing. -/
  settings : Option Settings
  /-- `none` when `room.leaderboard` is `undefined` or `null`. -/
  leaderboard : Option (List LeaderEntry)

/-- A record of `disconnectedPlayers`. -/
structure DisconnectInfo where
  roomId : String
  nickname : String
  lastSeen : Int
  socketId : String
deriving DecidableEq, Repr

/-- The two global maps of `index.js`. -/
structure Server where
  rooms : List (String × Room)
  disconnectedPlayers : List (String × DisconnectInfo)

/-! ## The engine -/

/-- What a `Game` method can reach: the `Game` object and the `Player` objects. -/
structure Table where
  heap : Heap
  game : Game

/-- A method call either returns or throws; in both cases it leaves a table behind. -/
inductive EngineResult (α : Type) where
  | returned (t : Table) (value : α)
  | raised (t : Table) (message : String)

/-- A winner entry of the object returned by `Game.playerAction`. -/
structure Winner where
  playerId : String
  nickname : Option String
  amount : Int
  handDescription : String
  handRank : Int
  handValue : Int
deriving DecidableEq, Repr

/-- An entry of `result.playersHands`. -/
structure PlayerHand where
  playerId : String
  nickname : Option String
  hand : List Card
  handDescription : String
deriving DecidableEq, Repr

/-- The object returned by `Game.playerAction`, when it returns one. -/
structure ActionResult where
  /-- Truthiness of `result.handResult`. -/
  handResult : Bool
  winners : List Winner
  /-- `none` when `result.communityCards` is falsy. -/
  communityCards : Option (List String)
  /-- `none` when `result.playersHands` is missing or not an array. -/
  playersHands : Option (List PlayerHand)
  handComparison : JsVal
deriving DecidableEq, Repr

/-- A player as listed by `Game._getGameState()`; `hand` is `none` when the entry has no
such field. -/
structure PublicPlayer where
  id : String
  nickname : String
  chips : Int
  currentBet : Int
  status : Status
  hand : Option (List Card)
deriving DecidableEq, Repr

/-- The object returned by `Game._getGameState()`. -/
structure Snapshot where
  mainPot : Int
  sidePots : List SidePot
  communityCards : List String
  gameState : GameState
  currentBet : Int
  smallBlind : Int
  bigBlind : Int
  currentPlayerTurn : Option String
  dealerPosition : Int
  smallBlindPosition : Int
  bigBlindPosition : Int
  players : List PublicPlayer
deriving DecidableEq, Repr

/-- The methods of `game.js` that `index.js` calls.  `removePlayer` returns the truthiness
of `removeResult && removeResult.shouldResetGame`. -/
structure Engine where
  newPlayer : String → String → Option Int → Player
  newGame : Heap → List Ref → Table
  cardToString : Card → String
  addPlayer : Table → Ref → Table
  removePlayer : Table → String → Table × Bool
  updatePlayerId : Table → String → String → Table
  startGame : Table → EngineResult Unit
  prepareNextHand : Table → EngineResult Bool
  playerAction : Table → String → JsVal → JsVal → EngineResult (Option ActionResult)
  getGameState : Table → Snapshot

/-! ## What a handler produces -/

/-- The addressee of an emit: `socket.emit` or `io.to(name).emit`. -/
inductive Target where
  | socket (id : String)
  | to (name : String)
deriving DecidableEq, Repr

/-- An entry of the `handResult` payload's `winners`. -/
structure WinnerOut where
  playerId : String
  nickname : String
  amount : Int
  handDescription : String
  handRank : Int
  handValue : Int
deriving DecidableEq, Repr

/-- An entry of the `handResult` payload's `playersHands`. -/
structure PlayerHandOut where
  playerId : String
  nickname : String
  hand : List Card
  handDescription : String
deriving DecidableEq, Repr

/-- The payload of `handResult`. -/
structure HandResultOut where
  winners : List WinnerOut
  communityCards : List String
  playersHands : List PlayerHandOut
  handComparison : JsVal
  showAllHands : Bool
deriving DecidableEq, Repr

/-- The payload of `gameStateUpdate`. -/
structure PublicGameState where
  roomId : String
  mainPot : Int
  sidePots : List SidePot
  communityCards : List String
  gameState : GameState
  currentBet : Int
  smallBlind : Int
  bigBlind : Int
  currentPlayerTurn : Option String
  dealerPosition : Int
  smallBlindPosition : Int
  bigBlindPosition : Int
  players : List PublicPlayer
  creator : String
  settings : Settings
  spectators : List (String × Spectator)
  leaderboard : Option (List LeaderEntry)
deriving DecidableEq, Repr

/-- The payloads of the events of `index.js`. -/
inductive Payload where
  | message (message : String)
  | reconnectSuccess (roomId : String) (isCreator : Bool) (message : String)
  | roomCreated (roomId : String) (isCreator : Bool)
  | roomSettingsUpdate (settings : Option Settings)
  | roomJoined (roomId : String) (isCreator isSpectator : Bool)
  | gameInProgress (roomId : String)
  | spectatorJoined (roomId spectatorId nickname : String)
  | spectatorLeft (roomId spectatorId nickname : String)
  | playerJoined (roomId : String) (players : List String)
  | playerLeft (roomId playerId : String)
  | dealPrivateCards (hand : List Card)
  | handResult (result : HandResultOut)
  | gameOver (message : String) (leaderboard : Option (List LeaderEntry)) (forced : Bool)
  | newMessage (sender : String) (message : JsVal) (isSpectator : Bool)
  | leftRoom (roomId message : String)
  | becameCreator (roomId : String)
  | gameStateUpdate (state : PublicGameState)
  | playerDisconnected (roomId playerId nickname : String) (temporary : Bool)
deriving DecidableEq, Repr

/-- One `emit`. -/
structure Emit where
  target : Target
  event : String
  payload : Payload
deriving DecidableEq, Repr

/-- The `Game` methods that change the table. -/
inductive EngineMethod where
  | addPlayer (ref : Ref)
  | removePlayer (playerId : String)
  | updatePlayerId (oldId newId : String)
  | startGame
  | prepareNextHand
  | playerAction (playerId : String) (action betAmount : JsVal)
deriving DecidableEq, Repr

/-- A call of a `Game` method, with `game.gameState` at the moment of the call. -/
structure EngineCall where
  method : EngineMethod
  phase : GameState
deriving DecidableEq, Repr

/-- A `socket.join(room)` or `socket.leave(room)`. -/
inductive SocketOp where
  | join (socketId room : String)
  | leave (socketId room : String)
deriving DecidableEq, Repr

/-- The closure handed to `setTimeout` by the `disconnect` handler. -/
structure RemovalTimer where
  socketId : String
  roomId : String
  wasCreator : Bool
  delayMs : Nat
deriving DecidableEq, Repr

/-- The result of running one handler. -/
structure Outcome where
  state : Server
  emits : List Emit := []
  calls : List EngineCall := []
  socketOps : List SocketOp := []
  timers : List RemovalTimer := []

/-- The table of a room. -/
def Room.table (room : Room) : Table :=
  { heap := room.heap, game := room.game }

/-- The room after a `Game` method has run on its table. -/
def Room.withTable (room : Room) (t : Table) : Room :=
  { room with heap := t.heap, game := t.game }

/-- Writes a (mutated) room object back under its key. -/
def Server.setRoom (s : Server) (roomId : String) (room : Room) : Server :=
  { s with rooms := insert roomId room s.rooms }

/-- The emit `socket.emit('error', { message })`. -/
def errorTo (socketId message : String) : Emit :=
  { target := .socket socketId, event := "error", payload := .message message }

/-- A handler that returns after `socket.emit('error', { message })`. -/
def reject (s : Server) (socketId message : String) : Outcome :=
  { state := s, emits := [errorTo socketId message] }

/-! ## `broadcastGameState` -/

/-- The settings `broadcastGameState` and `playerAction` install when `room.settings` is
missing: `{ showAllHands: true }`. -/
def defaultSettings : Settings :=
  { showAllHands := .bool true, initialChips := none }

/-- The statement `if (!room.settings) room.settings = { showAllHands: true }`. -/
def Room.ensureSettings (room : Room) : Room :=
  match room.settings with
  | some _ => room
  | none => { room with settings := some defaultSettings }

/-- The settings object of a room after `Room.ensureSettings`. -/
def Room.settingsOrDefault (room : Room) : Settings :=
  match room.settings with
  | some st => st
  | none => defaultSettings

/-- The object `publicGameState` built by `broadcastGameState`. -/
def publicGameState (E : Engine) (roomId : String) (room : Room) : PublicGameState :=
  let gameStateData := E.getGameState room.table
  { roomId := roomId
    mainPot := gameStateData.mainPot
    sidePots := gameStateData.sidePots
    communityCards := gameStateData.communityCards
    gameState := gameStateData.gameState
    currentBet := gameStateData.currentBet
    smallBlind := gameStateData.smallBlind
    bigBlind := gameStateData.bigBlind
    currentPlayerTurn := gameStateData.currentPlayerTurn
    dealerPosition := gameStateData.dealerPosition
    smallBlindPosition := gameStateData.smallBlindPosition
    bigBlindPosition := gameStateData.bigBlindPosition
    players := gameStateData.players
    creator := room.creator
    settings := room.settingsOrDefault
    spectators := room.spectators.map
      (fun e => (e.1, { id := e.2.id, nickname := e.2.nickname }))
    leaderboard := room.leaderboard }

/-- The function `broadcastGameState(roomId)`: the new server state and the emits. -/
def broadcastGameState (E : Engine) (s : Server) (roomId : String) : Server × List Emit :=
  match lookup roomId s.rooms with
  | none => (s, [])
  | some room =>
    (s.setRoom roomId room.ensureSettings,
     [{ target := .to roomId, event := "gameStateUpdate",
        payload := .gameStateUpdate (publicGameState E roomId room) }])

/-- Runs `broadcastGameState(roomId)` at the end of a handler. -/
def Outcome.broadcast (E : Engine) (o : Outcome) (roomId : String) : Outcome :=
  { o with
    state := (broadcastGameState E o.state roomId).1
    emits := o.emits ++ (broadcastGameState E o.state roomId).2 }

/-! ## `playerAction` -/

/-- The expression `room.players[id]?.nickname || "Player " + id`. -/
def roomNickname (room : Room) (playerId : String) : String :=
  match lookup playerId room.players with
  | some r => if (room.heap r).nickname ≠ "" then (room.heap r).nickname
              else "Player " ++ playerId
  | none => "Player " ++ playerId

/-- The expression `x.nickname || room.players[id]?.nickname || "Player " + id`. -/
def nicknameOr (given : Option String) (room : Room) (playerId : String) : String :=
  match given with
  | some n => if n ≠ "" then n else roomNickname room playerId
  | none => roomNickname room playerId

/-- The payload of the `handResult` event, for a room whose settings are present. -/
def handResultOut (E : Engine) (room : Room) (result : ActionResult) : HandResultOut :=
  let shouldShowAllHands : Bool := decide (room.settingsOrDefault.showAllHands ≠ .bool false)
  let winnerPlayerIds := result.winners.map (fun w => w.playerId)
  let hands : List PlayerHandOut :=
    match result.playersHands with
    | some l => l.map (fun ph =>
        { playerId := ph.playerId
          nickname := nicknameOr ph.nickname room ph.playerId
          hand := ph.hand
          handDescription := ph.handDescription })
    | none => []
  let winnersHands := hands.filter (fun ph => decide (ph.playerId ∈ winnerPlayerIds))
  let otherPlayersHands := hands.filter (fun ph => decide (ph.playerId ∉ winnerPlayerIds))
  { winners := result.winners.map (fun winner =>
      { playerId := winner.playerId
        nickname := nicknameOr winner.nickname room winner.playerId
        amount := winner.amount
        handDescription := winner.handDescription
        handRank := winner.handRank
        handValue := winner.handValue })
    communityCards :=
      match result.communityCards with
      | some cs => cs
      | none => room.game.communityCards.map E.cardToString
    playersHands := winnersHands ++ (if shouldShowAllHands then otherPlayersHands else [])
    handComparison := if shouldShowAllHands then result.handComparison else .null
    showAllHands := shouldShowAllHands }

/-- The handler `socket.on('playerAction', ...)`. -/
def playerAction (E : Engine) (s : Server) (socketId roomId : String)
    (action betAmount : JsVal) : Outcome :=
  match lookup roomId s.rooms with
  | none => reject s socketId "房间不存在"
  | some room =>
    if (lookup socketId room.players).isNone then reject s socketId "您不在此房间中"
    else if room.game.gameState = .WAITING ∨ room.game.gameState = .SHOWDOWN_COMPLETE then
      reject s socketId "游戏尚未开始或已结束"
    else
      let call : EngineCall :=
        { method := .playerAction socketId action betAmount, phase := room.game.gameState }
      match E.playerAction room.table socketId action betAmount with
      | .raised t message =>
        { state := s.setRoom roomId (room.withTable t)
          emits := [errorTo socketId message]
          calls := [call] }
      | .returned t result =>
        let room1 := room.withTable t
        match result with
        | some res =>
          if res.handResult then
            let room2 := room1.ensureSettings
            Outcome.broadcast E
              { state := s.setRoom roomId room2
                emits := [{ target := .to roomId, event := "handResult",
                            payload := .handResult (handResultOut E room2 res) }]
                calls := [call] } roomId
          else
            Outcome.broadcast E { state := s.setRoom roomId room1, calls := [call] } roomId
        | none =>
          Outcome.broadcast E { state := s.setRoom roomId room1, calls := [call] } roomId

/-! ## `startGame` and `prepareNextHand` -/

/-- The emits `io.to(player.id).emit('dealPrivateCards', { hand: player.hand })` for the
players of a list. -/
def dealPrivateCards (heap : Heap) (players : List Ref) : List Emit :=
  players.map (fun r =>
    { target := .to (heap r).id, event := "dealPrivateCards",
      payload := .dealPrivateCards (heap r).hand })

/-- The handler `socket.on('startGame', ...)`. -/
def startGame (E : Engine) (s : Server) (socketId roomId : String) : Outcome :=
  match lookup roomId s.rooms with
  | none => reject s socketId "房间不存在"
  | some room =>
    if room.creator ≠ socketId then reject s socketId "只有房间创建者才能开始游戏"
    else if room.game.gameState ≠ .WAITING ∧ room.game.gameState ≠ .SHOWDOWN_COMPLETE then
      reject s socketId "游戏已经开始"
    else if room.game.players.length < 2 then
      reject s socketId "至少需要2个玩家才能开始游戏"
    else if room.game.gameState = .SHOWDOWN_COMPLETE then
      let call : EngineCall := { method := .prepareNextHand, phase := room.game.gameState }
      match E.prepareNextHand room.table with
      | .raised t message =>
        { state := s.setRoom roomId (room.withTable t)
          emits := [errorTo socketId message]
          calls := [call] }
      | .returned t canProceed =>
        if canProceed then
          Outcome.broadcast E
            { state := s.setRoom roomId (room.withTable t)
              emits := dealPrivateCards t.heap t.game.activePlayers
              calls := [call] } roomId
        else
          { state := s.setRoom roomId (room.withTable t)
            emits := [errorTo socketId "游戏结束 - 没有足够的玩家继续游戏"]
            calls := [call] }
    else
      let call : EngineCall := { method := .startGame, phase := room.game.gameState }
      match E.startGame room.table with
      | .raised t message =>
        { state := s.setRoom roomId (room.withTable t)
          emits := [errorTo socketId message]
          calls := [call] }
      | .returned t _ =>
        Outcome.broadcast E
          { state := s.setRoom roomId (room.withTable t)
            emits := dealPrivateCards t.heap t.game.players
            calls := [call] } roomId

/-- The handler `socket.on('prepareNextHand', ...)`. -/
def prepareNextHand (E : Engine) (s : Server) (socketId roomId : String) : Outcome :=
  match lookup roomId s.rooms with
  | none => reject s socketId "房间不存在或游戏未初始化"
  | some room =>
    if room.creator ≠ socketId then reject s socketId "只有房间创建者才能开始下一局游戏"
    else if room.game.gameState = .SHOWDOWN_COMPLETE then
      let call : EngineCall := { method := .prepareNextHand, phase := room.game.gameState }
      match E.prepareNextHand room.table with
      | .raised t message =>
        { state := s.setRoom roomId (room.withTable t)
          emits := [errorTo socketId message]
          calls := [call] }
      | .returned t canProceed =>
        if canProceed then
          Outcome.broadcast E
            { state := s.setRoom roomId (room.withTable t)
              emits := dealPrivateCards t.heap t.game.activePlayers
              calls := [call] } roomId
        else
          { state := s.setRoom roomId (room.withTable t)
            emits := [{ target := .to roomId, event := "gameOver",
                        payload := .gameOver "游戏结束 - 没有足够的玩家继续游戏" none false }]
            calls := [call] }
    else reject s socketId "游戏状态不正确，无法准备下一手"

/-! ## `attemptReconnect` -/

/-- The loop over `disconnectedPlayers.entries()`: the first record of the room and
nickname. -/
def findReconnect (roomId nickname : String) :
    List (String × DisconnectInfo) → Option (String × DisconnectInfo)
  | [] => none
  | (playerId, info) :: rest =>
    if info.roomId = roomId ∧ info.nickname = nickname then some (playerId, info)
    else findReconnect roomId nickname rest

/-- The expression `room.game.players.find(p => p.id === id)`. -/
def findPlayer (heap : Heap) (id : String) : List Ref → Option Ref
  | [] => none
  | r :: rest => if (heap r).id = id then some r else findPlayer heap id rest

/-- The emit `socket.emit('reconnectFailed', ...)`. -/
def reconnectFailed (s : Server) (socketId : String) : Outcome :=
  { state := s
    emits := [{ target := .socket socketId, event := "reconnectFailed",
                payload := .message "重连失败，请重新加入房间" }] }

/-- The handler `socket.on('attemptReconnect', ...)`. -/
def attemptReconnect (E : Engine) (s : Server) (socketId roomId nickname : String) :
    Outcome :=
  match findReconnect roomId nickname s.disconnectedPlayers with
  | none => reconnectFailed s socketId
  | some (playerId, _) =>
    match lookup roomId s.rooms with
    | none => reconnectFailed s socketId
    | some room =>
      match lookup playerId room.players with
      | none => reconnectFailed s socketId
      | some player =>
        let players1 := insert socketId player (erase playerId room.players)
        let heap1 := room.heap.set player { room.heap player with id := socketId }
        let t := E.updatePlayerId { heap := heap1, game := room.game } playerId socketId
        let creator1 := if room.creator = playerId then socketId else room.creator
        let room1 : Room :=
          { room with players := players1, heap := t.heap, game := t.game, creator := creator1 }
        let s1 : Server :=
          { rooms := insert roomId room1 s.rooms
            disconnectedPlayers := erase playerId s.disconnectedPlayers }
        let success : Emit :=
          { target := .socket socketId, event := "reconnectSuccess",
            payload := .reconnectSuccess roomId (decide (creator1 = socketId)) "重新连接成功！" }
        let cards : List Emit :=
          if t.game.gameState ≠ .WAITING ∧ t.game.gameState ≠ .SHOWDOWN_COMPLETE then
            match findPlayer t.heap socketId t.game.players with
            | some playerInGame =>
              [{ target := .socket socketId, event := "dealPrivateCards",
                 payload := .dealPrivateCards (t.heap playerInGame).hand }]
            | none => []
          else []
        Outcome.broadcast E
          { state := s1
            emits := success :: cards
            calls := [{ method := .updatePlayerId playerId socketId,
                        phase := room.game.gameState }]
            socketOps := [.join socketId roomId] } roomId

/-! ## `leaveRoom` and the removal after a disconnection -/

/-- The emit `io.to(creator).emit('gameResetDueToInsufficientPlayers', ...)`. -/
def gameResetNotice (creator : String) : Emit :=
  { target := .to creator, event := "gameResetDueToInsufficientPlayers",
    payload := .message "游戏剩余玩家不足，将回退到准备阶段" }

/-- The part shared by `leaveRoom` and the removal timer: `Game.removePlayer`, the
deletion from `room.players`, and what follows from the number of players left.
`first` holds the emits and socket operations made in between. -/
def removeFromRoom (E : Engine) (s : Server) (socketId roomId : String) (room : Room)
    (wasCreator : Bool) (first : List Emit) (ops : List SocketOp) : Outcome :=
  let call : EngineCall := { method := .removePlayer socketId, phase := room.game.gameState }
  let removeResult := E.removePlayer room.table socketId
  let room1 : Room :=
    { room.withTable removeResult.1 with players := erase socketId room.players }
  match keys room1.players with
  | [] =>
    { state := { s with rooms := erase roomId s.rooms }
      emits := first, calls := [call], socketOps := ops }
  | newCreator :: _ =>
    if wasCreator then
      let room2 : Room := { room1 with creator := newCreator }
      Outcome.broadcast E
        { state := s.setRoom roomId room2
          emits := first ++
            [{ target := .to newCreator, event := "becameCreator",
               payload := .becameCreator roomId }] ++
            (if removeResult.2 then [gameResetNotice newCreator] else [])
          calls := [call], socketOps := ops } roomId
    else
      Outcome.broadcast E
        { state := s.setRoom roomId room1
          emits := first ++
            (if removeResult.2 then [gameResetNotice room1.creator] else []) ++
            [{ target := .to roomId, event := "playerLeft",
               payload := .playerLeft roomId socketId }]
          calls := [call], socketOps := ops } roomId

/-- The handler `socket.on('leaveRoom', ...)`. -/
def leaveRoom (E : Engine) (s : Server) (socketId roomId : String) : Outcome :=
  match lookup roomId s.rooms with
  | none => reject s socketId "您不在此房间中"
  | some room =>
    if (lookup socketId room.players).isNone then reject s socketId "您不在此房间中"
    else
      let s1 : Server := { s with disconnectedPlayers := erase socketId s.disconnectedPlayers }
      removeFromRoom E s1 socketId roomId room (decide (room.creator = socketId))
        [{ target := .socket socketId, event := "leftRoom",
           payload := .leftRoom roomId "已成功退出房间" }]
        [.leave socketId roomId]

/-- The callback of the `setTimeout` set by the `disconnect` handler, run when the timer
fires. -/
def disconnectTimeout (E : Engine) (s : Server) (timer : RemovalTimer) : Outcome :=
  if (lookup timer.socketId s.disconnectedPlayers).isNone then { state := s }
  else
    let o : Outcome :=
      match lookup timer.roomId s.rooms with
      | none => { state := s }
      | some currentRoom =>
        if (lookup timer.socketId currentRoom.players).isNone then { state := s }
        else removeFromRoom E s timer.socketId timer.roomId currentRoom timer.wasCreator [] []
    { o with
      state := { o.state with
        disconnectedPlayers := erase timer.socketId o.state.disconnectedPlayers } }

/-- The loop of the `disconnect` handler over `rooms.entries()`, on the rooms not yet
visited: the first room that holds the socket as a spectator or as a player is treated
and the loop ends.  `records` is the map `disconnectedPlayers`; the state of the outcome
holds the rooms of the list, the treated one changed in place. -/
def disconnectLoop (records : List (String × DisconnectInfo)) (socketId : String) (now : Int) :
    List (String × Room) → Outcome
  | [] => { state := { rooms := [], disconnectedPlayers := records } }
  | (roomId, room) :: rest =>
    match lookup socketId room.spectators with
    | some spectator =>
      { state :=
          { rooms := (roomId, { room with spectators := erase socketId room.spectators }) :: rest
            disconnectedPlayers := records }
        emits := [{ target := .to roomId, event := "spectatorLeft",
                    payload := .spectatorLeft roomId socketId spectator.nickname }] }
    | none =>
      match lookup socketId room.players with
      | some player =>
        { state :=
            { rooms := (roomId, room) :: rest
              disconnectedPlayers := insert socketId
                { roomId := roomId, nickname := (room.heap player).nickname, lastSeen := now,
                  socketId := socketId } records }
          emits := [{ target := .to roomId, event := "playerDisconnected",
                      payload := .playerDisconnected roomId socketId
                        (room.heap player).nickname true }]
          timers := [{ socketId := socketId, roomId := roomId,
                       wasCreator := decide (room.creator = socketId), delayMs := 30000 }] }
      | none =>
        let o := disconnectLoop records socketId now rest
        { o with state := { o.state with rooms := (roomId, room) :: o.state.rooms } }

/-- The handler `socket.on('disconnect', ...)`; `now` is `Date.now()`. -/
def disconnect (s : Server) (socketId : String) (now : Int) : Outcome :=
  disconnectLoop s.disconnectedPlayers socketId now s.rooms

/-! ## `resetGame`, `endGame`, `closeRoom` -/

/-- The expression `room.settings?.initialChips || 1000`. -/
def Room.initialChips (room : Room) : Int :=
  match room.settings with
  | some st =>
    match st.initialChips with
    | some n => if n ≠ 0 then n else 1000
    | none => 1000
  | none => 1000

/-- The loop `players.forEach(player => ...)` writing the fields of each player. -/
def forEachPlayer (f : Player → Player) (heap : Heap) (players : List Ref) : Heap :=
  players.foldl (fun h r => h.set r (f (h r))) heap

/-- The body of the `forEach` of `resetGame`. -/
def resetPlayer (initialChips : Int) (player : Player) : Player :=
  { player with
    hand := [], status := .inGame, currentBet := 0, totalBetThisHand := 0,
    hasActed := false, chips := initialChips }

/-- The handler `socket.on('resetGame', ...)`. -/
def resetGame (E : Engine) (s : Server) (socketId roomId : String) : Outcome :=
  match lookup roomId s.rooms with
  | none => reject s socketId "房间不存在"
  | some room =>
    if room.creator ≠ socketId then reject s socketId "只有房间创建者才能重置游戏"
    else if (keys room.players).length < 2 then reject s socketId "至少需要2个玩家才能重置游戏"
    else
      let game1 : Game :=
        { room.game with
          gameState := .WAITING, mainPot := 0, sidePots := [], communityCards := [],
          currentBet := 0, lastRaiser := none, roundComplete := false,
          currentPlayerTurn := none, activePlayers := [] }
      let room1 : Room :=
        { room with
          game := game1, leaderboard := none
          heap := forEachPlayer (resetPlayer room.initialChips) room.heap room.game.players }
      let o : Outcome :=
        Outcome.broadcast E
          { state := s.setRoom roomId room1
            emits := (keys room.players).map (fun playerId =>
              { target := .to playerId, event := "dealPrivateCards",
                payload := .dealPrivateCards [] }) } roomId
      { o with
        emits := o.emits ++
          [{ target := .to roomId, event := "gameReset",
             payload := .message "游戏已重置到准备阶段" }] }

/-- Inserts an entry in a list sorted by chips, largest first, before the first entry
that has no more chips. -/
def insertByChips (e : LeaderEntry) : List LeaderEntry → List LeaderEntry
  | [] => [e]
  | x :: rest => if e.chips ≥ x.chips then e :: x :: rest else x :: insertByChips e rest

/-- The call `.sort((a, b) => b.chips - a.chips)`, a stable sort, largest first. -/
def sortByChips : List LeaderEntry → List LeaderEntry
  | [] => []
  | e :: rest => insertByChips e (sortByChips rest)

/-- The leaderboard `endGame` builds from `room.game.players`. -/
def leaderboardOf (heap : Heap) (players : List Ref) : List LeaderEntry :=
  sortByChips (players.map (fun r =>
    { id := (heap r).id, nickname := (heap r).nickname, chips := (heap r).chips }))

/-- The handler `socket.on('endGame', ...)`. -/
def endGame (E : Engine) (s : Server) (socketId roomId : String) : Outcome :=
  match lookup roomId s.rooms with
  | none => reject s socketId "房间不存在"
  | some room =>
    if room.creator ≠ socketId then reject s socketId "只有房间创建者才能结束游戏"
    else if room.game.gameState = .WAITING ∨ room.game.gameState = .GAME_OVER then
      reject s socketId "游戏未在进行中"
    else
      let leaderboard := leaderboardOf room.heap room.game.players
      let room1 : Room :=
        { room with
          game := { room.game with gameState := .GAME_OVER }
          leaderboard := some leaderboard }
      Outcome.broadcast E
        { state := s.setRoom roomId room1
          emits := [{ target := .to roomId, event := "gameOver",
                      payload := .gameOver "游戏已由房主结束" (some leaderboard) true }] } roomId

/-- The handler `socket.on('closeRoom', ...)`.  The code calls `leave` for the keys of
`room.players` whose socket is still in `io.sockets.sockets`; which sockets are connected
is not part of the state, and a `leave` is listed here for every key. -/
def closeRoom (s : Server) (socketId roomId : String) : Outcome :=
  match lookup roomId s.rooms with
  | none => reject s socketId "房间不存在"
  | some room =>
    if room.creator ≠ socketId then reject s socketId "只有房间创建者才能关闭房间"
    else
      { state := { s with rooms := erase roomId s.rooms }
        emits := [{ target := .to roomId, event := "roomClosed",
                    payload := .message "房主已关闭房间" }]
        socketOps := (keys room.players).map (fun playerId => .leave playerId roomId) }

/-! ## Settings -/

/-- The `settings` argument of `updateRoomSettings`: `showAllHands` is `none` when the
object has no such property. -/
structure SettingsUpdate where
  showAllHands : Option JsVal
deriving DecidableEq, Repr

/-- The handler `socket.on('updateRoomSettings', ...)`. -/
def updateRoomSettings (E : Engine) (s : Server) (socketId roomId : String)
    (settings : SettingsUpdate) : Outcome :=
  match lookup roomId s.rooms with
  | none => reject s socketId "房间不存在"
  | some room =>
    if room.creator ≠ socketId then reject s socketId "只有房间创建者才能修改设置"
    else
      let settings0 := room.settingsOrDefault
      let settings1 : Settings :=
        match settings.showAllHands with
        | some v => { settings0 with showAllHands := v }
        | none => settings0
      let room1 : Room := { room with settings := some settings1 }
      Outcome.broadcast E
        { state := s.setRoom roomId room1
          emits := [{ target := .to roomId, event := "roomSettingsUpdate",
                      payload := .roomSettingsUpdate (some settings1) }] } roomId

/-- White space as `parseInt` and `trim` see it. -/
def isJsSpace (c : Char) : Bool :=
  let n := c.toNat
  n = 9 || n = 10 || n = 11 || n = 12 || n = 13 || n = 32 || n = 160 || n = 5760 ||
  (8192 ≤ n && n ≤ 8202) || n = 8232 || n = 8233 || n = 8239 || n = 8287 || n = 12288 ||
  n = 65279

/-- The value of a digit in a radix, if it is one. -/
def digitValue (radix : Nat) (c : Char) : Option Nat :=
  let n := c.toNat
  let v : Option Nat :=
    if 48 ≤ n ∧ n ≤ 57 then some (n - 48)
    else if 97 ≤ n ∧ n ≤ 122 then some (n - 87)
    else if 65 ≤ n ∧ n ≤ 90 then some (n - 55)
    else none
  match v with
  | some d => if d < radix then some d else none
  | none => none

/-- Reads digits while there are some: the value so far and whether one was read. -/
def readDigits (radix : Nat) : List Char → Nat → Bool → Option Nat
  | [], acc, seen => if seen then some acc else none
  | c :: rest, acc, seen =>
    match digitValue radix c with
    | some d => readDigits radix rest (acc * radix + d) true
    | none => if seen then some acc else none

/-- The digits after the sign: a `0x` or `0X` start selects radix 16. -/
def readUnsigned : List Char → Option Nat
  | '0' :: 'x' :: rest => readDigits 16 rest 0 false
  | '0' :: 'X' :: rest => readDigits 16 rest 0 false
  | cs => readDigits 10 cs 0 false

/-- The function `parseInt` on a string; `none` is `NaN`.  The result is the exact
integer; JavaScript rounds it to a double, which differs above 2^53 only. -/
def parseIntString (str : String) : Option Int :=
  match str.toList.dropWhile isJsSpace with
  | '-' :: rest => (readUnsigned rest).map (fun n => - (n : Int))
  | '+' :: rest => (readUnsigned rest).map (fun n => (n : Int))
  | cs => (readUnsigned cs).map (fun n => (n : Int))

/-- The first decimal digit of a natural number. -/
def leadingDigit (n : Nat) : Nat :=
  if n < 10 then n else leadingDigit (n / 10)
decreasing_by omega

/-- The function `parseInt(x)`; `none` is `NaN`.  A number is integral here; from `10^21`
on its decimal string has an exponent and only the digit before the point is read. -/
def parseInt : JsVal → Option Int
  | .undefined => none
  | .null => none
  | .bool _ => none
  | .num n =>
    if n.natAbs < 10 ^ 21 then some n
    else if n < 0 then some (- (leadingDigit n.natAbs : Int))
    else some (leadingDigit n.natAbs : Int)
  | .str str => parseIntString str

/-- The assignment `player.chips = chips`. -/
def setChips (chips : Int) (player : Player) : Player :=
  { player with chips := chips }

/-- The settings `updateInitialChips` installs when `room.settings` is missing. -/
def defaultChipSettings : Settings :=
  { showAllHands := .bool true, initialChips := some 1000 }

/-- The handler `socket.on('updateInitialChips', ...)`. -/
def updateInitialChips (E : Engine) (s : Server) (socketId roomId : String)
    (initialChips : JsVal) : Outcome :=
  match lookup roomId s.rooms with
  | none => reject s socketId "房间不存在"
  | some room =>
    if room.creator ≠ socketId then reject s socketId "只有房间创建者才能修改筹码设置"
    else
      match parseInt initialChips with
      | none => reject s socketId "筹码数量必须在500到50000之间"
      | some chips =>
        if chips < 500 ∨ chips > 50000 then reject s socketId "筹码数量必须在500到50000之间"
        else
          let settings0 : Settings :=
            match room.settings with
            | some st => st
            | none => defaultChipSettings
          let settings1 : Settings := { settings0 with initialChips := some chips }
          let heap1 := forEachPlayer (setChips chips) room.heap
            (room.players.map (fun e => e.2))
          let heap2 := forEachPlayer (setChips chips) heap1 room.game.players
          let room1 : Room := { room with settings := some settings1, heap := heap2 }
          Outcome.broadcast E
            { state := s.setRoom roomId room1
              emits := [{ target := .to roomId, event := "roomSettingsUpdate",
                          payload := .roomSettingsUpdate (some settings1) }] } roomId

/-! ## Rooms: `createRoom`, `joinRoom`, the two switches, `sendMessage` -/

/-- The method `trim` of a string. -/
def jsTrim (str : String) : String :=
  String.mk (((str.toList.dropWhile isJsSpace).reverse.dropWhile isJsSpace).reverse)

/-- The settings of a new room. -/
def newRoomSettings : Settings :=
  { showAllHands := .bool true, initialChips := some 1000 }

/-- The handler `socket.on('createRoom', ...)`; `roomId` is what `generateRoomId()`
returns. -/
def createRoom (E : Engine) (s : Server) (socketId roomId nickname : String) : Outcome :=
  if jsTrim nickname = "" then reject s socketId "昵称不能为空"
  else
    let heap0 : Heap := Heap.set (fun _ => default) 0 (E.newPlayer socketId (jsTrim nickname) none)
    let t := E.newGame heap0 [0]
    let room : Room :=
      { roomId := roomId
        players := [(socketId, 0)]
        spectators := []
        heap := t.heap
        nextRef := 1
        game := t.game
        maxPlayers := 8
        creator := socketId
        settings := some newRoomSettings
        leaderboard := none }
    let o : Outcome :=
      Outcome.broadcast E
        { state := s.setRoom roomId room
          emits := [{ target := .socket socketId, event := "roomCreated",
                      payload := .roomCreated roomId true }]
          socketOps := [.join socketId roomId] } roomId
    { o with
      emits := o.emits ++
        [{ target := .socket socketId, event := "roomSettingsUpdate",
           payload := .roomSettingsUpdate (some newRoomSettings) }] }

/-- The part shared by `joinRoom` and `switchToPlayer`: a new `Player` is put in
`room.players` and handed to `Game.addPlayer`. -/
def seatPlayer (E : Engine) (room : Room) (socketId nickname : String) : Room :=
  let player := room.nextRef
  let heap1 := room.heap.set player (E.newPlayer socketId nickname (some room.initialChips))
  let t := E.addPlayer { heap := heap1, game := room.game } player
  { room with
    players := insert socketId player room.players
    heap := t.heap, game := t.game, nextRef := room.nextRef + 1 }

/-- The ids `room.game.players.map(p => p.id)`. -/
def Room.gamePlayerIds (room : Room) : List String :=
  room.game.players.map (fun r => (room.heap r).id)

/-- The handler `socket.on('joinRoom', ...)`. -/
def joinRoom (E : Engine) (s : Server) (socketId roomId nickname : String)
    (asSpectator : Bool) : Outcome :=
  if jsTrim nickname = "" then reject s socketId "昵称不能为空"
  else
    match lookup roomId s.rooms with
    | none => reject s socketId "Room not found"
    | some room =>
      if (lookup socketId room.players).isSome ∨ (lookup socketId room.spectators).isSome then
        reject s socketId "您已在此房间中"
      else if room.game.gameState ≠ .WAITING ∧ asSpectator = false then
        { state := s
          emits := [{ target := .socket socketId, event := "gameInProgress",
                      payload := .gameInProgress roomId }] }
      else if asSpectator = true ∨ room.game.gameState ≠ .WAITING then
        let room1 : Room :=
          { room with
            spectators := insert socketId { id := socketId, nickname := jsTrim nickname }
              room.spectators }
        Outcome.broadcast E
          { state := s.setRoom roomId room1
            emits := [{ target := .socket socketId, event := "roomJoined",
                        payload := .roomJoined roomId false true },
                      { target := .to roomId, event := "spectatorJoined",
                        payload := .spectatorJoined roomId socketId (jsTrim nickname) }]
            socketOps := [.join socketId roomId] } roomId
      else if (keys room.players).length ≥ room.maxPlayers then
        reject s socketId "Room is full"
      else
        let room1 := seatPlayer E room socketId (jsTrim nickname)
        Outcome.broadcast E
          { state := s.setRoom roomId room1
            emits := [{ target := .socket socketId, event := "roomJoined",
                        payload := .roomJoined roomId (decide (room.creator = socketId)) false },
                      { target := .to roomId, event := "playerJoined",
                        payload := .playerJoined roomId room1.gamePlayerIds }]
            calls := [{ method := .addPlayer room.nextRef, phase := room.game.gameState }]
            socketOps := [.join socketId roomId] } roomId

/-- The handler `socket.on('switchToPlayer', ...)`. -/
def switchToPlayer (E : Engine) (s : Server) (socketId roomId : String) : Outcome :=
  match lookup roomId s.rooms with
  | none => reject s socketId "房间不存在"
  | some room =>
    if room.game.gameState ≠ .WAITING then reject s socketId "游戏已开始，无法加入对局"
    else
      match lookup socketId room.spectators with
      | none => reject s socketId "您不是旁观者"
      | some spectator =>
        if (keys room.players).length ≥ room.maxPlayers then reject s socketId "房间已满"
        else
          let room0 : Room := { room with spectators := erase socketId room.spectators }
          let room1 := seatPlayer E room0 socketId spectator.nickname
          Outcome.broadcast E
            { state := s.setRoom roomId room1
              emits := [{ target := .socket socketId, event := "roomJoined",
                          payload := .roomJoined roomId (decide (room.creator = socketId)) false },
                        { target := .to roomId, event := "playerJoined",
                          payload := .playerJoined roomId room1.gamePlayerIds },
                        { target := .to roomId, event := "spectatorLeft",
                          payload := .spectatorLeft roomId socketId spectator.nickname }]
              calls := [{ method := .addPlayer room.nextRef, phase := room.game.gameState }] }
            roomId

/-- The handler `socket.on('switchToSpectator', ...)`. -/
def switchToSpectator (E : Engine) (s : Server) (socketId roomId : String) : Outcome :=
  match lookup roomId s.rooms with
  | none => reject s socketId "房间不存在"
  | some room =>
    if room.game.gameState ≠ .WAITING then reject s socketId "游戏进行中，无法切换为旁观者"
    else
      match lookup socketId room.players with
      | none => reject s socketId "您不是玩家"
      | some player =>
        if room.creator = socketId then reject s socketId "房间创建者无法切换为旁观者"
        else
          let t := (E.removePlayer room.table socketId).1
          let room1 : Room :=
            { room.withTable t with
              players := erase socketId room.players
              spectators := insert socketId
                { id := socketId, nickname := (t.heap player).nickname } room.spectators }
          Outcome.broadcast E
            { state := s.setRoom roomId room1
              emits := [{ target := .socket socketId, event := "roomJoined",
                          payload := .roomJoined roomId false true },
                        { target := .to roomId, event := "playerLeft",
                          payload := .playerLeft roomId socketId },
                        { target := .to roomId, event := "spectatorJoined",
                          payload := .spectatorJoined roomId socketId
                            (t.heap player).nickname }]
              calls := [{ method := .removePlayer socketId, phase := room.game.gameState }] }
            roomId

/-- The handler `socket.on('sendMessage', ...)`. -/
def sendMessage (s : Server) (socketId roomId : String) (message : JsVal) : Outcome :=
  match lookup roomId s.rooms with
  | none => { state := s }
  | some room =>
    let sender : String :=
      match lookup socketId room.players with
      | some player => (room.heap player).nickname
      | none =>
        match lookup socketId room.spectators with
        | some spectator => spectator.nickname
        | none => "Unknown"
    let isSpectator : Bool :=
      (lookup socketId room.players).isNone && (lookup socketId room.spectators).isSome
    { state := s
      emits := [{ target := .to roomId, event := "newMessage",
                  payload := .newMessage sender message isSpectator }] }

/-! ## The requests the server reacts to -/

/-- The function `cleanupDisconnectedPlayers`, run every minute; `now` is `Date.now()`. -/
def cleanupDisconnectedPlayers (s : Server) (now : Int) : Outcome :=
  { state := { s with
      disconnectedPlayers :=
        s.disconnectedPlayers.filter (fun e => decide (¬ (now - e.2.lastSeen > 30000))) } }

/-- An event of a socket with its arguments, the firing of a removal timer, or a run of
the periodic cleanup. -/
inductive Request where
  | attemptReconnect (socketId roomId nickname : String)
  | createRoom (socketId roomId nickname : String)
  | joinRoom (socketId roomId nickname : String) (asSpectator : Bool)
  | startGame (socketId roomId : String)
  | switchToPlayer (socketId roomId : String)
  | switchToSpectator (socketId roomId : String)
  | playerAction (socketId roomId : String) (action betAmount : JsVal)
  | prepareNextHand (socketId roomId : String)
  | sendMessage (socketId roomId : String) (message : JsVal)
  | leaveRoom (socketId roomId : String)
  | resetGame (socketId roomId : String)
  | endGame (socketId roomId : String)
  | closeRoom (socketId roomId : String)
  | disconnect (socketId : String) (now : Int)
  | removalTimeout (timer : RemovalTimer)
  | updateRoomSettings (socketId roomId : String) (settings : SettingsUpdate)
  | updateInitialChips (socketId roomId : String) (initialChips : JsVal)
  | cleanup (now : Int)
deriving DecidableEq, Repr

/-- The handler that runs for a request. -/
def handle (E : Engine) (s : Server) : Request → Outcome
  | .attemptReconnect socketId roomId nickname => attemptReconnect E s socketId roomId nickname
  | .createRoom socketId roomId nickname => createRoom E s socketId roomId nickname
  | .joinRoom socketId roomId nickname asSpectator =>
    joinRoom E s socketId roomId nickname asSpectator
  | .startGame socketId roomId => startGame E s socketId roomId
  | .switchToPlayer socketId roomId => switchToPlayer E s socketId roomId
  | .switchToSpectator socketId roomId => switchToSpectator E s socketId roomId
  | .playerAction socketId roomId action betAmount =>
    playerAction E s socketId roomId action betAmount
  | .prepareNextHand socketId roomId => prepareNextHand E s socketId roomId
  | .sendMessage socketId roomId message => sendMessage s socketId roomId message
  | .leaveRoom socketId roomId => leaveRoom E s socketId roomId
  | .resetGame socketId roomId => resetGame E s socketId roomId
  | .endGame socketId roomId => endGame E s socketId roomId
  | .closeRoom socketId roomId => closeRoom s socketId roomId
  | .disconnect socketId now => disconnect s socketId now
  | .removalTimeout timer => disconnectTimeout E s timer
  | .updateRoomSettings socketId roomId settings =>
    updateRoomSettings E s socketId roomId settings
  | .updateInitialChips socketId roomId initialChips =>
    updateInitialChips E s socketId roomId initialChips
  | .cleanup now => cleanupDisconnectedPlayers s now

/-! ## An engine after the spec

`game.js` is not among the sources.  The definitions of this section follow what the spec
says of the engine, as far as the server's handlers depend on it, and give one concrete
`Engine` on which the handlers can be run. -/

/-- Modelled from the spec: the class `Player` of `game.js` is missing.  A new player is
in-game with an empty hand and no bets; `index.js` uses 1000 chips as the default. -/
def Spec.newPlayer (id nickname : String) (chips : Option Int) : Player :=
  { id := id, nickname := nickname, chips := chips.getD 1000, hand := [], status := .inGame,
    currentBet := 0, totalBetThisHand := 0, hasActed := false }

/-- Modelled from the spec: `Card.toString` of `game.js` is missing; a card is written as
its rank followed by a letter for its suit. -/
def Spec.cardToString (c : Card) : String :=
  toString c.rank ++
    (match c.suit with
     | .hearts => "h"
     | .diamonds => "d"
     | .clubs => "c"
     | .spades => "s")

/-- Modelled from the spec: the constructor of `Game` is missing.  A new game waits with
the given players seated, no cards, empty pots and nobody to act. -/
def Spec.newGame (heap : Heap) (players : List Ref) : Table :=
  { heap := heap
    game :=
      { players := players, activePlayers := [], deck := [], communityCards := []
        mainPot := 0, sidePots := [], currentBet := 0, smallBlind := 10, bigBlind := 20
        dealerPosition := 0, smallBlindPosition := 0, bigBlindPosition := 0
        currentPlayerTurn := none, lastRaiser := none, roundComplete := false
        gameState := .WAITING } }

/-- Modelled from the spec: `Game.addPlayer` is missing; the player takes the next seat. -/
def Spec.addPlayer (t : Table) (player : Ref) : Table :=
  { t with game := { t.game with players := t.game.players ++ [player] } }

/-- The number of listed players whose status is in-game. -/
def inGameCount (heap : Heap) (players : List Ref) : Nat :=
  (players.filter (fun r => decide ((heap r).status = .inGame))).length

/-- Whether a hand is being played. -/
def GameState.inProgress : GameState → Bool
  | .PREFLOP => true
  | .FLOP => true
  | .TURN => true
  | .RIVER => true
  | _ => false

/-- Modelled from the spec: `Game.removePlayer` is missing.  The seat leaves `players` and
`activePlayers`, the chips already committed stay in the pot, and when fewer than 2
in-game players are left during a hand the result flags `shouldResetGame`; reverting the
table to `WAITING` is left to the caller. -/
def Spec.removePlayer (t : Table) (playerId : String) : Table × Bool :=
  let stays : Ref → Bool := fun r => decide ((t.heap r).id ≠ playerId)
  let game1 : Game :=
    { t.game with
      players := t.game.players.filter stays
      activePlayers := t.game.activePlayers.filter stays }
  ({ t with game := game1 },
   t.game.gameState.inProgress && decide (inGameCount t.heap game1.players < 2))

/-- Modelled from the spec: the body of `Game.updatePlayerId` for one player. -/
def Spec.rebind (oldId newId : String) (p : Player) : Player :=
  if p.id = oldId then { p with id := newId } else p

/-- Modelled from the spec: `Game.updatePlayerId` is missing.  The player whose id is the
old id gets the new id and nothing else changes; without such a player nothing happens. -/
def Spec.updatePlayerId (t : Table) (oldId newId : String) : Table :=
  { t with heap := forEachPlayer (Spec.rebind oldId newId) t.heap t.game.players }

/-- Modelled from the spec: the two hole cards of the seat of an index, dealt from the
front of the deck. -/
def holeCards (deck : List Card) (seat : Nat) : List Card :=
  (deck.drop (2 * seat)).take 2

/-- Modelled from the spec: deals the hole cards of the seats from an index on and clears
their per-hand fields. -/
def dealSeats (deck : List Card) : Nat → List Ref → Heap → Heap
  | _, [], heap => heap
  | seat, r :: rest, heap =>
    dealSeats deck (seat + 1) rest
      (heap.set r { heap r with
        hand := holeCards deck seat, status := .inGame, currentBet := 0,
        totalBetThisHand := 0, hasActed := false })

/-- Modelled from the spec: posts a blind for a seat, the whole stack, all-in, when it
does not cover the blind. -/
def postBlind (heap : Heap) (r : Ref) (blind : Int) : Heap :=
  let p := heap r
  if p.chips ≤ blind then
    heap.set r { p with
      chips := 0, currentBet := p.chips, totalBetThisHand := p.chips, status := .allIn }
  else
    heap.set r { p with
      chips := p.chips - blind, currentBet := blind, totalBetThisHand := blind }

/-- Modelled from the spec: the start of a hand in `game.js` is missing.  With the dealer
on a given seat: two hole cards per player from the front of the deck, blinds on the next
two seats (heads-up the dealer posts the small blind), the bets counted in the main pot,
phase `PREFLOP`, and the seat after the big blind to act. -/
def Spec.beginHand (t : Table) (dealer : Nat) : Table :=
  let seats := t.game.players
  let n := seats.length
  let sb := if n = 2 then dealer % n else (dealer + 1) % n
  let bb := (sb + 1) % n
  let heap1 := dealSeats t.game.deck 0 seats t.heap
  let heap2 := postBlind heap1 (seats.getD sb 0) t.game.smallBlind
  let heap3 := postBlind heap2 (seats.getD bb 0) t.game.bigBlind
  { heap := heap3
    game :=
      { t.game with
        activePlayers := seats
        deck := t.game.deck.drop (2 * n)
        communityCards := []
        mainPot := (heap3 (seats.getD sb 0)).currentBet + (heap3 (seats.getD bb 0)).currentBet
        sidePots := []
        currentBet := t.game.bigBlind
        dealerPosition := (dealer % n : Nat)
        smallBlindPosition := (sb : Nat)
        bigBlindPosition := (bb : Nat)
        currentPlayerTurn := some (heap3 (seats.getD ((bb + 1) % n) 0)).id
        lastRaiser := none
        roundComplete := false
        gameState := .PREFLOP } }

/-- Modelled from the spec: `Game.startGame` is missing.  Only from `WAITING` and with at
least 2 in-game players; otherwise it fails and changes nothing. -/
def Spec.startGame (t : Table) : EngineResult Unit :=
  if t.game.gameState ≠ .WAITING then .raised t "InvalidPhase"
  else if inGameCount t.heap t.game.players < 2 then .raised t "NotEnoughPlayers"
  else .returned (Spec.beginHand t t.game.dealerPosition.toNat) ()

/-- The number of listed players who have chips. -/
def withChipsCount (heap : Heap) (players : List Ref) : Nat :=
  (players.filter (fun r => decide ((heap r).chips > 0))).length

/-- Modelled from the spec: `Game.prepareNextHand` is missing.  Only from
`SHOWDOWN_COMPLETE`; with fewer than 2 players with chips it returns the failure signal
and leaves the transition to the caller; otherwise the dealer moves on and the next hand
begins. -/
def Spec.prepareNextHand (t : Table) : EngineResult Bool :=
  if t.game.gameState ≠ .SHOWDOWN_COMPLETE then .raised t "InvalidPhase"
  else if withChipsCount t.heap t.game.players < 2 then .returned t false
  else .returned (Spec.beginHand t (t.game.dealerPosition.toNat + 1)) true

/-- The id of the first in-game player of a list. -/
def firstInGame (heap : Heap) : List Ref → Option String
  | [] => none
  | r :: rest => if (heap r).status = .inGame then some (heap r).id else firstInGame heap rest

/-- The players of a list that have not folded. -/
def contenders (heap : Heap) (players : List Ref) : List Ref :=
  players.filter (fun r => decide ((heap r).status ≠ .folded))

/-- The sum of the amounts of the side pots. -/
def sidePotTotal (pots : List SidePot) : Int :=
  (pots.map (fun sp => sp.amount)).sum

/-- Modelled from the spec: `Game.playerAction` is missing.  It fails with `InvalidPhase`
in `WAITING`, `SHOWDOWN_COMPLETE` and `GAME_OVER`, with `NotYourTurn` for a player who is
not to act, and changes nothing then.  Of the legal actions only `fold` is modelled: the
player is folded and the turn passes on, or, with one contender left, that player wins the
pots uncontested and the phase is `SHOWDOWN_COMPLETE`.  Other actions are refused. -/
def Spec.playerAction (t : Table) (playerId : String) (action _betAmount : JsVal) :
    EngineResult (Option ActionResult) :=
  if t.game.gameState = .WAITING ∨ t.game.gameState = .SHOWDOWN_COMPLETE ∨
      t.game.gameState = .GAME_OVER then .raised t "InvalidPhase"
  else if t.game.currentPlayerTurn ≠ some playerId then .raised t "NotYourTurn"
  else if action ≠ .str "fold" then .raised t "IllegalAction"
  else
    match findPlayer t.heap playerId t.game.players with
    | none => .raised t "NotYourTurn"
    | some r =>
      let heap1 := t.heap.set r { t.heap r with status := .folded, hasActed := true }
      let active := t.game.activePlayers.filter (fun x => decide (x ≠ r))
      match contenders heap1 t.game.players with
      | [w] =>
        let amount := t.game.mainPot + sidePotTotal t.game.sidePots
        let heap2 := heap1.set w { heap1 w with chips := (heap1 w).chips + amount }
        .returned
          { heap := heap2
            game := { t.game with
              activePlayers := active, mainPot := 0, sidePots := []
              currentPlayerTurn := none, gameState := .SHOWDOWN_COMPLETE } }
          (some
            { handResult := true
              winners := [{ playerId := (heap2 w).id, nickname := some (heap2 w).nickname
                            amount := amount, handDescription := "uncontested"
                            handRank := 0, handValue := 0 }]
              communityCards := none
              playersHands := some []
              handComparison := .null })
      | _ =>
        .returned
          { heap := heap1
            game := { t.game with
              activePlayers := active
              currentPlayerTurn := firstInGame heap1 active } }
          none

/-- Modelled from the spec: `Game._getGameState` is missing.  The snapshot lists the pots,
the community cards, the phase, the turn, the seats of dealer and blinds, and the public
fields of each player; hole cards are not part of it. -/
def Spec.getGameState (t : Table) : Snapshot :=
  { mainPot := t.game.mainPot
    sidePots := t.game.sidePots
    communityCards := t.game.communityCards.map Spec.cardToString
    gameState := t.game.gameState
    currentBet := t.game.currentBet
    smallBlind := t.game.smallBlind
    bigBlind := t.game.bigBlind
    currentPlayerTurn := t.game.currentPlayerTurn
    dealerPosition := t.game.dealerPosition
    smallBlindPosition := t.game.smallBlindPosition
    bigBlindPosition := t.game.bigBlindPosition
    players := t.game.players.map (fun r =>
      { id := (t.heap r).id, nickname := (t.heap r).nickname, chips := (t.heap r).chips
        currentBet := (t.heap r).currentBet, status := (t.heap r).status, hand := none }) }

/-- The engine made of the definitions above. -/
def specEngine : Engine :=
  { newPlayer := Spec.newPlayer
    newGame := Spec.newGame
    cardToString := Spec.cardToString
    addPlayer := Spec.addPlayer
    removePlayer := Spec.removePlayer
    updatePlayerId := Spec.updatePlayerId
    startGame := Spec.startGame
    prepareNextHand := Spec.prepareNextHand
    playerAction := Spec.playerAction
    getGameState := Spec.getGameState }

/-! ## Quantities and sample states -/

/-- The sum of the chips of the listed players. -/
def chipsOf (heap : Heap) (players : List Ref) : Int :=
  (players.map (fun r => (heap r).chips)).sum

/-- The quantity `sum(players' chips) + mainPot + sum(sidePots.amount)` of a room. -/
def Room.totalChips (room : Room) : Int :=
  chipsOf room.heap room.game.players + room.game.mainPot + sidePotTotal room.game.sidePots

/-- The sum of the chips of the entries of a leaderboard. -/
def leaderboardChips (board : List LeaderEntry) : Int :=
  (board.map (fun e => e.chips)).sum

/-- Two players heads-up: Ann has posted the small blind, Bob the big blind. -/
def sampleHeap : Heap :=
  fun r =>
    if r = 0 then
      { id := "sock-a", nickname := "Ann", chips := 990, hand := [⟨.hearts, 14⟩, ⟨.clubs, 7⟩]
        status := .inGame, currentBet := 10, totalBetThisHand := 10, hasActed := false }
    else if r = 1 then
      { id := "sock-b", nickname := "Bob", chips := 980, hand := [⟨.spades, 9⟩, ⟨.spades, 2⟩]
        status := .inGame, currentBet := 20, totalBetThisHand := 20, hasActed := false }
    else default

/-- The game of the sample room in a given phase, with 30 chips in the main pot and Ann
to act. -/
def sampleGame (phase : GameState) : Game :=
  { players := [0, 1], activePlayers := [0, 1], deck := [], communityCards := []
    mainPot := 30, sidePots := [], currentBet := 20, smallBlind := 10, bigBlind := 20
    dealerPosition := 0, smallBlindPosition := 0, bigBlindPosition := 1
    currentPlayerTurn := some "sock-a", lastRaiser := none, roundComplete := false
    gameState := phase }

/-- The sample room, created by Ann, in a given phase. -/
def sampleRoom (phase : GameState) : Room :=
  { roomId := "r1", players := [("sock-a", 0), ("sock-b", 1)], spectators := []
    heap := sampleHeap, nextRef := 2, game := sampleGame phase, maxPlayers := 8
    creator := "sock-a", settings := some newRoomSettings, leaderboard := none }

/-- A server with the sample room only. -/
def sampleServer (phase : GameState) : Server :=
  { rooms := [("r1", sampleRoom phase)], disconnectedPlayers := [] }

/-- The phase of the room of an id, when there is such a room. -/
def Server.phaseOf (s : Server) (roomId : String) : Option GameState :=
  (lookup roomId s.rooms).map (fun room => room.game.gameState)

/-- The value a method call returned; `none` when it threw. -/
def EngineResult.value? {α : Type} : EngineResult α → Option α
  | .returned _ v => some v
  | .raised _ _ => none

/-- After a showdown that left Bob without chips: Ann holds all 2000. -/
def bustedHeap : Heap :=
  fun r =>
    if r = 0 then
      { id := "sock-a", nickname := "Ann", chips := 2000, hand := [⟨.hearts, 14⟩, ⟨.clubs, 7⟩]
        status := .inGame, currentBet := 0, totalBetThisHand := 0, hasActed := true }
    else if r = 1 then
      { id := "sock-b", nickname := "Bob", chips := 0, hand := [⟨.spades, 9⟩, ⟨.spades, 2⟩]
        status := .allIn, currentBet := 0, totalBetThisHand := 0, hasActed := true }
    else default

/-- The sample room after that showdown. -/
def bustedRoom : Room :=
  { sampleRoom .SHOWDOWN_COMPLETE with
    heap := bustedHeap
    game := { sampleGame .SHOWDOWN_COMPLETE with mainPot := 0, currentPlayerTurn := none } }

/-- A server with that room only. -/
def bustedServer : Server :=
  { rooms := [("r1", bustedRoom)], disconnectedPlayers := [] }

/-- The sample server after Bob's socket has disconnected during `PREFLOP`. -/
def droppedServer : Server :=
  (disconnect (sampleServer .PREFLOP) "sock-b" 0).state

/-- The timer the `disconnect` handler has set for Bob. -/
def droppedTimer : RemovalTimer :=
  { socketId := "sock-b", roomId := "r1", wasCreator := false, delayMs := 30000 }

/-- The keys of `room.players` of the room of an id, when there is such a room. -/
def Server.playerIdsOf (s : Server) (roomId : String) : Option (List String) :=
  (lookup roomId s.rooms).map (fun room => keys room.players)

/-- Every room of `s'` is a room of `s` with the same `Game` object and the same `Player`
objects: between the two states no field of a game or of a player was written and no
room was made. -/
def TablesKept (s s' : Server) : Prop :=
  ∀ roomId room', lookup roomId s'.rooms = some room' →
    ∃ room, lookup roomId s.rooms = some room ∧ room'.game = room.game ∧ room'.heap = room.heap

/-- The requests whose handlers write fields of the game or of the players themselves, or
make a room: `createRoom`, `resetGame`, `endGame`, `updateInitialChips`. -/
def Request.writesTable : Request → Bool
  | .createRoom _ _ _ => true
  | .resetGame _ _ => true
  | .endGame _ _ => true
  | .updateInitialChips _ _ _ => true
  | _ => false

/-- The quantity `Room.totalChips` of the room of an id, when there is such a room. -/
def Server.totalChipsOf (s : Server) (roomId : String) : Option Int :=
  (lookup roomId s.rooms).map (fun room => room.totalChips)

/-- The sum of the chips of the leaderboard of the room of an id, when there is one. -/
def Server.leaderboardChipsOf (s : Server) (roomId : String) : Option Int :=
  ((lookup roomId s.rooms).bind (fun room => room.leaderboard)).map leaderboardChips

/-- What the spec says of `Game.updatePlayerId`: it rebinds the identity field of a player
whose id is the old id to the new id and alters no other state. -/
def Engine.RebindsIdOnly (E : Engine) : Prop :=
  ∀ (t : Table) (oldId newId : String) (r : Ref),
    (E.updatePlayerId t oldId newId).heap r = t.heap r ∨
    ((t.heap r).id = oldId ∧
      (E.updatePlayerId t oldId newId).heap r = { t.heap r with id := newId })

/-- A waiting room in which Ann sits alone. -/
def soloRoom : Room :=
  { sampleRoom .WAITING with
    players := [("sock-a", 0)]
    game := { sampleGame .WAITING with
      players := [0], activePlayers := [], mainPot := 0, currentPlayerTurn := none } }

/-- A server with that room only. -/
def soloServer : Server :=
  { rooms := [("r1", soloRoom)], disconnectedPlayers := [] }

/-- The name an emit is addressed to: the socket of `socket.emit`, the room of
`io.to(name).emit`; a socket is alone in the room named by its own id. -/
def Target.name : Target → String
  | .socket id => id
  | .to name => name

/-- No emit of the list is a `dealPrivateCards`. -/
def NoDeal (l : List Emit) : Prop :=
  ∀ e ∈ l, ¬ e.event = "dealPrivateCards"

/-- An emit carries the hand of a player of the room's game and is addressed to the id of
that player. -/
def OwnHand (room : Room) (e : Emit) : Prop :=
  ∃ r, (r ∈ room.game.players ∨ r ∈ room.game.activePlayers) ∧
    e.target.name = (room.heap r).id ∧ e.payload = .dealPrivateCards (room.heap r).hand

/-- A deck of four cards for the next deal. -/
def sampleDeck : List Card :=
  [⟨.diamonds, 12⟩, ⟨.clubs, 3⟩, ⟨.hearts, 5⟩, ⟨.spades, 11⟩]

/-- The waiting sample room with that deck, before the first hand. -/
def readyServer : Server :=
  { rooms := [("r1", { sampleRoom .WAITING with
      game := { sampleGame .WAITING with
        deck := sampleDeck, mainPot := 0, currentPlayerTurn := none, activePlayers := [] } })]
    disconnectedPlayers := [] }

/-- The hole cards that a `gameStateUpdate` payload carries: the `hand` fields of its
player entries.  Its other parts (pots, community cards, phase, turn, seats, creator,
settings, spectators, leaderboard) hold no hand. -/
def PublicGameState.holeCards (g : PublicGameState) : List (List Card) :=
  g.players.filterMap (fun p => p.hand)

/-- The hole cards carried by an emit. -/
def Emit.holeCards (e : Emit) : List (List Card) :=
  match e.payload with
  | .gameStateUpdate g => g.holeCards
  | .dealPrivateCards hand => [hand]
  | _ => []

/-- What the spec says of `Game._getGameState`: the player entries of the snapshot carry
no hand. -/
def Engine.SnapshotHidesHands (E : Engine) : Prop :=
  ∀ (t : Table), ∀ p ∈ (E.getGameState t).players, p.hand = none

/-- The sample room during `PREFLOP` with `room.settings` missing. -/
def bareServer : Server :=
  { rooms := [("r1", { sampleRoom .PREFLOP with settings := none })]
    disconnectedPlayers := [] }

/-- The entry of the `handResult` payload made from an entry of `result.playersHands`:
the entry itself with its nickname filled in. -/
def playerHandOut (room : Room) (ph : PlayerHand) : PlayerHandOut :=
  { playerId := ph.playerId
    nickname := nicknameOr ph.nickname room ph.playerId
    hand := ph.hand
    handDescription := ph.handDescription }

/-- The value of `room.settings.showAllHands` is not `false`. -/
def Room.showsAllHands (room : Room) : Bool :=
  decide (room.settingsOrDefault.showAllHands ≠ .bool false)

/-- A result of `Game.playerAction` that ends a hand: Ann wins 30 against Bob. -/
def sampleResult : ActionResult :=
  { handResult := true
    winners := [{ playerId := "sock-a", nickname := none, amount := 30,
                  handDescription := "pair", handRank := 2, handValue := 200 }]
    communityCards := none
    playersHands := some
      [{ playerId := "sock-b", nickname := none, hand := [⟨.spades, 9⟩, ⟨.spades, 2⟩],
         handDescription := "high card" },
       { playerId := "sock-a", nickname := some "Ann", hand := [⟨.hearts, 14⟩, ⟨.clubs, 7⟩],
         handDescription := "pair" }]
    handComparison := .str "pair beats high card" }

/-- The sample room with `showAllHands` switched off. -/
def discreetRoom : Room :=
  { sampleRoom .RIVER with settings := some { showAllHands := .bool false, initialChips := some 1000 } }

/-- A server with that room only. -/
def discreetServer : Server :=
  { rooms := [("r1", discreetRoom)], disconnectedPlayers := [] }

/-- An engine whose `playerAction` ends the hand with the sample result; it stands for a
showdown, which `Spec.playerAction` does not play out. -/
def showdownEngine : Engine :=
  { specEngine with
    playerAction := fun t _ _ _ =>
      .returned { t with game := { t.game with gameState := .SHOWDOWN_COMPLETE } }
        (some sampleResult) }

/-- The function `handleChipsChange` of `GameTable.jsx`: what the client sends as
`initialChips` of `updateInitialChips` for the value of its input field; `none` when it
shows the alert and sends nothing. -/
def handleChipsChange (initialChips : JsVal) : Option JsVal :=
  match parseInt initialChips with
  | none => none
  | some chips => if chips < 500 ∨ chips > 50000 then none else some (.num chips)

/-! ## The client: `Leaderboard.jsx` and `useDocumentTitle.js` -/

/-- A row of the table that `Leaderboard` renders: `#{index + 1}`, the marks of the
champion (`index === 0`), and the player. -/
structure LeaderboardRow where
  rank : Nat
  champion : Bool
  player : LeaderEntry
deriving DecidableEq, Repr

/-- The rows `sortedPlayers.map((player, index) => ...)`, from an index on. -/
def leaderboardRows : Nat → List LeaderEntry → List LeaderboardRow
  | _, [] => []
  | index, player :: rest =>
    { rank := index + 1, champion := decide (index = 0), player := player } ::
      leaderboardRows (index + 1) rest

/-- What a render of `Leaderboard` leaves and produces: the array `players` of its props
after the render, the array `sortedPlayers`, and the rows. -/
structure LeaderboardView where
  players : List LeaderEntry
  sortedPlayers : List LeaderEntry
  rows : List LeaderboardRow
deriving DecidableEq, Repr

/-- The component `Leaderboard`: `[...players]` is a new array, which `sort` orders in
place and returns; the array `players` itself is not written. -/
def Leaderboard (players : List LeaderEntry) : LeaderboardView :=
  let copy := players
  let sortedPlayers := sortByChips copy
  { players := players, sortedPlayers := sortedPlayers,
    rows := leaderboardRows 0 sortedPlayers }

/-- The leaderboard entry `{ id, nickname, chips }` of a player. -/
def leaderEntry (p : Player) : LeaderEntry :=
  { id := p.id, nickname := p.nickname, chips := p.chips }

/-- A list of entries is in non-increasing order of chips. -/
def ChipsDescending (l : List LeaderEntry) : Prop :=
  l.Pairwise (fun a b => a.chips ≥ b.chips)

/-- The title `DEFAULT_TITLE`. -/
def DEFAULT_TITLE : String := "德州扑克"

/-- The title `YOUR_TURN_TITLE`. -/
def YOUR_TURN_TITLE : String := "德州扑克:你的回合"

/-- The title `WAITING_TITLE`. -/
def WAITING_TITLE : String := "德州扑克:等待中"

/-- The two fields that `useDocumentTitle` reads of the `gameState` object. -/
structure TitleInput where
  gameState : JsVal
  currentPlayerTurn : JsVal
deriving DecidableEq, Repr

/-- The title that `useDocumentTitle(gameState, currentPlayerId)` sets; `gameState` is
`none` when it is `null` or `undefined`. -/
def useDocumentTitle (gameState : Option TitleInput) (currentPlayerId : JsVal) : String :=
  match gameState with
  | none => DEFAULT_TITLE
  | some g =>
    if g.gameState = .str "WAITING" ∨ g.gameState = .str "SHOWDOWN" ∨
        g.gameState = .str "SHOWDOWN_COMPLETE" then DEFAULT_TITLE
    else if g.gameState = .str "PREFLOP" ∨ g.gameState = .str "FLOP" ∨
        g.gameState = .str "TURN" ∨ g.gameState = .str "RIVER" then
      if g.currentPlayerTurn = currentPlayerId then YOUR_TURN_TITLE else WAITING_TITLE
    else DEFAULT_TITLE

/-- The state is one of the four betting rounds. -/
def TitleInput.inRound (g : TitleInput) : Prop :=
  g.gameState = .str "PREFLOP" ∨ g.gameState = .str "FLOP" ∨ g.gameState = .str "TURN" ∨
    g.gameState = .str "RIVER"

instance (g : TitleInput) : Decidable g.inRound := by
  unfold TitleInput.inRound
  infer_instance

/-- The sample room with one spectator, Cid, watching on socket `sock-c`. -/
def watchedRoom (phase : GameState) : Room :=
  { sampleRoom phase with spectators := [("sock-c", { id := "sock-c", nickname := "Cid" })] }

/-- A server with the watched room only. -/
def watchedServer (phase : GameState) : Server :=
  { rooms := [("r1", watchedRoom phase)], disconnectedPlayers := [] }

/-- The state of the server after it has treated the requests of a list, one after the
other. -/
def runRequests (E : Engine) (s : Server) : List Request → Server
  | [] => s
  | req :: rest => runRequests E (handle E s req).state rest

/-- A room seats no more players than its `maxPlayers`, and `maxPlayers` is 8. -/
def Room.Bounded (room : Room) : Prop :=
  (keys room.players).length ≤ room.maxPlayers ∧ room.maxPlayers = 8

/-- Every room of the map `rooms` is bounded. -/
def Server.Bounded (s : Server) : Prop :=
  ∀ e ∈ s.rooms, e.2.Bounded

/-- The two maps when the server starts: `new Map()`, twice. -/
def emptyServer : Server :=
  { rooms := [], disconnectedPlayers := [] }

/-- A room is made and seven more sockets take a seat: the table is full. -/
def fullTableRequests : List Request :=
  [.createRoom "sock-1" "r1" "P1", .joinRoom "sock-2" "r1" "P2" false,
   .joinRoom "sock-3" "r1" "P3" false, .joinRoom "sock-4" "r1" "P4" false,
   .joinRoom "sock-5" "r1" "P5" false, .joinRoom "sock-6" "r1" "P6" false,
   .joinRoom "sock-7" "r1" "P7" false, .joinRoom "sock-8" "r1" "P8" false]

/-! ## The Hand Evaluator, from the spec

`game.js` is not among the sources; the evaluator follows section 4.2 of the spec. -/

/-- Modelled from the spec: the categories of a `HandValue`, from high card up to straight
flush (a royal flush is the ace-high straight flush). -/
inductive Category where
  | highCard
  | onePair
  | twoPair
  | threeOfAKind
  | straight
  | flush
  | fullHouse
  | fourOfAKind
  | straightFlush
deriving DecidableEq, Repr

/-- Modelled from the spec: the place of a category in the ranking, high card lowest. -/
def Category.strength : Category → Nat
  | .highCard => 0
  | .onePair => 1
  | .twoPair => 2
  | .threeOfAKind => 3
  | .straight => 4
  | .flush => 5
  | .fullHouse => 6
  | .fourOfAKind => 7
  | .straightFlush => 8

/-- Modelled from the spec: a `HandValue` carries the category, the ranks that break ties
within the category, and the five cards of the hand. -/
structure HandValue where
  category : Category
  kickers : List Nat
  cards : List Card
deriving DecidableEq, Repr

/-- Modelled from the spec: the ranks of a deck, ace (14) first. -/
def Spec.allRanks : List Nat :=
  [14, 13, 12, 11, 10, 9, 8, 7, 6, 5, 4, 3, 2]

/-- Modelled from the spec: the ranks that occur exactly `n` times in a hand, highest
first. -/
def Spec.ranksWithCount (ranks : List Nat) (n : Nat) : List Nat :=
  Spec.allRanks.filter (fun r => decide (ranks.count r = n))

/-- Modelled from the spec: the highest rank of a straight, when the five ranks form one;
the wheel A-2-3-4-5 is a straight whose highest rank is the five. -/
def Spec.straightHigh (ranks : List Nat) : Option Nat :=
  match Spec.ranksWithCount ranks 1 with
  | [a, b, _, _, e] =>
    if a = e + 4 then some a
    else if a = 14 ∧ b = 5 then some 5
    else none
  | _ => none

/-- Modelled from the spec: five cards of one suit. -/
def Spec.isFlush : List Card → Bool
  | [a, b, c, d, e] =>
    decide (b.suit = a.suit ∧ c.suit = a.suit ∧ d.suit = a.suit ∧ e.suit = a.suit)
  | _ => false

/-- Modelled from the spec: the category of five cards, from whether they are of one suit
and from their ranks; a straight flush supersedes four of a kind. -/
def Spec.categoryOf ( isFlush : Bool) (ranks : List Nat) : Category :=
  if isFlush = true ∧ (Spec.straightHigh ranks).isSome = true then .straightFlush
  else if Spec.ranksWithCount ranks 4 ≠ [] then .fourOfAKind
  else if Spec.ranksWithCount ranks 3 ≠ [] ∧ Spec.ranksWithCount ranks 2 ≠ [] then .fullHouse
  else if isFlush = true then .flush
  else if (Spec.straightHigh ranks).isSome = true then .straight
  else if Spec.ranksWithCount ranks 3 ≠ [] then .threeOfAKind
  else if (Spec.ranksWithCount ranks 2).length ≥ 2 then .twoPair
  else if Spec.ranksWithCount ranks 2 ≠ [] then .onePair
  else .highCard

/-- Modelled from the spec: the ranks compared within a category, in descending order of
weight: for a straight its highest rank; otherwise the ranks of the fours, threes and
pairs, then the single cards, each group highest first. -/
def Spec.kickersOf (ranks : List Nat) : List Nat :=
  match Spec.straightHigh ranks with
  | some high => [high]
  | none =>
    Spec.ranksWithCount ranks 4 ++ Spec.ranksWithCount ranks 3 ++
      Spec.ranksWithCount ranks 2 ++ Spec.ranksWithCount ranks 1

/-- Modelled from the spec: the score of five cards. -/
def Spec.score5 (cards : List Card) : HandValue :=
  { category := Spec.categoryOf (Spec.isFlush cards) (cards.map (fun c => c.rank))
    kickers := Spec.kickersOf (cards.map (fun c => c.rank))
    cards := cards }

/-- Modelled from the spec: the comparison of two lists of numbers from the front. -/
def Spec.lexLt : List Nat → List Nat → Bool
  | [], [] => false
  | [], _ :: _ => true
  | _ :: _, [] => false
  | a :: as, b :: bs => decide (a < b) || (decide (a = b) && Spec.lexLt as bs)

/-- Modelled from the spec: what two values are compared by: the category, then the
kickers. -/
def HandValue.key (v : HandValue) : List Nat :=
  v.category.strength :: v.kickers

/-- Modelled from the spec: the strict comparison of two values; two values neither of
which is below the other tie. -/
def HandValue.lt (a b : HandValue) : Bool :=
  Spec.lexLt a.key b.key

/-- Modelled from the spec: the subsets of `n` cards of a list of cards. -/
def Spec.choose : Nat → List Card → List (List Card)
  | 0, _ => [[]]
  | _ + 1, [] => []
  | n + 1, c :: rest => (Spec.choose n rest).map (fun hand => c :: hand) ++
      Spec.choose (n + 1) rest

/-- Modelled from the spec: the maximum of a value and the values of a list; of equal
values the first is kept. -/
def Spec.best (acc : HandValue) : List HandValue → HandValue
  | [] => acc
  | v :: rest => Spec.best (if acc.lt v then v else acc) rest

/-- Modelled from the spec: `evaluate(holeCards, communityCards)` is missing.  Every subset
of five of the cards is scored and the maximum returned; with fewer than five cards the
cards at hand are scored as they are. -/
def Spec.evaluate (holeCards communityCards : List Card) : HandValue :=
  match Spec.choose 5 (holeCards ++ communityCards) with
  | [] => Spec.score5 (holeCards ++ communityCards)
  | hand :: rest => Spec.best (Spec.score5 hand) (rest.map Spec.score5)

/-- The seven cards of a player, hole cards first, whose best hand is of the category. -/
def sampleCards : Category → List Card × List Card
  | .highCard =>
    ([⟨.clubs, 2⟩, ⟨.diamonds, 7⟩],
     [⟨.hearts, 9⟩, ⟨.spades, 11⟩, ⟨.clubs, 13⟩, ⟨.diamonds, 4⟩, ⟨.hearts, 5⟩])
  | .onePair =>
    ([⟨.clubs, 2⟩, ⟨.diamonds, 2⟩],
     [⟨.hearts, 9⟩, ⟨.spades, 11⟩, ⟨.clubs, 13⟩, ⟨.diamonds, 4⟩, ⟨.hearts, 5⟩])
  | .twoPair =>
    ([⟨.clubs, 2⟩, ⟨.diamonds, 2⟩],
     [⟨.hearts, 9⟩, ⟨.spades, 9⟩, ⟨.clubs, 13⟩, ⟨.diamonds, 4⟩, ⟨.hearts, 5⟩])
  | .threeOfAKind =>
    ([⟨.clubs, 2⟩, ⟨.diamonds, 2⟩],
     [⟨.hearts, 2⟩, ⟨.spades, 9⟩, ⟨.clubs, 13⟩, ⟨.diamonds, 4⟩, ⟨.hearts, 5⟩])
  | .straight =>
    ([⟨.clubs, 5⟩, ⟨.diamonds, 6⟩],
     [⟨.hearts, 7⟩, ⟨.spades, 8⟩, ⟨.clubs, 9⟩, ⟨.diamonds, 13⟩, ⟨.hearts, 2⟩])
  | .flush =>
    ([⟨.hearts, 2⟩, ⟨.hearts, 6⟩],
     [⟨.hearts, 9⟩, ⟨.hearts, 11⟩, ⟨.hearts, 13⟩, ⟨.spades, 4⟩, ⟨.clubs, 5⟩])
  | .fullHouse =>
    ([⟨.clubs, 2⟩, ⟨.diamonds, 2⟩],
     [⟨.hearts, 2⟩, ⟨.spades, 9⟩, ⟨.clubs, 9⟩, ⟨.diamonds, 4⟩, ⟨.hearts, 5⟩])
  | .fourOfAKind =>
    ([⟨.clubs, 2⟩, ⟨.diamonds, 2⟩],
     [⟨.hearts, 2⟩, ⟨.spades, 2⟩, ⟨.clubs, 9⟩, ⟨.diamonds, 4⟩, ⟨.hearts, 5⟩])
  | .straightFlush =>
    ([⟨.hearts, 5⟩, ⟨.hearts, 6⟩],
     [⟨.hearts, 7⟩, ⟨.hearts, 8⟩, ⟨.hearts, 9⟩, ⟨.spades, 13⟩, ⟨.clubs, 2⟩])

/-- The value of the sample cards of a category. -/
def sampleValue (c : Category) : HandValue :=
  Spec.evaluate (sampleCards c).1 (sampleCards c).2

/-! ## The Pot Manager, from the spec

`game.js` is not among the sources; the pots follow section 4.3 of the spec. -/

/-- Modelled from the spec: puts an amount in its place in an ascending list of distinct
amounts. -/
def Spec.insertLevel (x : Int) : List Int → List Int
  | [] => [x]
  | y :: rest =>
    if x < y then x :: y :: rest
    else if x = y then y :: rest
    else y :: Spec.insertLevel x rest

/-- Modelled from the spec: the highest contribution of the hand. -/
def Spec.topBet (players : List Player) : Int :=
  players.foldr (fun p m => max p.totalBetThisHand m) 0

/-- Modelled from the spec: the tiers of the contributions: the amounts of the all-in
players in ascending order, closed by the highest contribution. -/
def Spec.tierLevels (players : List Player) : List Int :=
  let allIns : List Int :=
    (players.filter (fun p => decide (p.status = .allIn ∧ 0 < p.totalBetThisHand))).foldr
      (fun p levels => Spec.insertLevel p.totalBetThisHand levels) []
  if 0 < Spec.topBet players then Spec.insertLevel (Spec.topBet players) allIns else allIns

/-- Modelled from the spec: the part of a player's contribution that lies between two
tiers. -/
def Spec.share (lower upper : Int) (p : Player) : Int :=
  min p.totalBetThisHand upper - min p.totalBetThisHand lower

/-- Modelled from the spec: one pot per tier, in increasing tier order.  A pot holds what
every player has contributed between the tier below and its own; it is eligible to the
players who contributed at least the tier's amount and have not folded. -/
def Spec.tierPots (players : List Player) : Int → List Int → List SidePot
  | _, [] => []
  | lower, level :: rest =>
    { amount := (players.map (Spec.share lower level)).sum
      eligiblePlayerIds :=
        (players.filter
          (fun p => decide (p.status ≠ .folded ∧ p.totalBetThisHand ≥ level))).map
          (fun p => p.id) } :: Spec.tierPots players level rest

/-- Modelled from the spec: the pots of a hand, the main pot first, then the side pots. -/
def Spec.pots (players : List Player) : List SidePot :=
  Spec.tierPots players 0 (Spec.tierLevels players)

/-- Modelled from the spec: the bet of the street is reset; `totalBetThisHand` stays. -/
def Spec.clearBet (p : Player) : Player :=
  { p with currentBet := 0 }

/-- Modelled from the spec: `collectBets(players)` is missing.  The main pot and the side
pots are set from each player's `totalBetThisHand`, and the bets of the street are reset
for the next one. -/
def Spec.collectBets (t : Table) : Table :=
  let pots := Spec.pots (t.game.players.map t.heap)
  { heap := forEachPlayer Spec.clearBet t.heap t.game.players
    game :=
      { t.game with
        mainPot := (pots.head?.map (fun pot => pot.amount)).getD 0
        sidePots := pots.tail
        currentBet := 0 } }

/-- Ann and Bob have put in 100 each, Cid is all-in for 50. -/
def potHeap : Heap :=
  fun r =>
    if r = 0 then
      { id := "sock-a", nickname := "Ann", chips := 900, hand := [⟨.hearts, 14⟩, ⟨.clubs, 7⟩]
        status := .inGame, currentBet := 100, totalBetThisHand := 100, hasActed := true }
    else if r = 1 then
      { id := "sock-b", nickname := "Bob", chips := 900, hand := [⟨.spades, 9⟩, ⟨.spades, 2⟩]
        status := .inGame, currentBet := 100, totalBetThisHand := 100, hasActed := true }
    else if r = 2 then
      { id := "sock-c", nickname := "Cid", chips := 0, hand := [⟨.diamonds, 9⟩, ⟨.clubs, 3⟩]
        status := .allIn, currentBet := 50, totalBetThisHand := 50, hasActed := true }
    else default

/-- The table of Ann, Bob and Cid at the end of the first street, bets not yet collected. -/
def potTable : Table :=
  { heap := potHeap
    game :=
      { players := [0, 1, 2], activePlayers := [0, 1, 2], deck := [], communityCards := []
        mainPot := 0, sidePots := [], currentBet := 100, smallBlind := 10, bigBlind := 20
        dealerPosition := 0, smallBlindPosition := 1, bigBlindPosition := 2
        currentPlayerTurn := none, lastRaiser := none, roundComplete := true
        gameState := .PREFLOP } }

/-- The waiting sample room in which Bob sits out: two seats, one in-game player. -/
def benchedRoom : Room :=
  { sampleRoom .WAITING with
    heap := sampleHeap.set 1 { sampleHeap 1 with status := .sittingOut } }

/-- A server with that room only. -/
def benchedServer : Server :=
  { rooms := [("r1", benchedRoom)], disconnectedPlayers := [] }

/-- Zed makes room `r0` and Bob's socket watches it; then Ann makes room `r1` and the same
socket takes a seat there. -/
def strandedRequests : List Request :=
  [.createRoom "sock-z" "r0" "Zed", .joinRoom "sock-b" "r0" "Bob" true,
   .createRoom "sock-a" "r1" "Ann", .joinRoom "sock-b" "r1" "Bob" false]

/-- The server after those requests. -/
def strandedServer : Server :=
  runRequests specEngine emptyServer strandedRequests

/-- Bob's socket drops from the waiting sample room, and Ann's socket, which is seated
there, asks to reconnect under Bob's nickname. -/
def hijackRequests : List Request :=
  [.disconnect "sock-b" 0, .attemptReconnect "sock-a" "r1" "Bob"]

/-- The server after those requests, from the waiting sample room with its deck. -/
def hijackedServer : Server :=
  runRequests specEngine readyServer hijackRequests

/-- The ids and nicknames of `room.game.players` of the room of an id. -/
def Server.gamePlayersOf (s : Server) (roomId : String) : Option (List (String × String)) :=
  (lookup roomId s.rooms).map (fun room =>
    room.game.players.map (fun r => ((room.heap r).id, (room.heap r).nickname)))

/-- The `dealPrivateCards` emits of a list, as pairs of the name addressed and the payload. -/
def dealsOf (emits : List Emit) : List (String × Payload) :=
  (emits.filter (fun e => decide (e.event = "dealPrivateCards"))).map
    (fun e => (e.target.name, e.payload))

/-! ## Maps -/

theorem lookup_insert_self {α : Type} (k : String) (v : α) (m : List (String × α)) :
    lookup k (insert k v m) = some v := by
  induction m with
  | nil => simp [insert, lookup]
  | cons e rest ih =>
    obtain ⟨k', v'⟩ := e
    by_cases h : k' = k
    · simp [insert, lookup, h]
    · simp [insert, lookup, h, ih]

theorem lookup_insert_ne {α : Type} (k k' : String) (v : α) (m : List (String × α))
    (h : k' ≠ k) : lookup k' (insert k v m) = lookup k' m := by
  induction m with
  | nil => simp [insert, lookup, Ne.symm h]
  | cons e rest ih =>
    obtain ⟨k'', v''⟩ := e
    by_cases h1 : k'' = k
    · subst h1
      simp [insert, lookup, Ne.symm h]
    · by_cases h2 : k'' = k'
      · subst h2
        simp [insert, lookup, h1]
      · simp [insert, lookup, h1, h2, ih]

theorem insert_of_lookup {α : Type} (k : String) (v : α) (m : List (String × α))
    (h : lookup k m = some v) : insert k v m = m := by
  induction m with
  | nil => simp [lookup] at h
  | cons e rest ih =>
    obtain ⟨k', v'⟩ := e
    by_cases h1 : k' = k
    · simp [lookup, h1] at h
      simp [insert, h1, h]
    · simp [lookup, h1] at h
      simp [insert, h1, ih h]

theorem setRoom_of_lookup (s : Server) (roomId : String) (room : Room)
    (h : lookup roomId s.rooms = some room) : s.setRoom roomId room = s := by
  simp [Server.setRoom, insert_of_lookup roomId room s.rooms h]

/-! ## `playerAction`: the guard and a failing engine call -/

/-- In `WAITING` and in `SHOWDOWN_COMPLETE` the `playerAction` handler rejects a seated
sender before the engine: one error to the sender, no call, no change. -/
theorem playerAction_rejects_idle (E : Engine) (s : Server) (socketId roomId : String)
    (action betAmount : JsVal) (room : Room)
    (hroom : lookup roomId s.rooms = some room)
    (hphase : room.game.gameState = .WAITING ∨ room.game.gameState = .SHOWDOWN_COMPLETE) :
    (playerAction E s socketId roomId action betAmount).state = s ∧
    (playerAction E s socketId roomId action betAmount).calls = [] ∧
    ∃ message, (playerAction E s socketId roomId action betAmount).emits
      = [errorTo socketId message] := by
  unfold playerAction
  simp only [hroom]
  split
  · exact ⟨rfl, rfl, _, rfl⟩
  · exact ⟨rfl, rfl, _, rfl⟩

/-- C1, at the failing input: in the sample room in `GAME_OVER` a `fold` of the seated
player Ann is not rejected by the handler but handed to `Game.playerAction`; the guard
of the handler tests `WAITING` and `SHOWDOWN_COMPLETE` only. -/
theorem playerAction_GAME_OVER_reaches_engine :
    (sampleRoom .GAME_OVER).game.gameState = .GAME_OVER ∧
    (lookup "sock-a" (sampleRoom .GAME_OVER).players).isSome = true ∧
    (playerAction specEngine (sampleServer .GAME_OVER) "sock-a" "r1" (.str "fold")
        .undefined).calls
      = [{ method := .playerAction "sock-a" (.str "fold") .undefined, phase := .GAME_OVER }] := by
  decide

/-- C2: when the handler's call of `Game.playerAction` throws, the handler emits exactly
one event, `error` with the message of the exception, to the sending socket, nothing to
the room, and writes no field itself: the state is the old one with the table as the
failed call left it, so it is the old state when the call left the table untouched. -/
theorem playerAction_engine_error (E : Engine) (s : Server) (socketId roomId : String)
    (action betAmount : JsVal) (room : Room) (t : Table) (message : String)
    (hroom : lookup roomId s.rooms = some room)
    (hseat : (lookup socketId room.players).isSome = true)
    (hphase : ¬ (room.game.gameState = .WAITING ∨ room.game.gameState = .SHOWDOWN_COMPLETE))
    (hraise : E.playerAction room.table socketId action betAmount = .raised t message) :
    (playerAction E s socketId roomId action betAmount).emits = [errorTo socketId message] ∧
    (playerAction E s socketId roomId action betAmount).state
      = s.setRoom roomId (room.withTable t) ∧
    (t = room.table → (playerAction E s socketId roomId action betAmount).state = s) := by
  have hseat' : ¬ (lookup socketId room.players).isNone = true := by
    cases h : lookup socketId room.players <;> simp [h] at hseat ⊢
  have hout : playerAction E s socketId roomId action betAmount
      = { state := s.setRoom roomId (room.withTable t)
          emits := [errorTo socketId message]
          calls := [{ method := .playerAction socketId action betAmount,
                      phase := room.game.gameState }] } := by
    unfold playerAction
    simp only [hroom, if_neg hseat', if_neg hphase, hraise]
  rw [hout]
  refine ⟨rfl, rfl, ?_⟩
  intro ht
  subst ht
  exact setRoom_of_lookup s roomId room hroom

/-- C2 at a concrete input: Bob acts out of turn in the sample room during `PREFLOP`. -/
theorem playerAction_engine_error_witness :
    (playerAction specEngine (sampleServer .PREFLOP) "sock-b" "r1" (.str "fold")
        .undefined).emits = [errorTo "sock-b" "NotYourTurn"] ∧
    (playerAction specEngine (sampleServer .PREFLOP) "sock-b" "r1" (.str "fold")
        .undefined).state = sampleServer .PREFLOP :=
  have h := playerAction_engine_error specEngine (sampleServer .PREFLOP) "sock-b" "r1"
    (.str "fold") .undefined (sampleRoom .PREFLOP) (sampleRoom .PREFLOP).table "NotYourTurn"
    (by rfl) (by decide) (by decide) (by rfl)
  ⟨h.1, h.2.2 rfl⟩
/-! ## `startGame` and `prepareNextHand`: when the engine is called -/

@[simp] theorem broadcast_calls (E : Engine) (o : Outcome) (roomId : String) :
    (Outcome.broadcast E o roomId).calls = o.calls := rfl

@[simp] theorem reject_calls (s : Server) (socketId message : String) :
    (reject s socketId message).calls = [] := rfl

@[simp] theorem reject_state (s : Server) (socketId message : String) :
    (reject s socketId message).state = s := rfl

@[simp] theorem reject_emits (s : Server) (socketId message : String) :
    (reject s socketId message).emits = [errorTo socketId message] := rfl

/-- The calls of the `startGame` handler: none, or one call made in the phase that selects
it. -/
theorem startGame_calls (E : Engine) (s : Server) (socketId roomId : String) :
    (startGame E s socketId roomId).calls = [] ∨
    ∃ room, lookup roomId s.rooms = some room ∧ room.creator = socketId ∧
      2 ≤ room.game.players.length ∧
      ((room.game.gameState = .WAITING ∧
          (startGame E s socketId roomId).calls = [{ method := .startGame, phase := .WAITING }]) ∨
       (room.game.gameState = .SHOWDOWN_COMPLETE ∧
          (startGame E s socketId roomId).calls
            = [{ method := .prepareNextHand, phase := .SHOWDOWN_COMPLETE }])) := by
  unfold startGame
  cases hroom : lookup roomId s.rooms with
  | none => left; rfl
  | some room =>
    simp only
    by_cases hc : room.creator ≠ socketId
    · left; rw [if_pos hc]; rfl
    · rw [if_neg hc]
      by_cases hp : room.game.gameState ≠ .WAITING ∧ room.game.gameState ≠ .SHOWDOWN_COMPLETE
      · left; rw [if_pos hp]; rfl
      · rw [if_neg hp]
        by_cases hn : room.game.players.length < 2
        · left; rw [if_pos hn]; rfl
        · rw [if_neg hn]
          right
          refine ⟨room, rfl, not_not.mp hc, by omega, ?_⟩
          by_cases hsc : room.game.gameState = .SHOWDOWN_COMPLETE
          · right
            refine ⟨hsc, ?_⟩
            rw [if_pos hsc]
            cases E.prepareNextHand room.table with
            | raised t message => simp [hsc]
            | returned t canProceed => cases canProceed <;> simp [hsc]
          · left
            have hw : room.game.gameState = .WAITING := by
              by_contra hw
              exact hp ⟨hw, hsc⟩
            refine ⟨hw, ?_⟩
            rw [if_neg hsc]
            cases E.startGame room.table with
            | raised t message => simp [hw]
            | returned t u => simp [hw]

theorem removeFromRoom_calls (E : Engine) (s : Server) (socketId roomId : String) (room : Room)
    (wasCreator : Bool) (first : List Emit) (ops : List SocketOp) :
    (removeFromRoom E s socketId roomId room wasCreator first ops).calls
      = [{ method := .removePlayer socketId, phase := room.game.gameState }] := by
  unfold removeFromRoom
  simp only
  split
  · rfl
  · split <;> rfl

theorem leaveRoom_calls (E : Engine) (s : Server) (socketId roomId : String) :
    ∀ c ∈ (leaveRoom E s socketId roomId).calls, c.method = .removePlayer socketId := by
  intro c hc
  unfold leaveRoom at hc
  split at hc
  · simp at hc
  · split at hc
    · simp at hc
    · rw [removeFromRoom_calls] at hc
      simp at hc; simp [hc]

theorem disconnectTimeout_calls (E : Engine) (s : Server) (timer : RemovalTimer) :
    ∀ c ∈ (disconnectTimeout E s timer).calls, c.method = .removePlayer timer.socketId := by
  intro c hc
  unfold disconnectTimeout at hc
  split at hc
  · simp at hc
  · simp only at hc
    split at hc
    · simp at hc
    · split at hc
      · simp at hc
      · rw [removeFromRoom_calls] at hc
        simp at hc; simp [hc]

theorem attemptReconnect_calls (E : Engine) (s : Server) (socketId roomId nickname : String) :
    ∀ c ∈ (attemptReconnect E s socketId roomId nickname).calls,
      ∃ oldId, c.method = .updatePlayerId oldId socketId := by
  intro c hc
  unfold attemptReconnect at hc
  split at hc
  · simp [reconnectFailed] at hc
  · split at hc
    · simp [reconnectFailed] at hc
    · split at hc
      · simp [reconnectFailed] at hc
      · simp at hc; simp [hc]

theorem joinRoom_calls (E : Engine) (s : Server) (socketId roomId nickname : String)
    (asSpectator : Bool) :
    ∀ c ∈ (joinRoom E s socketId roomId nickname asSpectator).calls,
      (∃ r, c.method = .addPlayer r) ∧ c.phase = .WAITING := by
  intro c hc
  unfold joinRoom at hc
  split at hc
  · simp at hc
  · split at hc
    · simp at hc
    · split at hc
      · simp at hc
      · split at hc
        · simp at hc
        · split at hc
          · simp at hc
          · split at hc
            · simp at hc
            · rename_i h1 h2
              simp at hc
              subst hc
              simp at h1
              exact ⟨⟨_, rfl⟩, h1.2⟩

theorem switchToPlayer_calls (E : Engine) (s : Server) (socketId roomId : String) :
    ∀ c ∈ (switchToPlayer E s socketId roomId).calls,
      (∃ r, c.method = .addPlayer r) ∧ c.phase = .WAITING := by
  intro c hc
  unfold switchToPlayer at hc
  split at hc
  · simp at hc
  · split at hc
    · simp at hc
    · split at hc
      · simp at hc
      · split at hc
        · simp at hc
        · rename_i h1 _ _ _ _
          simp at hc
          subst hc
          exact ⟨⟨_, rfl⟩, not_not.mp h1⟩

theorem switchToSpectator_calls (E : Engine) (s : Server) (socketId roomId : String) :
    ∀ c ∈ (switchToSpectator E s socketId roomId).calls, c.method = .removePlayer socketId := by
  intro c hc
  unfold switchToSpectator at hc
  split at hc
  · simp at hc
  · split at hc
    · simp at hc
    · split at hc
      · simp at hc
      · split at hc
        · simp at hc
        · simp at hc; simp [hc]

theorem playerAction_calls (E : Engine) (s : Server) (socketId roomId : String)
    (action betAmount : JsVal) :
    ∀ c ∈ (playerAction E s socketId roomId action betAmount).calls,
      c.method = .playerAction socketId action betAmount := by
  intro c hc
  unfold playerAction at hc
  split at hc
  · simp at hc
  · split at hc
    · simp at hc
    · split at hc
      · simp at hc
      · simp only at hc
        split at hc
        · simp at hc; simp [hc]
        · split at hc
          · split at hc <;> · simp at hc; simp [hc]
          · simp at hc; simp [hc]

theorem prepareNextHand_calls (E : Engine) (s : Server) (socketId roomId : String) :
    (prepareNextHand E s socketId roomId).calls = [] ∨
    ∃ room, lookup roomId s.rooms = some room ∧ room.creator = socketId ∧
      room.game.gameState = .SHOWDOWN_COMPLETE ∧
      (prepareNextHand E s socketId roomId).calls
        = [{ method := .prepareNextHand, phase := .SHOWDOWN_COMPLETE }] := by
  unfold prepareNextHand
  cases hroom : lookup roomId s.rooms with
  | none => left; rfl
  | some room =>
    simp only
    by_cases hc : room.creator ≠ socketId
    · left; rw [if_pos hc]; rfl
    · rw [if_neg hc]
      by_cases hsc : room.game.gameState = .SHOWDOWN_COMPLETE
      · right
        refine ⟨room, rfl, not_not.mp hc, hsc, ?_⟩
        rw [if_pos hsc]
        cases E.prepareNextHand room.table with
        | raised t message => simp [hsc]
        | returned t canProceed => cases canProceed <;> simp [hsc]
      · left; rw [if_neg hsc]; rfl

theorem resetGame_calls (E : Engine) (s : Server) (socketId roomId : String) :
    (resetGame E s socketId roomId).calls = [] := by
  unfold resetGame
  split
  · rfl
  · split
    · rfl
    · split <;> rfl

theorem endGame_calls (E : Engine) (s : Server) (socketId roomId : String) :
    (endGame E s socketId roomId).calls = [] := by
  unfold endGame
  split
  · rfl
  · split
    · rfl
    · split <;> rfl

theorem closeRoom_calls (s : Server) (socketId roomId : String) :
    (closeRoom s socketId roomId).calls = [] := by
  unfold closeRoom
  split
  · rfl
  · split <;> rfl

theorem disconnectLoop_calls (records : List (String × DisconnectInfo)) (socketId : String)
    (now : Int) (rooms : List (String × Room)) :
    (disconnectLoop records socketId now rooms).calls = [] := by
  induction rooms with
  | nil => rfl
  | cons e rest ih =>
    obtain ⟨roomId, room⟩ := e
    unfold disconnectLoop
    split
    · rfl
    · split
      · rfl
      · exact ih

theorem updateRoomSettings_calls (E : Engine) (s : Server) (socketId roomId : String)
    (settings : SettingsUpdate) :
    (updateRoomSettings E s socketId roomId settings).calls = [] := by
  unfold updateRoomSettings
  split
  · rfl
  · split <;> rfl

theorem updateInitialChips_calls (E : Engine) (s : Server) (socketId roomId : String)
    (initialChips : JsVal) :
    (updateInitialChips E s socketId roomId initialChips).calls = [] := by
  unfold updateInitialChips
  split
  · rfl
  · split
    · rfl
    · split
      · rfl
      · split <;> rfl

theorem createRoom_calls (E : Engine) (s : Server) (socketId roomId nickname : String) :
    (createRoom E s socketId roomId nickname).calls = [] := by
  unfold createRoom
  split <;> rfl

theorem sendMessage_calls (s : Server) (socketId roomId : String) (message : JsVal) :
    (sendMessage s socketId roomId message).calls = [] := by
  unfold sendMessage
  split <;> rfl

/-- C3, amended: the `startGame` handler calls `Game.startGame` only when `game.gameState`
is `WAITING` and `game.players` holds at least 2 players, whatever their status; for a room
whose `game.players` holds fewer than 2 players it emits one error to the sender, calls
nothing and changes neither the room nor the game. -/
theorem startGame_guard (E : Engine) (s : Server) (socketId roomId : String) :
    (∀ c ∈ (startGame E s socketId roomId).calls, c.method = .startGame →
      c.phase = .WAITING ∧
      ∃ room, lookup roomId s.rooms = some room ∧ room.game.gameState = .WAITING ∧
        2 ≤ room.game.players.length) ∧
    (∀ room, lookup roomId s.rooms = some room → room.game.players.length < 2 →
      (startGame E s socketId roomId).state = s ∧
      (startGame E s socketId roomId).calls = [] ∧
      ∃ message, (startGame E s socketId roomId).emits = [errorTo socketId message]) := by
  constructor
  · intro c hc hm
    rcases startGame_calls E s socketId roomId with h | ⟨room, hroom, _, hn, h | h⟩
    · rw [h] at hc; simp at hc
    · rw [h.2] at hc
      simp at hc
      subst hc
      exact ⟨rfl, room, hroom, h.1, hn⟩
    · rw [h.2] at hc
      simp at hc
      subst hc
      simp at hm
  · intro room hroom hn
    unfold startGame
    simp only [hroom]
    split
    · exact ⟨rfl, rfl, _, rfl⟩
    · split
      · exact ⟨rfl, rfl, _, rfl⟩
      · exact ⟨rfl, rfl, _, rfl⟩

/-- Whatever the request, a call of `Game.prepareNextHand` is made in `SHOWDOWN_COMPLETE`. -/
theorem handle_prepareNextHand_phase (E : Engine) (s : Server) (req : Request) :
    ∀ c ∈ (handle E s req).calls, c.method = .prepareNextHand →
      c.phase = .SHOWDOWN_COMPLETE := by
  intro c hc hm
  cases req with
  | attemptReconnect socketId roomId nickname =>
    obtain ⟨o, h⟩ := attemptReconnect_calls E s socketId roomId nickname c hc
    rw [h] at hm; simp at hm
  | createRoom socketId roomId nickname =>
    simp [handle, createRoom_calls] at hc
  | joinRoom socketId roomId nickname asSpectator =>
    obtain ⟨⟨r, h⟩, _⟩ := joinRoom_calls E s socketId roomId nickname asSpectator c hc
    rw [h] at hm; simp at hm
  | startGame socketId roomId =>
    rcases startGame_calls E s socketId roomId with h | ⟨room, _, _, _, h | h⟩
    · simp [handle, h] at hc
    · simp [handle, h.2] at hc
      subst hc
      simp at hm
    · simp [handle, h.2] at hc
      subst hc
      rfl
  | switchToPlayer socketId roomId =>
    obtain ⟨⟨r, h⟩, _⟩ := switchToPlayer_calls E s socketId roomId c hc
    rw [h] at hm; simp at hm
  | switchToSpectator socketId roomId =>
    have h := switchToSpectator_calls E s socketId roomId c hc
    rw [h] at hm; simp at hm
  | playerAction socketId roomId action betAmount =>
    have h := playerAction_calls E s socketId roomId action betAmount c hc
    rw [h] at hm; simp at hm
  | prepareNextHand socketId roomId =>
    rcases prepareNextHand_calls E s socketId roomId with h | ⟨room, _, _, _, h⟩
    · simp [handle, h] at hc
    · simp [handle, h] at hc
      subst hc
      rfl
  | sendMessage socketId roomId message =>
    simp [handle, sendMessage_calls] at hc
  | leaveRoom socketId roomId =>
    have h := leaveRoom_calls E s socketId roomId c hc
    rw [h] at hm; simp at hm
  | resetGame socketId roomId =>
    simp [handle, resetGame_calls] at hc
  | endGame socketId roomId =>
    simp [handle, endGame_calls] at hc
  | closeRoom socketId roomId =>
    simp [handle, closeRoom_calls] at hc
  | disconnect socketId now =>
    simp [handle, disconnect, disconnectLoop_calls] at hc
  | removalTimeout timer =>
    have h := disconnectTimeout_calls E s timer c hc
    rw [h] at hm; simp at hm
  | updateRoomSettings socketId roomId settings =>
    simp [handle, updateRoomSettings_calls] at hc
  | updateInitialChips socketId roomId initialChips =>
    simp [handle, updateInitialChips_calls] at hc
  | cleanup now =>
    simp [handle, cleanupDisconnectedPlayers] at hc

/-- C4: every call of `Game.prepareNextHand`, by whatever request, is made with
`game.gameState` equal to `SHOWDOWN_COMPLETE`; the two handlers that make it, `startGame`
and `prepareNextHand`, do so for a room that is in that phase; and in every other phase
the `prepareNextHand` handler emits one error to the sender, calls nothing and changes
nothing. -/
theorem prepareNextHand_only_from_SHOWDOWN_COMPLETE (E : Engine) (s : Server)
    (socketId roomId : String) :
    (∀ req, ∀ c ∈ (handle E s req).calls, c.method = .prepareNextHand →
      c.phase = .SHOWDOWN_COMPLETE) ∧
    (∀ c ∈ (startGame E s socketId roomId).calls, c.method = .prepareNextHand →
      ∃ room, lookup roomId s.rooms = some room ∧
        room.game.gameState = .SHOWDOWN_COMPLETE) ∧
    (∀ c ∈ (prepareNextHand E s socketId roomId).calls, c.method = .prepareNextHand →
      ∃ room, lookup roomId s.rooms = some room ∧
        room.game.gameState = .SHOWDOWN_COMPLETE) ∧
    (∀ room, lookup roomId s.rooms = some room →
      room.game.gameState ≠ .SHOWDOWN_COMPLETE →
      (prepareNextHand E s socketId roomId).state = s ∧
      (prepareNextHand E s socketId roomId).calls = [] ∧
      ∃ message, (prepareNextHand E s socketId roomId).emits = [errorTo socketId message]) := by
  refine ⟨handle_prepareNextHand_phase E s, ?_, ?_, ?_⟩
  · intro c hc hm
    rcases startGame_calls E s socketId roomId with h | ⟨room, hroom, _, _, h | h⟩
    · rw [h] at hc; simp at hc
    · rw [h.2] at hc
      simp at hc
      subst hc
      simp at hm
    · exact ⟨room, hroom, h.1⟩
  · intro c hc _
    rcases prepareNextHand_calls E s socketId roomId with h | ⟨room, hroom, _, hsc, _⟩
    · rw [h] at hc; simp at hc
    · exact ⟨room, hroom, hsc⟩
  · intro room hroom hp
    unfold prepareNextHand
    simp only [hroom]
    split
    · exact ⟨rfl, rfl, _, rfl⟩
    · exact ⟨rfl, rfl, _, rfl⟩

@[simp] theorem ensureSettings_game (room : Room) : room.ensureSettings.game = room.game := by
  unfold Room.ensureSettings; split <;> rfl

@[simp] theorem ensureSettings_heap (room : Room) : room.ensureSettings.heap = room.heap := by
  unfold Room.ensureSettings; split <;> rfl

@[simp] theorem ensureSettings_players (room : Room) :
    room.ensureSettings.players = room.players := by
  unfold Room.ensureSettings; split <;> rfl

@[simp] theorem ensureSettings_creator (room : Room) :
    room.ensureSettings.creator = room.creator := by
  unfold Room.ensureSettings; split <;> rfl

@[simp] theorem ensureSettings_leaderboard (room : Room) :
    room.ensureSettings.leaderboard = room.leaderboard := by
  unfold Room.ensureSettings; split <;> rfl

@[simp] theorem ensureSettings_spectators (room : Room) :
    room.ensureSettings.spectators = room.spectators := by
  unfold Room.ensureSettings; split <;> rfl

theorem lookup_setRoom_self (s : Server) (roomId : String) (room : Room) :
    lookup roomId (s.setRoom roomId room).rooms = some room :=
  lookup_insert_self roomId room s.rooms

theorem lookup_setRoom_ne (s : Server) (roomId other : String) (room : Room)
    (h : other ≠ roomId) :
    lookup other (s.setRoom roomId room).rooms = lookup other s.rooms :=
  lookup_insert_ne roomId other room s.rooms h

theorem insert_insert {α : Type} (k : String) (v w : α) (m : List (String × α)) :
    insert k w (insert k v m) = insert k w m := by
  induction m with
  | nil => simp [insert]
  | cons e rest ih =>
    obtain ⟨k', v'⟩ := e
    by_cases h : k' = k
    · simp [insert, h]
    · simp [insert, h, ih]

/-- The state after `broadcastGameState` for a room just written back. -/
theorem broadcast_setRoom_state (E : Engine) (s : Server) (roomId : String) (room : Room)
    (emits : List Emit) (calls : List EngineCall) (ops : List SocketOp)
    (timers : List RemovalTimer) :
    (Outcome.broadcast E
      { state := s.setRoom roomId room, emits := emits, calls := calls, socketOps := ops,
        timers := timers } roomId).state
      = s.setRoom roomId room.ensureSettings := by
  simp [Outcome.broadcast, broadcastGameState, lookup_insert_self, Server.setRoom,
    insert_insert]

/-- The emits after `broadcastGameState` for a room just written back. -/
theorem broadcast_setRoom_emits (E : Engine) (s : Server) (roomId : String) (room : Room)
    (emits : List Emit) (calls : List EngineCall) (ops : List SocketOp)
    (timers : List RemovalTimer) :
    (Outcome.broadcast E
      { state := s.setRoom roomId room, emits := emits, calls := calls, socketOps := ops,
        timers := timers } roomId).emits
      = emits ++ [{ target := .to roomId, event := "gameStateUpdate",
                    payload := .gameStateUpdate (publicGameState E roomId room) }] := by
  simp [Outcome.broadcast, broadcastGameState, lookup_insert_self, Server.setRoom]

/-- C5, counterexample: in the room where Bob has no chips left `Game.prepareNextHand`
returns `false`, and after the `prepareNextHand` handler as after the `startGame` handler
the phase is still `SHOWDOWN_COMPLETE`, neither `GAME_OVER` nor `WAITING`. -/
theorem prepareNextHand_false_stays_SHOWDOWN_COMPLETE :
    (specEngine.prepareNextHand bustedRoom.table).value? = some false ∧
    (prepareNextHand specEngine bustedServer "sock-a" "r1").state.phaseOf "r1"
      = some .SHOWDOWN_COMPLETE ∧
    (startGame specEngine bustedServer "sock-a" "r1").state.phaseOf "r1"
      = some .SHOWDOWN_COMPLETE := by
  decide

/-- C5, amended: when `Game.prepareNextHand` returns `false` the calling handler only
notifies and writes no field itself: the room is left with the table as the engine left
it, so the phase is the one the engine left; the `prepareNextHand` handler emits
`gameOver` to the room and the `startGame` handler emits an error to the sender. -/
theorem prepareNextHand_false_notifies_only (E : Engine) (s : Server)
    (socketId roomId : String) (room : Room) (t : Table)
    (hroom : lookup roomId s.rooms = some room)
    (hcreator : room.creator = socketId)
    (hphase : room.game.gameState = .SHOWDOWN_COMPLETE)
    (hfalse : E.prepareNextHand room.table = .returned t false) :
    (prepareNextHand E s socketId roomId).state = s.setRoom roomId (room.withTable t) ∧
    (prepareNextHand E s socketId roomId).emits
      = [{ target := .to roomId, event := "gameOver",
           payload := .gameOver "游戏结束 - 没有足够的玩家继续游戏" none false }] ∧
    (prepareNextHand E s socketId roomId).state.phaseOf roomId = some t.game.gameState ∧
    (2 ≤ room.game.players.length →
      (startGame E s socketId roomId).state = s.setRoom roomId (room.withTable t) ∧
      (startGame E s socketId roomId).emits
        = [errorTo socketId "游戏结束 - 没有足够的玩家继续游戏"]) := by
  have hc : ¬ room.creator ≠ socketId := not_not.mpr hcreator
  have h1 : prepareNextHand E s socketId roomId
      = { state := s.setRoom roomId (room.withTable t)
          emits := [{ target := .to roomId, event := "gameOver",
                      payload := .gameOver "游戏结束 - 没有足够的玩家继续游戏" none false }]
          calls := [{ method := .prepareNextHand, phase := room.game.gameState }] } := by
    unfold prepareNextHand
    simp only [hroom, if_neg hc, if_pos hphase, hfalse]
    simp
  refine ⟨by rw [h1], by rw [h1], ?_, ?_⟩
  · rw [h1]
    simp [Server.phaseOf, lookup_setRoom_self, Room.withTable]
  · intro hn
    have hp : ¬ (room.game.gameState ≠ .WAITING ∧ room.game.gameState ≠ .SHOWDOWN_COMPLETE) := by
      simp [hphase]
    have hn' : ¬ room.game.players.length < 2 := by omega
    have h2 : startGame E s socketId roomId
        = { state := s.setRoom roomId (room.withTable t)
            emits := [errorTo socketId "游戏结束 - 没有足够的玩家继续游戏"]
            calls := [{ method := .prepareNextHand, phase := room.game.gameState }] } := by
      unfold startGame
      simp only [hroom, if_neg hc, if_neg hp, if_neg hn', if_pos hphase, hfalse]
      simp
    rw [h2]
    exact ⟨rfl, rfl⟩

/-- C5, amended, at a concrete input: the creator asks for the next hand in the room where
Bob has no chips left. -/
theorem prepareNextHand_false_notifies_only_witness :
    (prepareNextHand specEngine bustedServer "sock-a" "r1").state
      = bustedServer.setRoom "r1" (bustedRoom.withTable bustedRoom.table) ∧
    (prepareNextHand specEngine bustedServer "sock-a" "r1").emits
      = [{ target := .to "r1", event := "gameOver",
           payload := .gameOver "游戏结束 - 没有足够的玩家继续游戏" none false }] :=
  have h := prepareNextHand_false_notifies_only specEngine bustedServer "sock-a" "r1"
    bustedRoom bustedRoom.table (by rfl) (by decide) (by decide) (by rfl)
  ⟨h.1, h.2.1⟩

/-! ## `Game.removePlayer` with `shouldResetGame` -/

/-- What `removeFromRoom` leaves of a room that still has players: the table as
`Game.removePlayer` left it, and a notice to the creator when the result was flagged. -/
theorem removeFromRoom_room (E : Engine) (s : Server) (socketId roomId : String) (room : Room)
    (wasCreator : Bool) (first : List Emit) (ops : List SocketOp)
    (newCreator : String) (others : List String)
    (hleft : keys (erase socketId room.players) = newCreator :: others) :
    ∃ room', lookup roomId
        (removeFromRoom E s socketId roomId room wasCreator first ops).state.rooms = some room' ∧
      room'.game = (E.removePlayer room.table socketId).1.game ∧
      room'.heap = (E.removePlayer room.table socketId).1.heap ∧
      room'.players = erase socketId room.players ∧
      ((E.removePlayer room.table socketId).2 = true →
        gameResetNotice room'.creator ∈
          (removeFromRoom E s socketId roomId room wasCreator first ops).emits) := by
  unfold removeFromRoom
  simp only [Room.withTable, hleft]
  cases wasCreator with
  | true =>
    simp only [if_true]
    rw [broadcast_setRoom_state, broadcast_setRoom_emits]
    refine ⟨_, lookup_setRoom_self _ _ _, by simp, by simp, by simp, ?_⟩
    intro hflag
    simp [hflag]
  | false =>
    simp only [Bool.false_eq_true, if_false]
    rw [broadcast_setRoom_state, broadcast_setRoom_emits]
    refine ⟨_, lookup_setRoom_self _ _ _, by simp, by simp, by simp, ?_⟩
    intro hflag
    simp [hflag]

/-- C6, counterexample: Bob leaves the heads-up sample room during `PREFLOP`;
`Game.removePlayer` flags `shouldResetGame`, Ann is still in the room, and after
`leaveRoom`, as after the removal timer of a disconnected Bob, the phase is still
`PREFLOP`, not `WAITING`. -/
theorem removePlayer_flag_stays_PREFLOP :
    (specEngine.removePlayer (sampleRoom .PREFLOP).table "sock-b").2 = true ∧
    (leaveRoom specEngine (sampleServer .PREFLOP) "sock-b" "r1").state.playerIdsOf "r1"
      = some ["sock-a"] ∧
    (leaveRoom specEngine (sampleServer .PREFLOP) "sock-b" "r1").state.phaseOf "r1"
      = some .PREFLOP ∧
    (disconnectTimeout specEngine droppedServer droppedTimer).state.playerIdsOf "r1"
      = some ["sock-a"] ∧
    (disconnectTimeout specEngine droppedServer droppedTimer).state.phaseOf "r1"
      = some .PREFLOP := by
  decide

/-- C6, amended: when `Game.removePlayer` returns `shouldResetGame = true` to `leaveRoom`
or to the removal timer of a disconnection, and the room still has players, the caller
does not write `game.gameState`: the room keeps the game and the players' objects exactly
as `Game.removePlayer` left them, and the caller emits
`gameResetDueToInsufficientPlayers` to the room's creator. -/
theorem removePlayer_flag_notifies_only (E : Engine) (s : Server) (socketId roomId : String)
    (room : Room) (newCreator : String) (others : List String)
    (hroom : lookup roomId s.rooms = some room)
    (hseat : (lookup socketId room.players).isSome = true)
    (hflag : (E.removePlayer room.table socketId).2 = true)
    (hleft : keys (erase socketId room.players) = newCreator :: others) :
    (∃ room', lookup roomId (leaveRoom E s socketId roomId).state.rooms = some room' ∧
      room'.game = (E.removePlayer room.table socketId).1.game ∧
      room'.heap = (E.removePlayer room.table socketId).1.heap ∧
      gameResetNotice room'.creator ∈ (leaveRoom E s socketId roomId).emits) ∧
    (∀ timer : RemovalTimer, timer.socketId = socketId → timer.roomId = roomId →
      (lookup socketId s.disconnectedPlayers).isSome = true →
      ∃ room', lookup roomId (disconnectTimeout E s timer).state.rooms = some room' ∧
        room'.game = (E.removePlayer room.table socketId).1.game ∧
        room'.heap = (E.removePlayer room.table socketId).1.heap ∧
        gameResetNotice room'.creator ∈ (disconnectTimeout E s timer).emits) := by
  have hseat' : ¬ (lookup socketId room.players).isNone = true := by
    cases h : lookup socketId room.players <;> simp [h] at hseat ⊢
  constructor
  · obtain ⟨room', h1, h2, h3, _, h5⟩ :=
      removeFromRoom_room E { s with disconnectedPlayers := erase socketId s.disconnectedPlayers }
        socketId roomId room (decide (room.creator = socketId))
        [{ target := .socket socketId, event := "leftRoom",
           payload := .leftRoom roomId "已成功退出房间" }]
        [.leave socketId roomId] newCreator others hleft
    refine ⟨room', ?_, h2, h3, ?_⟩
    · unfold leaveRoom
      simp only [hroom, if_neg hseat']
      exact h1
    · unfold leaveRoom
      simp only [hroom, if_neg hseat']
      exact h5 hflag
  · intro timer hs hr hrec
    have hrec' : ¬ (lookup timer.socketId s.disconnectedPlayers).isNone = true := by
      rw [hs]
      cases h : lookup socketId s.disconnectedPlayers <;> simp [h] at hrec ⊢
    obtain ⟨room', h1, h2, h3, _, h5⟩ :=
      removeFromRoom_room E s socketId roomId room timer.wasCreator [] [] newCreator others hleft
    refine ⟨room', ?_, h2, h3, ?_⟩
    · unfold disconnectTimeout
      rw [if_neg hrec']
      simp only [hs, hr, hroom, if_neg hseat']
      exact h1
    · unfold disconnectTimeout
      rw [if_neg hrec']
      simp only [hs, hr, hroom, if_neg hseat']
      exact h5 hflag

/-- C6, amended, at a concrete input: Bob leaves the heads-up sample room during
`PREFLOP`. -/
theorem removePlayer_flag_notifies_only_witness :
    ∃ room', lookup "r1" (leaveRoom specEngine (sampleServer .PREFLOP) "sock-b" "r1").state.rooms
        = some room' ∧
      room'.game = (specEngine.removePlayer (sampleRoom .PREFLOP).table "sock-b").1.game ∧
      room'.heap = (specEngine.removePlayer (sampleRoom .PREFLOP).table "sock-b").1.heap ∧
      gameResetNotice room'.creator ∈
        (leaveRoom specEngine (sampleServer .PREFLOP) "sock-b" "r1").emits :=
  (removePlayer_flag_notifies_only specEngine (sampleServer .PREFLOP) "sock-b" "r1"
    (sampleRoom .PREFLOP) "sock-a" [] (by rfl) (by decide) (by decide) (by decide)).1

/-! ## Handlers that leave the tables alone -/

theorem lookup_erase {α : Type} (k k' : String) (m : List (String × α)) (v : α)
    (h : lookup k' (erase k m) = some v) : lookup k' m = some v := by
  induction m with
  | nil => simp [erase, lookup] at h
  | cons e rest ih =>
    obtain ⟨k0, v0⟩ := e
    by_cases h0 : k0 = k
    · subst h0
      have h1 : lookup k' (erase k0 rest) = some v := by
        simpa [erase, List.filter] using h
      have h2 := ih h1
      by_cases h3 : k0 = k'
      · subst h3
        exfalso
        clear ih h h2
        induction rest with
        | nil => simp [erase, lookup] at h1
        | cons e2 rest2 ih2 =>
          obtain ⟨k2, v2⟩ := e2
          by_cases h4 : k2 = k0
          · subst h4
            apply ih2
            simpa [erase, List.filter] using h1
          · have : lookup k0 (erase k0 ((k2, v2) :: rest2))
                = lookup k0 (erase k0 rest2) := by
              simp [erase, List.filter, h4, lookup]
            rw [this] at h1
            exact ih2 h1
      · simp [lookup, h3, h2]
    · have h1 : erase k ((k0, v0) :: rest) = (k0, v0) :: erase k rest := by
        simp [erase, List.filter, h0]
      rw [h1] at h
      by_cases h3 : k0 = k'
      · simp [lookup, h3] at h ⊢
        exact h
      · simp [lookup, h3] at h ⊢
        exact ih h

theorem tablesKept_refl (s : Server) : TablesKept s s :=
  fun _ room' h => ⟨room', h, rfl, rfl⟩

theorem tablesKept_rooms (s s' : Server) (h : s'.rooms = s.rooms) : TablesKept s s' := by
  intro roomId room' hl
  rw [h] at hl
  exact ⟨room', hl, rfl, rfl⟩

theorem tablesKept_setRoom (s : Server) (roomId : String) (room r : Room)
    (hroom : lookup roomId s.rooms = some room) (hg : r.game = room.game)
    (hh : r.heap = room.heap) : TablesKept s (s.setRoom roomId r) := by
  intro other room' hl
  by_cases ho : other = roomId
  · subst ho
    rw [lookup_setRoom_self] at hl
    cases hl
    exact ⟨room, hroom, hg, hh⟩
  · rw [lookup_setRoom_ne _ _ _ _ ho] at hl
    exact ⟨room', hl, rfl, rfl⟩

theorem tablesKept_erase (s : Server) (roomId : String) :
    TablesKept s { s with rooms := erase roomId s.rooms } := by
  intro other room' hl
  exact ⟨room', lookup_erase _ _ _ _ hl, rfl, rfl⟩

theorem tablesKept_disconnectLoop (records : List (String × DisconnectInfo))
    (socketId : String) (now : Int) (rooms : List (String × Room)) :
    ∀ roomId room', lookup roomId (disconnectLoop records socketId now rooms).state.rooms
        = some room' →
      ∃ room, lookup roomId rooms = some room ∧ room'.game = room.game ∧
        room'.heap = room.heap := by
  induction rooms with
  | nil =>
    intro roomId room' h
    simp [disconnectLoop, lookup] at h
  | cons e rest ih =>
    obtain ⟨rid, room⟩ := e
    intro roomId room' h
    unfold disconnectLoop at h
    split at h
    · by_cases hk : rid = roomId
      · simp [lookup, hk] at h ⊢
        subst h
        exact ⟨rfl, rfl⟩
      · simp [lookup, hk] at h ⊢
        exact ⟨room', h, rfl, rfl⟩
    · split at h
      · exact ⟨room', h, rfl, rfl⟩
      · by_cases hk : rid = roomId
        · simp [lookup, hk] at h ⊢
          subst h
          exact ⟨rfl, rfl⟩
        · simp [lookup, hk] at h ⊢
          exact ih roomId room' h

theorem startGame_state_or_call (E : Engine) (s : Server) (socketId roomId : String) :
    (startGame E s socketId roomId).state = s ∨ (startGame E s socketId roomId).calls ≠ [] := by
  unfold startGame
  repeat' split
  all_goals first | (left; rfl) | (right; simp)

theorem playerAction_state_or_call (E : Engine) (s : Server) (socketId roomId : String)
    (action betAmount : JsVal) :
    (playerAction E s socketId roomId action betAmount).state = s ∨
    (playerAction E s socketId roomId action betAmount).calls ≠ [] := by
  unfold playerAction
  repeat' split
  all_goals first | (left; rfl) | (right; simp)

theorem prepareNextHand_state_or_call (E : Engine) (s : Server) (socketId roomId : String) :
    (prepareNextHand E s socketId roomId).state = s ∨
    (prepareNextHand E s socketId roomId).calls ≠ [] := by
  unfold prepareNextHand
  repeat' split
  all_goals first | (left; rfl) | (right; simp)

theorem switchToPlayer_state_or_call (E : Engine) (s : Server) (socketId roomId : String) :
    (switchToPlayer E s socketId roomId).state = s ∨
    (switchToPlayer E s socketId roomId).calls ≠ [] := by
  unfold switchToPlayer
  repeat' split
  all_goals first | (left; rfl) | (right; simp)

theorem switchToSpectator_state_or_call (E : Engine) (s : Server) (socketId roomId : String) :
    (switchToSpectator E s socketId roomId).state = s ∨
    (switchToSpectator E s socketId roomId).calls ≠ [] := by
  unfold switchToSpectator
  repeat' split
  all_goals first | (left; rfl) | (right; simp)

theorem attemptReconnect_state_or_call (E : Engine) (s : Server)
    (socketId roomId nickname : String) :
    (attemptReconnect E s socketId roomId nickname).state = s ∨
    (attemptReconnect E s socketId roomId nickname).calls ≠ [] := by
  unfold attemptReconnect
  repeat' split
  all_goals first | (left; rfl) | (right; simp)

theorem leaveRoom_state_or_call (E : Engine) (s : Server) (socketId roomId : String) :
    (leaveRoom E s socketId roomId).state = s ∨ (leaveRoom E s socketId roomId).calls ≠ [] := by
  unfold leaveRoom
  split
  · left; rfl
  · split
    · left; rfl
    · right; simp [removeFromRoom_calls]

theorem disconnectTimeout_rooms_or_call (E : Engine) (s : Server) (timer : RemovalTimer) :
    (disconnectTimeout E s timer).state.rooms = s.rooms ∨
    (disconnectTimeout E s timer).calls ≠ [] := by
  unfold disconnectTimeout
  split
  · left; rfl
  · split
    · left; rfl
    · split
      · left; rfl
      · right; simp [removeFromRoom_calls]

theorem tablesKept_of_state_or_call (s : Server) (o : Outcome)
    (h : o.state = s ∨ o.calls ≠ []) (hcalls : o.calls = []) : TablesKept s o.state := by
  rcases h with h | h
  · rw [h]; exact tablesKept_refl s
  · exact absurd hcalls h

/-- A run of a handler that makes no call to the engine, other than of `createRoom`,
`resetGame`, `endGame` and `updateInitialChips`, writes no field of a game or of a
player. -/
theorem handle_tablesKept (E : Engine) (s : Server) (req : Request)
    (hcalls : (handle E s req).calls = []) (hreq : req.writesTable = false) :
    TablesKept s (handle E s req).state := by
  cases req with
  | attemptReconnect socketId roomId nickname =>
    exact tablesKept_of_state_or_call s _ (attemptReconnect_state_or_call E s _ _ _) hcalls
  | createRoom socketId roomId nickname => simp [Request.writesTable] at hreq
  | joinRoom socketId roomId nickname asSpectator =>
    simp only [handle] at hcalls ⊢
    unfold joinRoom at hcalls ⊢
    split
    · exact tablesKept_refl s
    · split
      · exact tablesKept_refl s
      · rename_i room hroom
        split
        · exact tablesKept_refl s
        · split
          · exact tablesKept_refl s
          · split
            · rw [broadcast_setRoom_state]
              exact tablesKept_setRoom s roomId room _ hroom (by simp) (by simp)
            · split
              · exact tablesKept_refl s
              · simp_all
  | startGame socketId roomId =>
    exact tablesKept_of_state_or_call s _ (startGame_state_or_call E s _ _) hcalls
  | switchToPlayer socketId roomId =>
    exact tablesKept_of_state_or_call s _ (switchToPlayer_state_or_call E s _ _) hcalls
  | switchToSpectator socketId roomId =>
    exact tablesKept_of_state_or_call s _ (switchToSpectator_state_or_call E s _ _) hcalls
  | playerAction socketId roomId action betAmount =>
    exact tablesKept_of_state_or_call s _ (playerAction_state_or_call E s _ _ _ _) hcalls
  | prepareNextHand socketId roomId =>
    exact tablesKept_of_state_or_call s _ (prepareNextHand_state_or_call E s _ _) hcalls
  | sendMessage socketId roomId message =>
    simp only [handle]
    unfold sendMessage
    split <;> exact tablesKept_refl s
  | leaveRoom socketId roomId =>
    exact tablesKept_of_state_or_call s _ (leaveRoom_state_or_call E s _ _) hcalls
  | resetGame socketId roomId => simp [Request.writesTable] at hreq
  | endGame socketId roomId => simp [Request.writesTable] at hreq
  | closeRoom socketId roomId =>
    simp only [handle]
    unfold closeRoom
    split
    · exact tablesKept_refl s
    · split
      · exact tablesKept_refl s
      · exact tablesKept_erase s roomId
  | disconnect socketId now =>
    simp only [handle, disconnect]
    exact tablesKept_disconnectLoop s.disconnectedPlayers socketId now s.rooms
  | removalTimeout timer =>
    rcases disconnectTimeout_rooms_or_call E s timer with h | h
    · exact tablesKept_rooms _ _ h
    · exact absurd hcalls h
  | updateRoomSettings socketId roomId settings =>
    simp only [handle]
    unfold updateRoomSettings
    split
    · exact tablesKept_refl s
    · rename_i room hroom
      split
      · exact tablesKept_refl s
      · rw [broadcast_setRoom_state]
        exact tablesKept_setRoom s roomId room _ hroom (by simp) (by simp)
  | updateInitialChips socketId roomId initialChips => simp [Request.writesTable] at hreq
  | cleanup now =>
    exact tablesKept_rooms _ _ rfl

/-! ## The writes of `index.js` to `game.gameState`: `endGame` and `resetGame` -/

/-- The state after an `endGame` that is not rejected. -/
theorem endGame_state (E : Engine) (s : Server) (socketId roomId : String) (room : Room)
    (hroom : lookup roomId s.rooms = some room) (hcreator : room.creator = socketId)
    (hphase : ¬ (room.game.gameState = .WAITING ∨ room.game.gameState = .GAME_OVER)) :
    (endGame E s socketId roomId).state
      = s.setRoom roomId
          ({ room with
              game := { room.game with gameState := .GAME_OVER }
              leaderboard := some (leaderboardOf room.heap room.game.players) } :
            Room).ensureSettings := by
  have hc : ¬ room.creator ≠ socketId := not_not.mpr hcreator
  unfold endGame
  simp only [hroom, if_neg hc, if_neg hphase]
  rw [broadcast_setRoom_state]

/-- The state after a `resetGame` that is not rejected. -/
theorem resetGame_state (E : Engine) (s : Server) (socketId roomId : String) (room : Room)
    (hroom : lookup roomId s.rooms = some room) (hcreator : room.creator = socketId)
    (hplayers : 2 ≤ (keys room.players).length) :
    (resetGame E s socketId roomId).state
      = s.setRoom roomId
          ({ room with
              game :=
                { room.game with
                  gameState := .WAITING, mainPot := 0, sidePots := [], communityCards := [],
                  currentBet := 0, lastRaiser := none, roundComplete := false,
                  currentPlayerTurn := none, activePlayers := [] }
              leaderboard := none
              heap := forEachPlayer (resetPlayer room.initialChips) room.heap
                room.game.players } : Room).ensureSettings := by
  have hc : ¬ room.creator ≠ socketId := not_not.mpr hcreator
  have hn : ¬ (keys room.players).length < 2 := by omega
  unfold resetGame
  simp only [hroom, if_neg hc, if_neg hn]
  rw [broadcast_setRoom_state]

/-- C7, counterexample: `endGame` takes the sample room from `PREFLOP`, not from
`SHOWDOWN_COMPLETE`, to `GAME_OVER`; and `resetGame` takes it from `GAME_OVER` to
`WAITING` with the same players in the room. -/
theorem endGame_from_PREFLOP_and_resetGame_from_GAME_OVER :
    (sampleServer .PREFLOP).phaseOf "r1" = some .PREFLOP ∧
    (endGame specEngine (sampleServer .PREFLOP) "sock-a" "r1").state.phaseOf "r1"
      = some .GAME_OVER ∧
    (sampleServer .GAME_OVER).phaseOf "r1" = some .GAME_OVER ∧
    (resetGame specEngine (sampleServer .GAME_OVER) "sock-a" "r1").state.phaseOf "r1"
      = some .WAITING ∧
    (resetGame specEngine (sampleServer .GAME_OVER) "sock-a" "r1").state.playerIdsOf "r1"
      = (sampleServer .GAME_OVER).playerIdsOf "r1" := by
  decide

/-- C7, amended: the writes of `index.js` to `game.gameState` are those of `endGame` and
`resetGame`.  Sent by the creator, `endGame` enters `GAME_OVER` from every phase other
than `WAITING` and `GAME_OVER` and is rejected without any change in these two;
`resetGame`, for a room of at least 2 players, sets `WAITING` from every phase,
`GAME_OVER` included, and keeps the keys of `room.players`.  A run of any handler other
than `createRoom`, `resetGame`, `endGame` and `updateInitialChips` that makes no call to
the engine leaves every room in the phase it had, and so does `updateInitialChips`. -/
theorem gameState_direct_writes (E : Engine) (s : Server) (socketId roomId : String)
    (room : Room) (hroom : lookup roomId s.rooms = some room)
    (hcreator : room.creator = socketId) :
    (room.game.gameState ≠ .WAITING → room.game.gameState ≠ .GAME_OVER →
      (endGame E s socketId roomId).state.phaseOf roomId = some .GAME_OVER) ∧
    (room.game.gameState = .WAITING ∨ room.game.gameState = .GAME_OVER →
      (endGame E s socketId roomId).state = s) ∧
    (2 ≤ (keys room.players).length →
      (resetGame E s socketId roomId).state.phaseOf roomId = some .WAITING ∧
      (resetGame E s socketId roomId).state.playerIdsOf roomId = some (keys room.players)) ∧
    (∀ req : Request, req.writesTable = false → (handle E s req).calls = [] →
      ∀ other phase, (handle E s req).state.phaseOf other = some phase →
        s.phaseOf other = some phase) ∧
    (∀ initialChips,
      (updateInitialChips E s socketId roomId initialChips).state.phaseOf roomId
        = some room.game.gameState) := by
  refine ⟨?_, ?_, ?_, ?_, ?_⟩
  · intro h1 h2
    rw [endGame_state E s socketId roomId room hroom hcreator (by simp [h1, h2])]
    simp [Server.phaseOf, lookup_setRoom_self]
  · intro h
    have hc : ¬ room.creator ≠ socketId := not_not.mpr hcreator
    unfold endGame
    simp only [hroom, if_neg hc, if_pos h]
    rfl
  · intro h
    rw [resetGame_state E s socketId roomId room hroom hcreator h]
    simp [Server.phaseOf, Server.playerIdsOf, lookup_setRoom_self]
  · intro req hreq hcalls other phase h
    unfold Server.phaseOf at h ⊢
    cases hl : lookup other (handle E s req).state.rooms with
    | none => simp [hl] at h
    | some room' =>
      obtain ⟨room0, h0, hg, _⟩ := handle_tablesKept E s req hcalls hreq other room' hl
      simp [hl] at h
      simp [h0, ← hg, h]
  · intro initialChips
    have hc : ¬ room.creator ≠ socketId := not_not.mpr hcreator
    unfold updateInitialChips
    simp only [hroom, if_neg hc]
    split
    · simp [Server.phaseOf, hroom]
    · split
      · simp [Server.phaseOf, hroom]
      · rw [broadcast_setRoom_state]
        simp [Server.phaseOf, lookup_setRoom_self]

/-- C7, amended, at a concrete input: the creator ends, or resets, the sample room during
`RIVER`. -/
theorem gameState_direct_writes_witness :
    (endGame specEngine (sampleServer .RIVER) "sock-a" "r1").state.phaseOf "r1"
      = some .GAME_OVER ∧
    (resetGame specEngine (sampleServer .RIVER) "sock-a" "r1").state.phaseOf "r1"
      = some .WAITING :=
  have h := gameState_direct_writes specEngine (sampleServer .RIVER) "sock-a" "r1"
    (sampleRoom .RIVER) (by rfl) (by decide)
  ⟨h.1 (by decide) (by decide), (h.2.2.1 (by decide)).1⟩

/-! ## Chips: `updateInitialChips` and the leaderboard of `endGame` -/

theorem forEachPlayer_cons (f : Player → Player) (heap : Heap) (a : Ref) (l : List Ref) :
    forEachPlayer f heap (a :: l) = forEachPlayer f (heap.set a (f (heap a))) l := rfl

/-- A loop whose body gives the same result when run twice on a player: every listed
player has gone through the body, the others are untouched. -/
theorem forEachPlayer_apply (f : Player → Player) (hf : ∀ p, f (f p) = f p)
    (l : List Ref) : ∀ (heap : Heap) (r : Ref),
    forEachPlayer f heap l r = if r ∈ l then f (heap r) else heap r := by
  induction l with
  | nil => intro heap r; simp [forEachPlayer]
  | cons a l ih =>
    intro heap r
    rw [forEachPlayer_cons, ih]
    by_cases hra : r = a
    · subst hra
      by_cases hl : r ∈ l <;> simp [hl, Heap.set, hf]
    · by_cases hl : r ∈ l <;> simp [hl, hra, Heap.set]

theorem chipsOf_const (heap : Heap) (n : Int) (l : List Ref)
    (h : ∀ r ∈ l, (heap r).chips = n) : chipsOf heap l = n * l.length := by
  induction l with
  | nil => simp [chipsOf]
  | cons a l ih =>
    have ha : (heap a).chips = n := h a (by simp)
    have hl : chipsOf heap l = n * l.length := ih (fun r hr => h r (by simp [hr]))
    simp only [chipsOf, List.map_cons, List.sum_cons, List.length_cons] at hl ⊢
    rw [ha, hl]
    push_cast
    ring

/-- The state after an `updateInitialChips` that is accepted. -/
theorem updateInitialChips_state (E : Engine) (s : Server) (socketId roomId : String)
    (initialChips : JsVal) (room : Room) (chips : Int)
    (hroom : lookup roomId s.rooms = some room) (hcreator : room.creator = socketId)
    (hparse : parseInt initialChips = some chips) (hlo : 500 ≤ chips) (hhi : chips ≤ 50000) :
    (updateInitialChips E s socketId roomId initialChips).state
      = s.setRoom roomId
          ({ room with
              settings := some { (match room.settings with
                                  | some st => st
                                  | none => defaultChipSettings) with
                                 initialChips := some chips }
              heap := forEachPlayer (setChips chips)
                (forEachPlayer (setChips chips) room.heap (room.players.map (fun e => e.2)))
                room.game.players } : Room).ensureSettings := by
  have hc : ¬ room.creator ≠ socketId := not_not.mpr hcreator
  have hr : ¬ (chips < 500 ∨ chips > 50000) := by omega
  unfold updateInitialChips
  simp only [hroom, if_neg hc, hparse, if_neg hr]
  rw [broadcast_setRoom_state]

/-- C8, counterexample: during `PREFLOP` the sample room holds 2000 chips in stacks and
pot; after the creator's `updateInitialChips` with 500 the hand is still in `PREFLOP` and
the room holds 1030. -/
theorem updateInitialChips_changes_totalChips :
    (sampleServer .PREFLOP).phaseOf "r1" = some .PREFLOP ∧
    (sampleServer .PREFLOP).totalChipsOf "r1" = some 2000 ∧
    (updateInitialChips specEngine (sampleServer .PREFLOP) "sock-a" "r1" (.num 500)).state.phaseOf
      "r1" = some .PREFLOP ∧
    (updateInitialChips specEngine (sampleServer .PREFLOP) "sock-a" "r1"
      (.num 500)).state.totalChipsOf "r1" = some 1030 := by
  decide

/-- C8, amended: a run of any handler other than `createRoom`, `resetGame`, `endGame` and
`updateInitialChips` that makes no call to the engine leaves the quantity
`sum(players' chips) + mainPot + sum(sidePots.amount)` of every room as it was, and so
does a rejected `updateInitialChips`; an accepted `updateInitialChips` with value `n`
keeps the phase and the pots and sets the chips of every player of the game to `n`, so the
quantity becomes `n * |game.players| + mainPot + sum(sidePots.amount)`. -/
theorem totalChips_outside_playerAction (E : Engine) (s : Server) (socketId roomId : String)
    (room : Room) (hroom : lookup roomId s.rooms = some room)
    (hcreator : room.creator = socketId) :
    (∀ req : Request, req.writesTable = false → (handle E s req).calls = [] →
      ∀ other total, (handle E s req).state.totalChipsOf other = some total →
        s.totalChipsOf other = some total) ∧
    (∀ initialChips,
      (parseInt initialChips = none ∨
        ∃ chips, parseInt initialChips = some chips ∧ (chips < 500 ∨ chips > 50000)) →
      (updateInitialChips E s socketId roomId initialChips).state = s) ∧
    (∀ initialChips chips, parseInt initialChips = some chips → 500 ≤ chips →
      chips ≤ 50000 →
      (updateInitialChips E s socketId roomId initialChips).state.phaseOf roomId
        = some room.game.gameState ∧
      (updateInitialChips E s socketId roomId initialChips).state.totalChipsOf roomId
        = some (chips * room.game.players.length + room.game.mainPot
            + sidePotTotal room.game.sidePots)) := by
  refine ⟨?_, ?_, ?_⟩
  · intro req hreq hcalls other total h
    unfold Server.totalChipsOf at h ⊢
    cases hl : lookup other (handle E s req).state.rooms with
    | none => simp [hl] at h
    | some room' =>
      obtain ⟨room0, h0, hg, hh⟩ := handle_tablesKept E s req hcalls hreq other room' hl
      simp [hl] at h
      simp [h0, ← h, Room.totalChips, hg, hh]
  · intro initialChips h
    have hc : ¬ room.creator ≠ socketId := not_not.mpr hcreator
    unfold updateInitialChips
    simp only [hroom, if_neg hc]
    rcases h with h | ⟨chips, hp, h⟩
    · simp only [h]
      rfl
    · simp only [hp, if_pos h]
      rfl
  · intro initialChips chips hparse hlo hhi
    rw [updateInitialChips_state E s socketId roomId initialChips room chips hroom hcreator
      hparse hlo hhi]
    refine ⟨by simp [Server.phaseOf, lookup_setRoom_self], ?_⟩
    simp only [Server.totalChipsOf, lookup_setRoom_self, Option.map_some', Room.totalChips,
      ensureSettings_game, ensureSettings_heap]
    rw [chipsOf_const _ chips]
    intro r hr
    rw [forEachPlayer_apply (setChips chips) (fun p => rfl)]
    simp [hr, setChips]

/-- C8, amended, at a concrete input: the creator of the sample room sends
`updateInitialChips` with 100, then with 500, during `PREFLOP`. -/
theorem totalChips_outside_playerAction_witness :
    (updateInitialChips specEngine (sampleServer .PREFLOP) "sock-a" "r1"
        (.num 100)).state = sampleServer .PREFLOP ∧
    (updateInitialChips specEngine (sampleServer .PREFLOP) "sock-a" "r1"
        (.num 500)).state.totalChipsOf "r1"
      = some (500 * (sampleRoom .PREFLOP).game.players.length
          + (sampleRoom .PREFLOP).game.mainPot
          + sidePotTotal (sampleRoom .PREFLOP).game.sidePots) :=
  have h := totalChips_outside_playerAction specEngine (sampleServer .PREFLOP) "sock-a" "r1"
    (sampleRoom .PREFLOP) (by rfl) (by decide)
  ⟨h.2.1 (.num 100) (Or.inr ⟨100, by decide, by decide⟩),
   (h.2.2 (.num 500) 500 (by decide) (by decide) (by decide)).2⟩

theorem leaderboardChips_insertByChips (e : LeaderEntry) (l : List LeaderEntry) :
    leaderboardChips (insertByChips e l) = e.chips + leaderboardChips l := by
  induction l with
  | nil => simp [insertByChips, leaderboardChips]
  | cons x rest ih =>
    unfold insertByChips
    split
    · simp [leaderboardChips]
    · simp only [leaderboardChips, List.map_cons, List.sum_cons] at ih ⊢
      rw [ih]
      ring

theorem leaderboardChips_sortByChips (l : List LeaderEntry) :
    leaderboardChips (sortByChips l) = leaderboardChips l := by
  induction l with
  | nil => rfl
  | cons e rest ih =>
    rw [sortByChips, leaderboardChips_insertByChips, ih]
    simp [leaderboardChips]

theorem leaderboardChips_leaderboardOf (heap : Heap) (players : List Ref) :
    leaderboardChips (leaderboardOf heap players) = chipsOf heap players := by
  rw [leaderboardOf, leaderboardChips_sortByChips]
  simp [leaderboardChips, chipsOf, List.map_map, Function.comp_def]

/-- C9, counterexample: the sample room holds 2000 chips during `PREFLOP`, 30 of them in
the main pot; the chips of the leaderboard that `endGame` stores sum to 1970. -/
theorem endGame_leaderboard_omits_pots :
    (sampleServer .PREFLOP).totalChipsOf "r1" = some 2000 ∧
    (endGame specEngine (sampleServer .PREFLOP) "sock-a" "r1").state.leaderboardChipsOf "r1"
      = some 1970 := by
  decide

/-- C9, amended: the leaderboard that `endGame` stores for a hand in progress lists the
chips the players hold: its chips sum to `sum(players' chips)` as it was before the call,
that is the quantity `sum(players' chips) + mainPot + sum(sidePots.amount)` less the
pots; the pots and the stacks are left as they were. -/
theorem endGame_leaderboard_chips (E : Engine) (s : Server) (socketId roomId : String)
    (room : Room) (hroom : lookup roomId s.rooms = some room)
    (hcreator : room.creator = socketId)
    (hstarted : room.game.gameState ≠ .WAITING) (hrunning : room.game.gameState ≠ .GAME_OVER) :
    ∃ room', lookup roomId (endGame E s socketId roomId).state.rooms = some room' ∧
      room'.leaderboard = some (leaderboardOf room.heap room.game.players) ∧
      leaderboardChips (leaderboardOf room.heap room.game.players)
        = chipsOf room.heap room.game.players ∧
      leaderboardChips (leaderboardOf room.heap room.game.players)
        = room.totalChips - (room.game.mainPot + sidePotTotal room.game.sidePots) ∧
      room'.heap = room.heap ∧ room'.game.players = room.game.players ∧
      room'.game.mainPot = room.game.mainPot ∧ room'.game.sidePots = room.game.sidePots := by
  rw [endGame_state E s socketId roomId room hroom hcreator (by simp [hstarted, hrunning])]
  refine ⟨_, lookup_setRoom_self _ _ _, by simp, leaderboardChips_leaderboardOf _ _, ?_,
    by simp, by simp, by simp, by simp⟩
  rw [leaderboardChips_leaderboardOf, Room.totalChips]
  ring

/-- C9, amended, at a concrete input: the creator ends the sample room during
`PREFLOP`. -/
theorem endGame_leaderboard_chips_witness :
    ∃ room', lookup "r1" (endGame specEngine (sampleServer .PREFLOP) "sock-a" "r1").state.rooms
        = some room' ∧
      room'.leaderboard
        = some (leaderboardOf (sampleRoom .PREFLOP).heap (sampleRoom .PREFLOP).game.players) ∧
      leaderboardChips
          (leaderboardOf (sampleRoom .PREFLOP).heap (sampleRoom .PREFLOP).game.players)
        = chipsOf (sampleRoom .PREFLOP).heap (sampleRoom .PREFLOP).game.players :=
  have ⟨room', h1, h2, h3, _⟩ := endGame_leaderboard_chips specEngine (sampleServer .PREFLOP)
    "sock-a" "r1" (sampleRoom .PREFLOP) (by rfl) (by decide) (by decide) (by decide)
  ⟨room', h1, h2, h3⟩

/-! ## `attemptReconnect` -/

theorem lookup_erase_self {α : Type} (k : String) (m : List (String × α)) :
    lookup k (erase k m) = none := by
  induction m with
  | nil => rfl
  | cons e rest ih =>
    obtain ⟨k0, v0⟩ := e
    by_cases h0 : k0 = k
    · simpa [erase, List.filter, h0] using ih
    · have h1 : erase k ((k0, v0) :: rest) = (k0, v0) :: erase k rest := by
        simp [erase, List.filter, h0]
      rw [h1]
      simp [lookup, h0, ih]

theorem lookup_erase_ne {α : Type} (k k' : String) (m : List (String × α)) (h : k' ≠ k) :
    lookup k' (erase k m) = lookup k' m := by
  induction m with
  | nil => rfl
  | cons e rest ih =>
    obtain ⟨k0, v0⟩ := e
    by_cases h0 : k0 = k
    · subst h0
      have h1 : erase k0 ((k0, v0) :: rest) = erase k0 rest := by
        simp [erase, List.filter]
      rw [h1, ih]
      simp [lookup, Ne.symm h]
    · have h1 : erase k ((k0, v0) :: rest) = (k0, v0) :: erase k rest := by
        simp [erase, List.filter, h0]
      rw [h1]
      by_cases h2 : k0 = k'
      · simp [lookup, h2]
      · simp [lookup, h2, ih]

/-- The engine after the spec keeps the contract of `Game.updatePlayerId`. -/
theorem specEngine_rebindsIdOnly : specEngine.RebindsIdOnly := by
  intro t oldId newId r
  show (Spec.updatePlayerId t oldId newId).heap r = t.heap r ∨
    ((t.heap r).id = oldId ∧
      (Spec.updatePlayerId t oldId newId).heap r = { t.heap r with id := newId })
  have hf : ∀ p : Player,
      Spec.rebind oldId newId (Spec.rebind oldId newId p) = Spec.rebind oldId newId p := by
    intro p
    unfold Spec.rebind
    by_cases h : p.id = oldId
    · by_cases h2 : newId = oldId <;> simp [h, h2]
    · simp [h]
  simp only [Spec.updatePlayerId]
  rw [forEachPlayer_apply _ hf]
  by_cases hr : r ∈ t.game.players
  · by_cases h : (t.heap r).id = oldId
    · right
      exact ⟨h, by simp [hr, h, Spec.rebind]⟩
    · left
      simp [hr, h, Spec.rebind]
  · left
    simp [hr]

/-- The state after a successful `attemptReconnect`. -/
theorem attemptReconnect_state (E : Engine) (s : Server) (socketId roomId nickname : String)
    (oldId : String) (info : DisconnectInfo) (room : Room) (player : Ref)
    (hfind : findReconnect roomId nickname s.disconnectedPlayers = some (oldId, info))
    (hroom : lookup roomId s.rooms = some room)
    (hplayer : lookup oldId room.players = some player) :
    (attemptReconnect E s socketId roomId nickname).state
      = Server.setRoom
          { rooms := s.rooms, disconnectedPlayers := erase oldId s.disconnectedPlayers }
          roomId
          ({ room with
              players := insert socketId player (erase oldId room.players)
              heap := (E.updatePlayerId
                { heap := room.heap.set player { room.heap player with id := socketId },
                  game := room.game } oldId socketId).heap
              game := (E.updatePlayerId
                { heap := room.heap.set player { room.heap player with id := socketId },
                  game := room.game } oldId socketId).game
              creator := if room.creator = oldId then socketId else room.creator } :
            Room).ensureSettings := by
  unfold attemptReconnect
  simp only [hfind, hroom, hplayer]
  exact broadcast_setRoom_state E
    { rooms := s.rooms, disconnectedPlayers := erase oldId s.disconnectedPlayers } roomId _ _ _ _ _

/-- C10: a successful `attemptReconnect` from a socket whose id is not yet a key of
`room.players`, in a room that keeps each player under the player's own id and with an
engine whose `updatePlayerId` rebinds ids only, changes identity only: the player's
record is the old record with `id` set to the new socket id (nickname, chips, hand,
status, currentBet, totalBetThisHand and hasActed are kept); the old id is no longer a
key and the new id maps to that record; every other key maps to the same record, which is
unchanged; and `room.creator` becomes the new id if it was the old id and is unchanged
otherwise. -/
theorem attemptReconnect_rebinds_identity (E : Engine) (hE : E.RebindsIdOnly) (s : Server)
    (socketId roomId nickname oldId : String) (info : DisconnectInfo) (room : Room)
    (player : Ref)
    (hfind : findReconnect roomId nickname s.disconnectedPlayers = some (oldId, info))
    (hroom : lookup roomId s.rooms = some room)
    (hplayer : lookup oldId room.players = some player)
    (hnew : lookup socketId room.players = none)
    (hown : ∀ k r, lookup k room.players = some r → (room.heap r).id = k) :
    ∃ room', lookup roomId (attemptReconnect E s socketId roomId nickname).state.rooms
        = some room' ∧
      room'.heap player = { room.heap player with id := socketId } ∧
      lookup oldId room'.players = none ∧
      lookup socketId room'.players = some player ∧
      (∀ k, k ≠ oldId → k ≠ socketId →
        lookup k room'.players = lookup k room.players ∧
        ∀ r, lookup k room.players = some r → room'.heap r = room.heap r) ∧
      room'.creator = (if room.creator = oldId then socketId else room.creator) := by
  have hne : oldId ≠ socketId := by
    intro h
    rw [h, hnew] at hplayer
    cases hplayer
  rw [attemptReconnect_state E s socketId roomId nickname oldId info room player hfind hroom
    hplayer]
  refine ⟨_, lookup_setRoom_self _ _ _, ?_, ?_, ?_, ?_, ?_⟩
  · simp only [ensureSettings_heap]
    rcases hE { heap := room.heap.set player { room.heap player with id := socketId },
                game := room.game } oldId socketId player with h | ⟨_, h⟩
    · rw [h]; simp [Heap.set]
    · rw [h]; simp [Heap.set]
  · simp only [ensureSettings_players]
    rw [lookup_insert_ne _ _ _ _ hne, lookup_erase_self]
  · simp only [ensureSettings_players]
    exact lookup_insert_self _ _ _
  · intro k hk1 hk2
    simp only [ensureSettings_players, ensureSettings_heap]
    refine ⟨by rw [lookup_insert_ne _ _ _ _ hk2, lookup_erase_ne _ _ _ hk1], ?_⟩
    intro r hr
    have hrid : (room.heap r).id = k := hown k r hr
    have hpid : (room.heap player).id = oldId := hown oldId player hplayer
    have hrp : r ≠ player := by
      intro h
      rw [h, hpid] at hrid
      exact hk1 hrid.symm
    rcases hE { heap := room.heap.set player { room.heap player with id := socketId },
                game := room.game } oldId socketId r with h | ⟨h0, _⟩
    · rw [h]; simp [Heap.set, hrp]
    · exfalso
      simp [Heap.set, hrp, hrid] at h0
      exact hk1 h0
  · simp

/-- C10 at a concrete input: Bob, who dropped out of the sample room during `PREFLOP`,
comes back on the socket `sock-c`. -/
theorem attemptReconnect_rebinds_identity_witness :
    ∃ room', lookup "r1" (attemptReconnect specEngine droppedServer "sock-c" "r1" "Bob").state.rooms
        = some room' ∧
      room'.heap 1 = { (sampleRoom .PREFLOP).heap 1 with id := "sock-c" } ∧
      lookup "sock-b" room'.players = none ∧
      lookup "sock-c" room'.players = some 1 ∧
      room'.creator = "sock-a" :=
  have ⟨room', h1, h2, h3, h4, _, h6⟩ :=
    attemptReconnect_rebinds_identity specEngine specEngine_rebindsIdOnly droppedServer
      "sock-c" "r1" "Bob" "sock-b"
      { roomId := "r1", nickname := "Bob", lastSeen := 0, socketId := "sock-b" }
      (sampleRoom .PREFLOP) 1 (by decide) (by rfl) (by decide) (by decide)
      (by
        intro k r h
        simp only [sampleRoom, lookup] at h
        split at h
        · cases h; subst_vars; rfl
        · split at h
          · cases h; subst_vars; rfl
          · cases h)
  ⟨room', h1, h2, h3, h4, by rw [h6]; decide⟩

/-! ## The guards of `startGame` and `prepareNextHand` at concrete inputs -/

/-- C3, amended, at concrete inputs: the creator starts the waiting sample room of two
players, and the room in which Ann sits alone. -/
theorem startGame_guard_witness :
    (startGame specEngine (sampleServer .WAITING) "sock-a" "r1").calls
      = [{ method := .startGame, phase := .WAITING }] ∧
    (∃ room, lookup "r1" (sampleServer .WAITING).rooms = some room ∧
      room.game.gameState = .WAITING ∧ 2 ≤ room.game.players.length) ∧
    (startGame specEngine soloServer "sock-a" "r1").state = soloServer ∧
    (startGame specEngine soloServer "sock-a" "r1").calls = [] :=
  ⟨by decide,
   ((startGame_guard specEngine (sampleServer .WAITING) "sock-a" "r1").1
      { method := .startGame, phase := .WAITING } (by decide) rfl).2,
   ((startGame_guard specEngine soloServer "sock-a" "r1").2 soloRoom (by rfl) (by decide)).1,
   ((startGame_guard specEngine soloServer "sock-a" "r1").2 soloRoom (by rfl) (by decide)).2.1⟩

/-- C4 at concrete inputs: the creator asks for the next hand after the showdown of the
sample room, and during `PREFLOP`. -/
theorem prepareNextHand_only_from_SHOWDOWN_COMPLETE_witness :
    (prepareNextHand specEngine (sampleServer .SHOWDOWN_COMPLETE) "sock-a" "r1").calls
      = [{ method := .prepareNextHand, phase := .SHOWDOWN_COMPLETE }] ∧
    (∃ room, lookup "r1" (sampleServer .SHOWDOWN_COMPLETE).rooms = some room ∧
      room.game.gameState = .SHOWDOWN_COMPLETE) ∧
    (prepareNextHand specEngine (sampleServer .PREFLOP) "sock-a" "r1").state
      = sampleServer .PREFLOP ∧
    (prepareNextHand specEngine (sampleServer .PREFLOP) "sock-a" "r1").calls = [] :=
  ⟨by decide,
   (prepareNextHand_only_from_SHOWDOWN_COMPLETE specEngine (sampleServer .SHOWDOWN_COMPLETE)
      "sock-a" "r1").2.2.1 { method := .prepareNextHand, phase := .SHOWDOWN_COMPLETE }
      (by decide) rfl,
   ((prepareNextHand_only_from_SHOWDOWN_COMPLETE specEngine (sampleServer .PREFLOP)
      "sock-a" "r1").2.2.2 (sampleRoom .PREFLOP) (by rfl) (by decide)).1,
   ((prepareNextHand_only_from_SHOWDOWN_COMPLETE specEngine (sampleServer .PREFLOP)
      "sock-a" "r1").2.2.2 (sampleRoom .PREFLOP) (by rfl) (by decide)).2.1⟩

/-! ## `disconnect`: the seat is kept until the timer fires -/

/-- Whatever the state, the `disconnect` handler keeps the players, the `Game` and the
`Player` objects of every room; only `room.spectators` can change. -/
theorem disconnectLoop_seats (records : List (String × DisconnectInfo))
    (socketId : String) (now : Int) (rooms : List (String × Room)) :
    ∀ roomId room', lookup roomId (disconnectLoop records socketId now rooms).state.rooms
        = some room' →
      ∃ room, lookup roomId rooms = some room ∧ room'.players = room.players ∧
        room'.game = room.game ∧ room'.heap = room.heap := by
  induction rooms with
  | nil =>
    intro roomId room' h
    simp [disconnectLoop, lookup] at h
  | cons e rest ih =>
    obtain ⟨rid, room⟩ := e
    intro roomId room' h
    unfold disconnectLoop at h
    split at h
    · by_cases hk : rid = roomId
      · simp [lookup, hk] at h ⊢
        subst h
        exact ⟨rfl, rfl, rfl⟩
      · simp [lookup, hk] at h ⊢
        exact ⟨room', h, rfl, rfl, rfl⟩
    · split at h
      · exact ⟨room', h, rfl, rfl, rfl⟩
      · by_cases hk : rid = roomId
        · simp [lookup, hk] at h ⊢
          subst h
          exact ⟨rfl, rfl, rfl⟩
        · simp [lookup, hk] at h ⊢
          exact ih roomId room' h

/-- The loop of `disconnect` when the first room that holds the socket holds it as a
player: the rooms are untouched, a record is stored and a timer is set. -/
theorem disconnectLoop_player (records : List (String × DisconnectInfo))
    (socketId : String) (now : Int) (before after : List (String × Room))
    (roomId : String) (room : Room) (player : Ref)
    (hbefore : ∀ e ∈ before,
      lookup socketId e.2.spectators = none ∧ lookup socketId e.2.players = none)
    (hspectator : lookup socketId room.spectators = none)
    (hplayer : lookup socketId room.players = some player) :
    disconnectLoop records socketId now (before ++ (roomId, room) :: after)
      = { state :=
            { rooms := before ++ (roomId, room) :: after
              disconnectedPlayers := insert socketId
                { roomId := roomId, nickname := (room.heap player).nickname, lastSeen := now,
                  socketId := socketId } records }
          emits := [{ target := .to roomId, event := "playerDisconnected",
                      payload := .playerDisconnected roomId socketId
                        (room.heap player).nickname true }]
          timers := [{ socketId := socketId, roomId := roomId,
                       wasCreator := decide (room.creator = socketId), delayMs := 30000 }] } := by
  induction before with
  | nil =>
    simp only [List.nil_append]
    unfold disconnectLoop
    simp only [hspectator, hplayer]
  | cons e rest ih =>
    obtain ⟨rid, r⟩ := e
    have h1 := hbefore (rid, r) (by simp)
    have h2 : ∀ e ∈ rest,
        lookup socketId e.2.spectators = none ∧ lookup socketId e.2.players = none :=
      fun e he => hbefore e (by simp [he])
    simp only [List.cons_append]
    unfold disconnectLoop
    simp only [h1.1, h1.2]
    rw [ih h2]

/-- The `disconnect` of a socket that the first room of the map holding it holds as a
player: the handler leaves every room, so `room.players` and the `Game`, unchanged and
calls no engine method; it stores the record
`{roomId, nickname, lastSeen, socketId}` under the socket id in `disconnectedPlayers` and
sets a timer of 30000 ms.  When the timer fires without a record under that id nothing
is removed and nothing changes; when it fires with the record still present and the
player still seated, `Game.removePlayer` is called, the player's key leaves
`room.players` and the record is deleted. -/
theorem disconnect_keeps_seat (E : Engine) (s : Server) (socketId : String) (now : Int)
    (before after : List (String × Room)) (roomId : String) (room : Room) (player : Ref)
    (hrooms : s.rooms = before ++ (roomId, room) :: after)
    (hbefore : ∀ e ∈ before,
      lookup socketId e.2.spectators = none ∧ lookup socketId e.2.players = none)
    (hspectator : lookup socketId room.spectators = none)
    (hplayer : lookup socketId room.players = some player) :
    (disconnect s socketId now).state.rooms = s.rooms ∧
    (disconnect s socketId now).calls = [] ∧
    (disconnect s socketId now).state.disconnectedPlayers
      = insert socketId
          { roomId := roomId, nickname := (room.heap player).nickname, lastSeen := now,
            socketId := socketId } s.disconnectedPlayers ∧
    (disconnect s socketId now).timers
      = [{ socketId := socketId, roomId := roomId,
           wasCreator := decide (room.creator = socketId), delayMs := 30000 }] ∧
    (∀ (s' : Server) (timer : RemovalTimer),
      lookup timer.socketId s'.disconnectedPlayers = none →
      (disconnectTimeout E s' timer).state = s' ∧ (disconnectTimeout E s' timer).calls = []) ∧
    (∀ (s' : Server) (timer : RemovalTimer) (room' : Room),
      (lookup timer.socketId s'.disconnectedPlayers).isSome = true →
      lookup timer.roomId s'.rooms = some room' →
      (lookup timer.socketId room'.players).isSome = true →
      (disconnectTimeout E s' timer).calls
        = [{ method := .removePlayer timer.socketId, phase := room'.game.gameState }] ∧
      lookup timer.socketId (disconnectTimeout E s' timer).state.disconnectedPlayers = none ∧
      ∀ room'', lookup timer.roomId (disconnectTimeout E s' timer).state.rooms = some room'' →
        lookup timer.socketId room''.players = none) := by
  have h := disconnectLoop_player s.disconnectedPlayers socketId now before after roomId room
    player hbefore hspectator hplayer
  refine ⟨?_, ?_, ?_, ?_, ?_, ?_⟩
  · simp only [disconnect, hrooms, h]
  · simp only [disconnect, hrooms, h]
  · simp only [disconnect, hrooms, h]
  · simp only [disconnect, hrooms, h]
  · intro s' timer hnone
    unfold disconnectTimeout
    simp [hnone]
  · intro s' timer room' hrec hroom' hseat
    have hrec' : ¬ (lookup timer.socketId s'.disconnectedPlayers).isNone = true := by
      cases h0 : lookup timer.socketId s'.disconnectedPlayers <;> simp [h0] at hrec ⊢
    have hseat' : ¬ (lookup timer.socketId room'.players).isNone = true := by
      cases h0 : lookup timer.socketId room'.players <;> simp [h0] at hseat ⊢
    unfold disconnectTimeout
    rw [if_neg hrec']
    simp only [hroom', if_neg hseat']
    refine ⟨removeFromRoom_calls _ _ _ _ _ _ _ _, lookup_erase_self _ _, ?_⟩
    intro room'' h''
    unfold removeFromRoom at h''
    simp only [Room.withTable] at h''
    split at h''
    · exfalso
      simp only at h''
      rw [lookup_erase_self] at h''
      cases h''
    · split at h''
      · rw [broadcast_setRoom_state, lookup_setRoom_self] at h''
        cases h''
        simp [lookup_erase_self]
      · rw [broadcast_setRoom_state, lookup_setRoom_self] at h''
        cases h''
        simp [lookup_erase_self]

/-- At a concrete input: Bob's socket, held by the sample room only, disconnects during
`PREFLOP`. -/
theorem disconnect_keeps_seat_witness :
    (disconnect (sampleServer .PREFLOP) "sock-b" 0).state.rooms = (sampleServer .PREFLOP).rooms ∧
    (disconnect (sampleServer .PREFLOP) "sock-b" 0).calls = [] ∧
    (disconnect (sampleServer .PREFLOP) "sock-b" 0).state.disconnectedPlayers
      = [("sock-b", { roomId := "r1", nickname := "Bob", lastSeen := 0, socketId := "sock-b" })] :=
  have h := disconnect_keeps_seat specEngine (sampleServer .PREFLOP) "sock-b" 0 [] [] "r1"
    (sampleRoom .PREFLOP) 1 (by rfl) (by simp) (by decide) (by decide)
  ⟨h.1, h.2.1, h.2.2.1⟩

/-! ## `dealPrivateCards` goes to the owner of the hand -/

theorem broadcast_emits (E : Engine) (o : Outcome) (roomId : String) :
    (Outcome.broadcast E o roomId).emits = o.emits ++ (broadcastGameState E o.state roomId).2 :=
  rfl

theorem broadcastGameState_events (E : Engine) (s : Server) (roomId : String) :
    ∀ e ∈ (broadcastGameState E s roomId).2, e.event = "gameStateUpdate" := by
  intro e he
  unfold broadcastGameState at he
  split at he
  · simp at he
  · simp at he
    rw [he]

@[simp] theorem noDeal_nil : NoDeal [] := by
  intro e he
  cases he

@[simp] theorem noDeal_cons (e : Emit) (l : List Emit) :
    NoDeal (e :: l) ↔ ¬ e.event = "dealPrivateCards" ∧ NoDeal l := by
  simp [NoDeal]

@[simp] theorem noDeal_append (l₁ l₂ : List Emit) :
    NoDeal (l₁ ++ l₂) ↔ NoDeal l₁ ∧ NoDeal l₂ := by
  simp [NoDeal, or_imp, forall_and]

@[simp] theorem noDeal_broadcastGameState (E : Engine) (s : Server) (roomId : String) :
    NoDeal (broadcastGameState E s roomId).2 := by
  intro e he
  rw [broadcastGameState_events E s roomId e he]
  decide

@[simp] theorem errorTo_event (socketId message : String) :
    (errorTo socketId message).event = "error" := rfl

@[simp] theorem noDeal_reject (s : Server) (socketId message : String) :
    NoDeal (reject s socketId message).emits := by
  simp [reject, errorTo]

theorem removeFromRoom_noDeal (E : Engine) (s : Server) (socketId roomId : String)
    (room : Room) (wasCreator : Bool) (first : List Emit) (ops : List SocketOp)
    (hfirst : NoDeal first) :
    NoDeal (removeFromRoom E s socketId roomId room wasCreator first ops).emits := by
  unfold removeFromRoom
  simp only [Room.withTable]
  split
  · exact hfirst
  · repeat' split
    all_goals simp [broadcast_emits, gameResetNotice, hfirst]

theorem leaveRoom_noDeal (E : Engine) (s : Server) (socketId roomId : String) :
    NoDeal (leaveRoom E s socketId roomId).emits := by
  unfold leaveRoom
  repeat' split
  · simp
  · simp
  · apply removeFromRoom_noDeal
    simp

theorem disconnectTimeout_noDeal (E : Engine) (s : Server) (timer : RemovalTimer) :
    NoDeal (disconnectTimeout E s timer).emits := by
  unfold disconnectTimeout
  split
  · simp
  · simp only
    split
    · simp
    · split
      · simp
      · apply removeFromRoom_noDeal
        simp

theorem disconnectLoop_noDeal (records : List (String × DisconnectInfo)) (socketId : String)
    (now : Int) (rooms : List (String × Room)) :
    NoDeal (disconnectLoop records socketId now rooms).emits := by
  induction rooms with
  | nil => simp [disconnectLoop]
  | cons e rest ih =>
    obtain ⟨roomId, room⟩ := e
    unfold disconnectLoop
    split
    · simp
    · split
      · simp
      · exact ih

theorem createRoom_noDeal (E : Engine) (s : Server) (socketId roomId nickname : String) :
    NoDeal (createRoom E s socketId roomId nickname).emits := by
  unfold createRoom
  split <;> simp [broadcast_emits]

theorem joinRoom_noDeal (E : Engine) (s : Server) (socketId roomId nickname : String)
    (asSpectator : Bool) : NoDeal (joinRoom E s socketId roomId nickname asSpectator).emits := by
  unfold joinRoom
  repeat' split
  all_goals simp [broadcast_emits]

theorem switchToPlayer_noDeal (E : Engine) (s : Server) (socketId roomId : String) :
    NoDeal (switchToPlayer E s socketId roomId).emits := by
  unfold switchToPlayer
  repeat' split
  all_goals simp [broadcast_emits]

theorem switchToSpectator_noDeal (E : Engine) (s : Server) (socketId roomId : String) :
    NoDeal (switchToSpectator E s socketId roomId).emits := by
  unfold switchToSpectator
  repeat' split
  all_goals simp [broadcast_emits]

theorem playerAction_noDeal (E : Engine) (s : Server) (socketId roomId : String)
    (action betAmount : JsVal) :
    NoDeal (playerAction E s socketId roomId action betAmount).emits := by
  unfold playerAction
  repeat' split
  all_goals simp [broadcast_emits, errorTo]

theorem sendMessage_noDeal (s : Server) (socketId roomId : String) (message : JsVal) :
    NoDeal (sendMessage s socketId roomId message).emits := by
  unfold sendMessage
  split <;> simp

theorem endGame_noDeal (E : Engine) (s : Server) (socketId roomId : String) :
    NoDeal (endGame E s socketId roomId).emits := by
  unfold endGame
  repeat' split
  all_goals simp [broadcast_emits]

theorem closeRoom_noDeal (s : Server) (socketId roomId : String) :
    NoDeal (closeRoom s socketId roomId).emits := by
  unfold closeRoom
  repeat' split
  all_goals simp

theorem updateRoomSettings_noDeal (E : Engine) (s : Server) (socketId roomId : String)
    (settings : SettingsUpdate) :
    NoDeal (updateRoomSettings E s socketId roomId settings).emits := by
  unfold updateRoomSettings
  repeat' split
  all_goals simp [broadcast_emits]

theorem updateInitialChips_noDeal (E : Engine) (s : Server) (socketId roomId : String)
    (initialChips : JsVal) :
    NoDeal (updateInitialChips E s socketId roomId initialChips).emits := by
  unfold updateInitialChips
  repeat' split
  all_goals simp [broadcast_emits]

theorem findPlayer_some (heap : Heap) (id : String) (l : List Ref) (r : Ref)
    (h : findPlayer heap id l = some r) : r ∈ l ∧ (heap r).id = id := by
  induction l with
  | nil => simp [findPlayer] at h
  | cons a rest ih =>
    unfold findPlayer at h
    split at h
    · cases h
      rename_i hid
      exact ⟨by simp, hid⟩
    · exact ⟨by simp [(ih h).1], (ih h).2⟩

theorem dealPrivateCards_mem (heap : Heap) (l : List Ref) (e : Emit)
    (he : e ∈ dealPrivateCards heap l) :
    ∃ r ∈ l, e.target.name = (heap r).id ∧ e.payload = .dealPrivateCards (heap r).hand := by
  simp only [dealPrivateCards, List.mem_map] at he
  obtain ⟨r, hr, rfl⟩ := he
  exact ⟨r, hr, rfl, rfl⟩

/-- The emits of a handler that deals to a list of players of the table the engine left,
writes the table back and broadcasts. -/
theorem deal_then_broadcast (E : Engine) (s : Server) (roomId : String) (room : Room)
    (t : Table) (l : List Ref) (calls : List EngineCall)
    (hl : ∀ r ∈ l, r ∈ t.game.players ∨ r ∈ t.game.activePlayers) :
    ∀ e ∈ (Outcome.broadcast E
        { state := s.setRoom roomId (room.withTable t), emits := dealPrivateCards t.heap l,
          calls := calls } roomId).emits,
      e.event = "dealPrivateCards" →
      ∃ room', lookup roomId (Outcome.broadcast E
          { state := s.setRoom roomId (room.withTable t), emits := dealPrivateCards t.heap l,
            calls := calls } roomId).state.rooms = some room' ∧ OwnHand room' e := by
  intro e he hd
  rw [broadcast_setRoom_state]
  rw [broadcast_emits, List.mem_append] at he
  rcases he with he | he
  · obtain ⟨r, hr, h1, h2⟩ := dealPrivateCards_mem _ _ _ he
    refine ⟨_, lookup_setRoom_self _ _ _, r, ?_, ?_, ?_⟩
    · simpa [Room.withTable] using hl r hr
    · simpa [Room.withTable] using h1
    · simpa [Room.withTable] using h2
  · exact absurd hd (noDeal_broadcastGameState _ _ _ e he)

theorem startGame_deals (E : Engine) (s : Server) (socketId roomId : String) :
    ∀ e ∈ (startGame E s socketId roomId).emits, e.event = "dealPrivateCards" →
      ∃ room', lookup roomId (startGame E s socketId roomId).state.rooms = some room' ∧
        OwnHand room' e := by
  unfold startGame
  repeat' split
  all_goals first
    | (apply deal_then_broadcast; intro r hr; simp [hr])
    | (intro e he hd
       exfalso
       revert hd
       revert e
       show NoDeal _
       simp)

theorem prepareNextHand_deals (E : Engine) (s : Server) (socketId roomId : String) :
    ∀ e ∈ (prepareNextHand E s socketId roomId).emits, e.event = "dealPrivateCards" →
      ∃ room', lookup roomId (prepareNextHand E s socketId roomId).state.rooms = some room' ∧
        OwnHand room' e := by
  unfold prepareNextHand
  repeat' split
  all_goals first
    | (apply deal_then_broadcast; intro r hr; simp [hr])
    | (intro e he hd
       exfalso
       revert hd
       revert e
       show NoDeal _
       simp)

theorem reconnectFailed_noDeal (s : Server) (socketId : String) :
    NoDeal (reconnectFailed s socketId).emits := by
  simp [reconnectFailed]

theorem attemptReconnect_deals (E : Engine) (s : Server) (socketId roomId nickname : String) :
    ∀ e ∈ (attemptReconnect E s socketId roomId nickname).emits,
      e.event = "dealPrivateCards" →
      ∃ room', lookup roomId (attemptReconnect E s socketId roomId nickname).state.rooms
          = some room' ∧ OwnHand room' e := by
  intro e he hd
  cases hfind : findReconnect roomId nickname s.disconnectedPlayers with
  | none =>
    have h : attemptReconnect E s socketId roomId nickname = reconnectFailed s socketId := by
      unfold attemptReconnect; simp only [hfind]
    rw [h] at he
    exact absurd hd (reconnectFailed_noDeal s socketId e he)
  | some found =>
    obtain ⟨oldId, info⟩ := found
    cases hroom : lookup roomId s.rooms with
    | none =>
      have h : attemptReconnect E s socketId roomId nickname = reconnectFailed s socketId := by
        unfold attemptReconnect; simp only [hfind, hroom]
      rw [h] at he
      exact absurd hd (reconnectFailed_noDeal s socketId e he)
    | some room =>
      cases hplayer : lookup oldId room.players with
      | none =>
        have h : attemptReconnect E s socketId roomId nickname = reconnectFailed s socketId := by
          unfold attemptReconnect; simp only [hfind, hroom, hplayer]
        rw [h] at he
        exact absurd hd (reconnectFailed_noDeal s socketId e he)
      | some player =>
        rw [attemptReconnect_state E s socketId roomId nickname oldId info room player hfind
          hroom hplayer]
        unfold attemptReconnect at he
        simp only [hfind, hroom, hplayer] at he
        rw [broadcast_emits] at he
        simp only [List.mem_append, List.mem_cons] at he
        rcases he with (he | he) | he
        · rw [he] at hd; simp at hd
        · split at he
          · split at he
            · rename_i r hr
              simp only [List.mem_singleton] at he
              have hf := findPlayer_some _ _ _ _ hr
              refine ⟨_, lookup_setRoom_self _ _ _, r, Or.inl ?_, ?_, ?_⟩
              · simpa using hf.1
              · rw [he]; simp [Target.name, hf.2]
              · rw [he]; simp
            · simp at he
          · simp at he
        · exact absurd hd (noDeal_broadcastGameState _ _ _ e he)

theorem resetGame_deals (E : Engine) (s : Server) (socketId roomId : String) :
    ∀ e ∈ (resetGame E s socketId roomId).emits, e.event = "dealPrivateCards" →
      ∃ room, lookup roomId s.rooms = some room ∧ e.target.name ∈ keys room.players ∧
        e.payload = .dealPrivateCards [] := by
  intro e he hd
  unfold resetGame at he
  split at he
  · exact absurd hd (noDeal_reject _ _ _ e he)
  · rename_i room hroom
    split at he
    · exact absurd hd (noDeal_reject _ _ _ e he)
    · split at he
      · exact absurd hd (noDeal_reject _ _ _ e he)
      · simp only [broadcast_emits, List.mem_append, List.mem_map, List.mem_singleton] at he
        rcases he with (⟨playerId, hk, rfl⟩ | he) | he
        · exact ⟨room, hroom, hk, rfl⟩
        · exact absurd hd (noDeal_broadcastGameState _ _ _ e he)
        · rw [he] at hd; simp at hd

/-- Every `dealPrivateCards` that a handler of `index.js` emits is either one of
`resetGame`, addressed to a key of `room.players` and carrying the empty hand, or is
addressed to the id of a player of the room's game and carries the hand of that very
player, as the room stands after the handler.  Two players may carry one id, see
`hijackedServer`. -/
theorem dealPrivateCards_to_owner (E : Engine) (s : Server) (req : Request) (e : Emit)
    (he : e ∈ (handle E s req).emits) (hd : e.event = "dealPrivateCards") :
    (∃ socketId roomId room, req = .resetGame socketId roomId ∧
      lookup roomId s.rooms = some room ∧ e.target.name ∈ keys room.players ∧
      e.payload = .dealPrivateCards []) ∨
    (∃ roomId room' r, lookup roomId (handle E s req).state.rooms = some room' ∧
      (r ∈ room'.game.players ∨ r ∈ room'.game.activePlayers) ∧
      e.target.name = (room'.heap r).id ∧
      e.payload = .dealPrivateCards (room'.heap r).hand) := by
  cases req with
  | attemptReconnect socketId roomId nickname =>
    obtain ⟨room', h1, r, h2⟩ := attemptReconnect_deals E s socketId roomId nickname e he hd
    exact Or.inr ⟨roomId, room', r, h1, h2⟩
  | createRoom socketId roomId nickname =>
    exact absurd hd (createRoom_noDeal E s socketId roomId nickname e he)
  | joinRoom socketId roomId nickname asSpectator =>
    exact absurd hd (joinRoom_noDeal E s socketId roomId nickname asSpectator e he)
  | startGame socketId roomId =>
    obtain ⟨room', h1, r, h2⟩ := startGame_deals E s socketId roomId e he hd
    exact Or.inr ⟨roomId, room', r, h1, h2⟩
  | switchToPlayer socketId roomId =>
    exact absurd hd (switchToPlayer_noDeal E s socketId roomId e he)
  | switchToSpectator socketId roomId =>
    exact absurd hd (switchToSpectator_noDeal E s socketId roomId e he)
  | playerAction socketId roomId action betAmount =>
    exact absurd hd (playerAction_noDeal E s socketId roomId action betAmount e he)
  | prepareNextHand socketId roomId =>
    obtain ⟨room', h1, r, h2⟩ := prepareNextHand_deals E s socketId roomId e he hd
    exact Or.inr ⟨roomId, room', r, h1, h2⟩
  | sendMessage socketId roomId message =>
    exact absurd hd (sendMessage_noDeal s socketId roomId message e he)
  | leaveRoom socketId roomId =>
    exact absurd hd (leaveRoom_noDeal E s socketId roomId e he)
  | resetGame socketId roomId =>
    obtain ⟨room, h1, h2, h3⟩ := resetGame_deals E s socketId roomId e he hd
    exact Or.inl ⟨socketId, roomId, room, rfl, h1, h2, h3⟩
  | endGame socketId roomId =>
    exact absurd hd (endGame_noDeal E s socketId roomId e he)
  | closeRoom socketId roomId =>
    exact absurd hd (closeRoom_noDeal s socketId roomId e he)
  | disconnect socketId now =>
    exact absurd hd (disconnectLoop_noDeal _ _ _ _ e he)
  | removalTimeout timer =>
    exact absurd hd (disconnectTimeout_noDeal E s timer e he)
  | updateRoomSettings socketId roomId settings =>
    exact absurd hd (updateRoomSettings_noDeal E s socketId roomId settings e he)
  | updateInitialChips socketId roomId initialChips =>
    exact absurd hd (updateInitialChips_noDeal E s socketId roomId initialChips e he)
  | cleanup now =>
    simp [handle, cleanupDisconnectedPlayers] at he

/-- At a concrete input: the creator starts the waiting sample room; the cards sent to
Bob's socket are Bob's. -/
theorem dealPrivateCards_to_owner_witness :
    ∃ roomId room' r,
      lookup roomId (handle specEngine readyServer (.startGame "sock-a" "r1")).state.rooms
        = some room' ∧
      (r ∈ room'.game.players ∨ r ∈ room'.game.activePlayers) ∧
      "sock-b" = (room'.heap r).id ∧
      Payload.dealPrivateCards [⟨.hearts, 5⟩, ⟨.spades, 11⟩]
        = .dealPrivateCards (room'.heap r).hand :=
  (dealPrivateCards_to_owner specEngine readyServer (.startGame "sock-a" "r1")
    { target := .to "sock-b", event := "dealPrivateCards",
      payload := .dealPrivateCards [⟨.hearts, 5⟩, ⟨.spades, 11⟩] }
    (by decide) (by decide)).resolve_left (by
      rintro ⟨_, _, _, h, _⟩
      cases h)

/-! ## `broadcastGameState`: the public snapshot -/

/-- The engine after the spec lists no hand in its snapshot. -/
theorem specEngine_snapshotHidesHands : specEngine.SnapshotHidesHands := by
  intro t p hp
  simp only [specEngine, Spec.getGameState, List.mem_map] at hp
  obtain ⟨r, _, rfl⟩ := hp
  rfl

/-- C13: `broadcastGameState` emits one `gameStateUpdate` whose player entries are those of
`Game._getGameState()`, passed on as they are, and `index.js` adds creator, settings,
spectators and leaderboard only; with an engine whose snapshot lists no hand, as the spec
says of it, the emitted snapshot contains no hole cards, whatever the state. -/
theorem broadcastGameState_hides_hands (E : Engine) (hE : E.SnapshotHidesHands) (s : Server)
    (roomId : String) :
    (∀ e ∈ (broadcastGameState E s roomId).2, e.holeCards = []) ∧
    (∀ room, lookup roomId s.rooms = some room →
      (broadcastGameState E s roomId).2
        = [{ target := .to roomId, event := "gameStateUpdate",
             payload := .gameStateUpdate (publicGameState E roomId room) }] ∧
      (publicGameState E roomId room).players = (E.getGameState room.table).players) := by
  constructor
  · intro e he
    unfold broadcastGameState at he
    split at he
    · simp at he
    · rename_i room hroom
      simp only [List.mem_singleton] at he
      subst he
      simp only [Emit.holeCards, PublicGameState.holeCards, publicGameState]
      rw [List.filterMap_eq_nil_iff]
      intro p hp
      exact hE room.table p hp
  · intro room hroom
    have h : broadcastGameState E s roomId
        = (s.setRoom roomId room.ensureSettings,
           [{ target := .to roomId, event := "gameStateUpdate",
              payload := .gameStateUpdate (publicGameState E roomId room) }]) := by
      unfold broadcastGameState; simp only [hroom]
    rw [h]
    exact ⟨rfl, rfl⟩

/-- C13 at a concrete input: the broadcast of the sample room during `PREFLOP`, when both
players hold two cards. -/
theorem broadcastGameState_hides_hands_witness :
    (publicGameState specEngine "r1" (sampleRoom .PREFLOP)).holeCards = [] ∧
    ((sampleRoom .PREFLOP).heap 1).hand = [⟨.spades, 9⟩, ⟨.spades, 2⟩] :=
  ⟨(broadcastGameState_hides_hands specEngine specEngine_snapshotHidesHands
      (sampleServer .PREFLOP) "r1").1
      { target := .to "r1", event := "gameStateUpdate",
        payload := .gameStateUpdate (publicGameState specEngine "r1" (sampleRoom .PREFLOP)) }
      (by decide),
   by decide⟩

/-- C14: a second `broadcastGameState` for the same room right after a first one emits
the same snapshot and leaves the state as the first one left it; this covers the room
whose settings were missing, which the first call defaults. -/
theorem broadcastGameState_twice (E : Engine) (s : Server) (roomId : String) :
    (broadcastGameState E (broadcastGameState E s roomId).1 roomId).2
      = (broadcastGameState E s roomId).2 ∧
    (broadcastGameState E (broadcastGameState E s roomId).1 roomId).1
      = (broadcastGameState E s roomId).1 := by
  cases hroom : lookup roomId s.rooms with
  | none =>
    have h : broadcastGameState E s roomId = (s, []) := by
      unfold broadcastGameState; simp only [hroom]
    rw [h]
    show (broadcastGameState E s roomId).2 = [] ∧ (broadcastGameState E s roomId).1 = s
    rw [h]
    exact ⟨rfl, rfl⟩
  | some room =>
    have h : broadcastGameState E s roomId
        = (s.setRoom roomId room.ensureSettings,
           [{ target := .to roomId, event := "gameStateUpdate",
              payload := .gameStateUpdate (publicGameState E roomId room) }]) := by
      unfold broadcastGameState; simp only [hroom]
    have hs : room.ensureSettings.ensureSettings = room.ensureSettings := by
      unfold Room.ensureSettings
      cases hst : room.settings <;> simp [hst]
    have hp : publicGameState E roomId room.ensureSettings = publicGameState E roomId room := by
      unfold publicGameState
      have : room.ensureSettings.settingsOrDefault = room.settingsOrDefault := by
        unfold Room.ensureSettings Room.settingsOrDefault
        cases hst : room.settings <;> simp [hst]
      simp [Room.table, this]
    have h2 : broadcastGameState E (s.setRoom roomId room.ensureSettings) roomId
        = ((s.setRoom roomId room.ensureSettings).setRoom roomId
              room.ensureSettings.ensureSettings,
           [{ target := .to roomId, event := "gameStateUpdate",
              payload := .gameStateUpdate (publicGameState E roomId room.ensureSettings) }]) := by
      unfold broadcastGameState
      simp only [lookup_setRoom_self]
    rw [h]
    show (broadcastGameState E (s.setRoom roomId room.ensureSettings) roomId).2 = _ ∧
      (broadcastGameState E (s.setRoom roomId room.ensureSettings) roomId).1 = _
    rw [h2, hs, hp]
    refine ⟨rfl, ?_⟩
    simp [Server.setRoom, insert_insert]

/-- C14 at a concrete input: the sample room with its settings missing; both calls emit
the snapshot with the default settings. -/
theorem broadcastGameState_twice_witness :
    (broadcastGameState specEngine (broadcastGameState specEngine bareServer "r1").1 "r1").2
      = (broadcastGameState specEngine bareServer "r1").2 ∧
    (broadcastGameState specEngine bareServer "r1").2.map
        (fun e => match e.payload with
          | .gameStateUpdate g => some g.settings
          | _ => none)
      = [some defaultSettings] :=
  ⟨(broadcastGameState_twice specEngine bareServer "r1").1, by decide⟩

/-! ## The `handResult` payload -/

theorem handResultOut_playersHands (E : Engine) (room : Room) (result : ActionResult)
    (l : List PlayerHand) (hl : result.playersHands = some l) :
    (handResultOut E room result).playersHands
      = (l.map (playerHandOut room)).filter
          (fun ph => decide (ph.playerId ∈ result.winners.map (fun w => w.playerId))) ++
        (if room.showsAllHands then
          (l.map (playerHandOut room)).filter
            (fun ph => decide (ph.playerId ∉ result.winners.map (fun w => w.playerId)))
         else []) := by
  simp only [handResultOut, hl, Room.showsAllHands]
  rfl

/-- C15: when `Game.playerAction` returns a hand result, the handler emits `handResult` to
the room, and in its payload `playersHands` contains the entry (with its nickname filled
in) of every entry of the result's `playersHands` whose `playerId` is a winner's,
whatever the setting; it contains the entry of a non-winner if and only if
`room.settings.showAllHands` (true when the settings are missing) is not `false`; the
flag `showAllHands` of the payload says which; and `handComparison` is `null` when
`showAllHands` is `false`. -/
theorem handResult_shows_hands (E : Engine) (s : Server) (socketId roomId : String)
    (action betAmount : JsVal) (room : Room) (t : Table) (result : ActionResult)
    (hroom : lookup roomId s.rooms = some room)
    (hseat : (lookup socketId room.players).isSome = true)
    (hphase : ¬ (room.game.gameState = .WAITING ∨ room.game.gameState = .SHOWDOWN_COMPLETE))
    (hreturn : E.playerAction room.table socketId action betAmount = .returned t (some result))
    (hresult : result.handResult = true) :
    ({ target := .to roomId, event := "handResult",
       payload := .handResult (handResultOut E (room.withTable t).ensureSettings result) } : Emit)
      ∈ (playerAction E s socketId roomId action betAmount).emits ∧
    (room.withTable t).ensureSettings.showsAllHands = room.showsAllHands ∧
    (handResultOut E (room.withTable t).ensureSettings result).showAllHands
      = room.showsAllHands ∧
    (∀ l, result.playersHands = some l → ∀ ph ∈ l,
      (ph.playerId ∈ result.winners.map (fun w => w.playerId) →
        playerHandOut (room.withTable t).ensureSettings ph
          ∈ (handResultOut E (room.withTable t).ensureSettings result).playersHands) ∧
      (ph.playerId ∉ result.winners.map (fun w => w.playerId) →
        (playerHandOut (room.withTable t).ensureSettings ph
            ∈ (handResultOut E (room.withTable t).ensureSettings result).playersHands
          ↔ room.settingsOrDefault.showAllHands ≠ .bool false))) ∧
    (room.settingsOrDefault.showAllHands = .bool false →
      (handResultOut E (room.withTable t).ensureSettings result).handComparison = .null) := by
  have hseat' : ¬ (lookup socketId room.players).isNone = true := by
    cases h : lookup socketId room.players <;> simp [h] at hseat ⊢
  have hset : (room.withTable t).ensureSettings.settingsOrDefault = room.settingsOrDefault := by
    unfold Room.ensureSettings Room.settingsOrDefault Room.withTable
    cases hst : room.settings <;> simp [hst]
  have hshow : (room.withTable t).ensureSettings.showsAllHands = room.showsAllHands := by
    simp only [Room.showsAllHands, hset]
  refine ⟨?_, hshow, ?_, ?_, ?_⟩
  · unfold playerAction
    simp only [hroom, if_neg hseat', if_neg hphase, hreturn, hresult, if_true]
    rw [broadcast_emits]
    simp
  · simp only [handResultOut, hset, Room.showsAllHands]
  · intro l hl ph hph
    rw [handResultOut_playersHands E _ result l hl, hshow]
    constructor
    · intro hw
      apply List.mem_append_left
      simp only [List.mem_filter, List.mem_map, decide_eq_true_eq]
      exact ⟨⟨ph, hph, rfl⟩, by simpa [playerHandOut] using hw⟩
    · intro hw
      have hnot : playerHandOut (room.withTable t).ensureSettings ph ∉
          (l.map (playerHandOut (room.withTable t).ensureSettings)).filter
            (fun ph => decide (ph.playerId ∈ result.winners.map (fun w => w.playerId))) := by
        simp only [List.mem_filter, decide_eq_true_eq, not_and]
        intro _
        simpa [playerHandOut] using hw
      constructor
      · intro hmem
        rcases List.mem_append.1 hmem with h | h
        · exact absurd h hnot
        · by_cases hs : room.showsAllHands = true
          · simpa [Room.showsAllHands] using hs
          · simp [hs] at h
      · intro hs
        have hs' : room.showsAllHands = true := by simpa [Room.showsAllHands] using hs
        apply List.mem_append_right
        simp only [hs', if_true, List.mem_filter, List.mem_map, decide_eq_true_eq]
        exact ⟨⟨ph, hph, rfl⟩, by simpa [playerHandOut] using hw⟩
  · intro hfalse
    simp [handResultOut, hset, hfalse]

/-- C15 at a concrete input: a showdown in the room where `showAllHands` is off; Ann wins
and Bob's hand stays hidden. -/
theorem handResult_shows_hands_witness :
    (handResultOut showdownEngine
        (discreetRoom.withTable
          { discreetRoom.table with
            game := { discreetRoom.game with gameState := .SHOWDOWN_COMPLETE } }).ensureSettings
        sampleResult).playersHands
      = [{ playerId := "sock-a", nickname := "Ann", hand := [⟨.hearts, 14⟩, ⟨.clubs, 7⟩],
           handDescription := "pair" }] ∧
    (handResultOut showdownEngine
        (discreetRoom.withTable
          { discreetRoom.table with
            game := { discreetRoom.game with gameState := .SHOWDOWN_COMPLETE } }).ensureSettings
        sampleResult).handComparison = .null :=
  have h := handResult_shows_hands showdownEngine discreetServer "sock-a" "r1" (.str "check")
    .undefined discreetRoom
    { discreetRoom.table with
      game := { discreetRoom.game with gameState := .SHOWDOWN_COMPLETE } }
    sampleResult (by rfl) (by decide) (by decide) (by rfl) (by rfl)
  ⟨by decide, h.2.2.2.2 (by decide)⟩

/-! ## Requests reserved to the creator -/

/-- C16: for a room that exists and a sender who is not its creator, each of `startGame`,
`prepareNextHand`, `resetGame`, `endGame`, `closeRoom`, `updateRoomSettings` and
`updateInitialChips` emits one error to the sender, calls no engine method and leaves the
whole state, the rooms map with the room and its `Game`, unchanged. -/
theorem creator_only (E : Engine) (s : Server) (socketId roomId : String) (room : Room)
    (hroom : lookup roomId s.rooms = some room) (hother : room.creator ≠ socketId) :
    ((startGame E s socketId roomId).state = s ∧ (startGame E s socketId roomId).calls = [] ∧
      ∃ message, (startGame E s socketId roomId).emits = [errorTo socketId message]) ∧
    ((prepareNextHand E s socketId roomId).state = s ∧
      (prepareNextHand E s socketId roomId).calls = [] ∧
      ∃ message, (prepareNextHand E s socketId roomId).emits = [errorTo socketId message]) ∧
    ((resetGame E s socketId roomId).state = s ∧ (resetGame E s socketId roomId).calls = [] ∧
      ∃ message, (resetGame E s socketId roomId).emits = [errorTo socketId message]) ∧
    ((endGame E s socketId roomId).state = s ∧ (endGame E s socketId roomId).calls = [] ∧
      ∃ message, (endGame E s socketId roomId).emits = [errorTo socketId message]) ∧
    ((closeRoom s socketId roomId).state = s ∧ (closeRoom s socketId roomId).calls = [] ∧
      (closeRoom s socketId roomId).socketOps = [] ∧
      ∃ message, (closeRoom s socketId roomId).emits = [errorTo socketId message]) ∧
    (∀ settings,
      (updateRoomSettings E s socketId roomId settings).state = s ∧
      (updateRoomSettings E s socketId roomId settings).calls = [] ∧
      ∃ message,
        (updateRoomSettings E s socketId roomId settings).emits = [errorTo socketId message]) ∧
    (∀ initialChips,
      (updateInitialChips E s socketId roomId initialChips).state = s ∧
      (updateInitialChips E s socketId roomId initialChips).calls = [] ∧
      ∃ message,
        (updateInitialChips E s socketId roomId initialChips).emits
          = [errorTo socketId message]) := by
  refine ⟨?_, ?_, ?_, ?_, ?_, ?_, ?_⟩
  · unfold startGame
    simp only [hroom, if_pos hother]
    exact ⟨rfl, rfl, _, rfl⟩
  · unfold prepareNextHand
    simp only [hroom, if_pos hother]
    exact ⟨rfl, rfl, _, rfl⟩
  · unfold resetGame
    simp only [hroom, if_pos hother]
    exact ⟨rfl, rfl, _, rfl⟩
  · unfold endGame
    simp only [hroom, if_pos hother]
    exact ⟨rfl, rfl, _, rfl⟩
  · unfold closeRoom
    simp only [hroom, if_pos hother]
    exact ⟨rfl, rfl, rfl, _, rfl⟩
  · intro settings
    unfold updateRoomSettings
    simp only [hroom, if_pos hother]
    exact ⟨rfl, rfl, _, rfl⟩
  · intro initialChips
    unfold updateInitialChips
    simp only [hroom, if_pos hother]
    exact ⟨rfl, rfl, _, rfl⟩

/-- C16 at a concrete input: Bob, who is not the creator of the sample room, sends the
seven requests. -/
theorem creator_only_witness :
    (endGame specEngine (sampleServer .PREFLOP) "sock-b" "r1").state = sampleServer .PREFLOP ∧
    (closeRoom (sampleServer .PREFLOP) "sock-b" "r1").state = sampleServer .PREFLOP ∧
    (updateInitialChips specEngine (sampleServer .PREFLOP) "sock-b" "r1" (.num 5000)).state
      = sampleServer .PREFLOP :=
  have h := creator_only specEngine (sampleServer .PREFLOP) "sock-b" "r1" (sampleRoom .PREFLOP)
    (by rfl) (by decide)
  ⟨h.2.2.2.1.1, h.2.2.2.2.1.1, (h.2.2.2.2.2.2 (.num 5000)).1⟩

/-! ## `updateInitialChips`: the accepted range -/

/-- C17: for the creator of the room, `updateInitialChips` is rejected, with one error to
the sender and no change of any chips or setting, when `parseInt(initialChips)` is `NaN`
or an integer below 500 or above 50000, and accepted otherwise, that is exactly when it
is an integer `n` with `500 ≤ n ≤ 50000`: then no error is emitted,
`room.settings.initialChips` is `n` and every player of `room.players` and of
`game.players` has `n` chips.  The client's `handleChipsChange` sends only values that
the server accepts. -/
theorem updateInitialChips_range (E : Engine) (s : Server) (socketId roomId : String)
    (room : Room) (initialChips : JsVal)
    (hroom : lookup roomId s.rooms = some room) (hcreator : room.creator = socketId) :
    ((parseInt initialChips = none ∨
        ∃ chips, parseInt initialChips = some chips ∧ (chips < 500 ∨ chips > 50000)) →
      (updateInitialChips E s socketId roomId initialChips).state = s ∧
      (updateInitialChips E s socketId roomId initialChips).emits
        = [errorTo socketId "筹码数量必须在500到50000之间"]) ∧
    (∀ chips, parseInt initialChips = some chips → 500 ≤ chips → chips ≤ 50000 →
      (∀ e ∈ (updateInitialChips E s socketId roomId initialChips).emits,
        ¬ e.event = "error") ∧
      ∃ room' settings,
        lookup roomId (updateInitialChips E s socketId roomId initialChips).state.rooms
          = some room' ∧
        room'.settings = some settings ∧ settings.initialChips = some chips ∧
        room'.players = room.players ∧ room'.game = room.game ∧
        (∀ e ∈ room.players, (room'.heap e.2).chips = chips) ∧
        (∀ r ∈ room.game.players, (room'.heap r).chips = chips)) ∧
    (∀ sent, handleChipsChange initialChips = some sent →
      ∃ chips, sent = .num chips ∧ parseInt sent = some chips ∧ 500 ≤ chips ∧ chips ≤ 50000) := by
  have hc : ¬ room.creator ≠ socketId := not_not.mpr hcreator
  refine ⟨?_, ?_, ?_⟩
  · intro h
    unfold updateInitialChips
    simp only [hroom, if_neg hc]
    rcases h with h | ⟨chips, hp, h⟩
    · simp only [h]
      exact ⟨rfl, rfl⟩
    · simp only [hp, if_pos h]
      exact ⟨rfl, rfl⟩
  · intro chips hparse hlo hhi
    constructor
    · have hr : ¬ (chips < 500 ∨ chips > 50000) := by omega
      unfold updateInitialChips
      simp only [hroom, if_neg hc, hparse, if_neg hr]
      intro e he
      rw [broadcast_emits, List.mem_append] at he
      rcases he with he | he
      · simp only [List.mem_singleton] at he
        rw [he]
        simp
      · rw [broadcastGameState_events _ _ _ e he]
        decide
    · rw [updateInitialChips_state E s socketId roomId initialChips room chips hroom hcreator
        hparse hlo hhi]
      have key : ∀ (st : Settings) (h : Heap),
          ({ room with settings := some st, heap := h } : Room).ensureSettings
            = { room with settings := some st, heap := h } := fun _ _ => rfl
      rw [key]
      refine ⟨_, _, lookup_setRoom_self _ _ _, rfl, rfl, rfl, rfl, ?_, ?_⟩
      · intro e he
        show (forEachPlayer (setChips chips) (forEachPlayer (setChips chips) room.heap
          (room.players.map (fun e => e.2))) room.game.players e.2).chips = chips
        rw [forEachPlayer_apply (setChips chips) (fun p => rfl),
          forEachPlayer_apply (setChips chips) (fun p => rfl)]
        have : e.2 ∈ room.players.map (fun e => e.2) := List.mem_map.2 ⟨e, he, rfl⟩
        by_cases hg : e.2 ∈ room.game.players <;> simp [hg, this, setChips]
      · intro r hr
        show (forEachPlayer (setChips chips) (forEachPlayer (setChips chips) room.heap
          (room.players.map (fun e => e.2))) room.game.players r).chips = chips
        rw [forEachPlayer_apply (setChips chips) (fun p => rfl)]
        simp [hr, setChips]
  · intro sent hsent
    unfold handleChipsChange at hsent
    cases hp : parseInt initialChips with
    | none => simp [hp] at hsent
    | some chips =>
      simp only [hp] at hsent
      split at hsent
      · cases hsent
      · rename_i hr
        cases hsent
        have hlo : 500 ≤ chips := by omega
        have hhi : chips ≤ 50000 := by omega
        refine ⟨chips, rfl, ?_, hlo, hhi⟩
        have hsmall : chips.natAbs < 10 ^ 21 := by omega
        simp only [parseInt, if_pos hsmall]

/-- C17 at concrete inputs: the creator of the waiting sample room sends `"499"`, then
`" 2500 chips"`, which `parseInt` reads as 2500. -/
theorem updateInitialChips_range_witness :
    (updateInitialChips specEngine (sampleServer .WAITING) "sock-a" "r1" (.str "499")).state
      = sampleServer .WAITING ∧
    ∃ room' settings,
      lookup "r1" (updateInitialChips specEngine (sampleServer .WAITING) "sock-a" "r1"
        (.str " 2500 chips")).state.rooms = some room' ∧
      room'.settings = some settings ∧ settings.initialChips = some 2500 ∧
      (∀ r ∈ (sampleRoom .WAITING).game.players, (room'.heap r).chips = 2500) :=
  have h := updateInitialChips_range specEngine (sampleServer .WAITING) "sock-a" "r1"
    (sampleRoom .WAITING) (.str "499") (by rfl) (by decide)
  have h' := updateInitialChips_range specEngine (sampleServer .WAITING) "sock-a" "r1"
    (sampleRoom .WAITING) (.str " 2500 chips") (by rfl) (by decide)
  have ⟨room', settings, h1, h2, h3, _, _, _, h7⟩ :=
    (h'.2.1 2500 (by decide) (by decide) (by decide)).2
  ⟨(h.1 (Or.inr ⟨499, by decide, by decide⟩)).1, room', settings, h1, h2, h3, h7⟩

/-! ## `resetGame`: the table after a reset -/

/-- C18: after a `resetGame` sent by the creator of a room with at least 2 entries in
`room.players`, the game is in `WAITING` with `mainPot = 0`, empty `sidePots`,
`communityCards` and `activePlayers`, `currentBet = 0`, `lastRaiser = null`,
`roundComplete = false`, `currentPlayerTurn = -1`, and `room.leaderboard = null`; every
player of the game has an empty hand, status in-game, no bets, `hasActed = false` and
`room.settings?.initialChips || 1000` chips, which is `room.settings.initialChips` when
that is set (and not 0) and 1000 when it is unset; the list of players of the game and
their ids and nicknames are unchanged. -/
theorem resetGame_resets (E : Engine) (s : Server) (socketId roomId : String) (room : Room)
    (hroom : lookup roomId s.rooms = some room) (hcreator : room.creator = socketId)
    (hplayers : 2 ≤ (keys room.players).length) :
    (∃ room', lookup roomId (resetGame E s socketId roomId).state.rooms = some room' ∧
      room'.game.gameState = .WAITING ∧ room'.game.mainPot = 0 ∧ room'.game.sidePots = [] ∧
      room'.game.communityCards = [] ∧ room'.game.activePlayers = [] ∧
      room'.game.currentBet = 0 ∧ room'.game.lastRaiser = none ∧
      room'.game.roundComplete = false ∧ room'.game.currentPlayerTurn = none ∧
      room'.leaderboard = none ∧
      room'.game.players = room.game.players ∧ room'.players = room.players ∧
      ∀ r ∈ room.game.players,
        room'.heap r
          = { id := (room.heap r).id, nickname := (room.heap r).nickname,
              chips := room.initialChips, hand := [], status := .inGame, currentBet := 0,
              totalBetThisHand := 0, hasActed := false }) ∧
    (∀ settings chips, room.settings = some settings → settings.initialChips = some chips →
      chips ≠ 0 → room.initialChips = chips) ∧
    (room.settings = none → room.initialChips = 1000) ∧
    (∀ settings, room.settings = some settings → settings.initialChips = none →
      room.initialChips = 1000) := by
  refine ⟨?_, ?_, ?_, ?_⟩
  · rw [resetGame_state E s socketId roomId room hroom hcreator hplayers]
    refine ⟨_, lookup_setRoom_self _ _ _, by simp, by simp, by simp, by simp, by simp, by simp,
      by simp, by simp, by simp, by simp, by simp, by simp, ?_⟩
    intro r hr
    simp only [ensureSettings_heap]
    rw [forEachPlayer_apply (resetPlayer room.initialChips) (fun p => rfl)]
    simp [hr, resetPlayer]
  · intro settings chips hs hc hne
    simp [Room.initialChips, hs, hc, hne]
  · intro hs
    simp [Room.initialChips, hs]
  · intro settings hs hc
    simp [Room.initialChips, hs, hc]

/-- C18 at a concrete input: the creator resets the sample room during `RIVER`. -/
theorem resetGame_resets_witness :
    ∃ room', lookup "r1" (resetGame specEngine (sampleServer .RIVER) "sock-a" "r1").state.rooms
        = some room' ∧
      room'.game.gameState = .WAITING ∧ room'.game.mainPot = 0 ∧
      room'.heap 1
        = { id := "sock-b", nickname := "Bob", chips := 1000, hand := [], status := .inGame,
            currentBet := 0, totalBetThisHand := 0, hasActed := false } :=
  have ⟨room', h1, h2, h3, _, _, _, _, _, _, _, _, _, _, h14⟩ :=
    (resetGame_resets specEngine (sampleServer .RIVER) "sock-a" "r1" (sampleRoom .RIVER)
      (by rfl) (by decide) (by decide)).1
  ⟨room', h1, h2, h3, h14 1 (by decide)⟩

/-! ## The leaderboard is ordered by chips -/

theorem insertByChips_perm (e : LeaderEntry) (l : List LeaderEntry) :
    (insertByChips e l).Perm (e :: l) := by
  induction l with
  | nil => exact List.Perm.refl _
  | cons x rest ih =>
    unfold insertByChips
    split
    · exact List.Perm.refl _
    · exact (List.Perm.cons x ih).trans (List.Perm.swap e x rest)

theorem sortByChips_perm (l : List LeaderEntry) : (sortByChips l).Perm l := by
  induction l with
  | nil => exact List.Perm.refl _
  | cons e rest ih =>
    rw [sortByChips]
    exact (insertByChips_perm e _).trans (List.Perm.cons e ih)

theorem insertByChips_descending (e : LeaderEntry) (l : List LeaderEntry)
    (h : ChipsDescending l) : ChipsDescending (insertByChips e l) := by
  induction l with
  | nil => simp [insertByChips, ChipsDescending]
  | cons x rest ih =>
    unfold ChipsDescending at h ih ⊢
    rw [List.pairwise_cons] at h
    unfold insertByChips
    split
    · rename_i hex
      rw [List.pairwise_cons]
      refine ⟨?_, List.pairwise_cons.2 h⟩
      intro y hy
      rcases List.mem_cons.1 hy with hy | hy
      · rw [hy]; exact hex
      · have := h.1 y hy
        omega
    · rename_i hex
      rw [List.pairwise_cons]
      refine ⟨?_, ih h.2⟩
      intro y hy
      rcases List.mem_cons.1 ((insertByChips_perm e rest).subset hy) with hy | hy
      · rw [hy]; omega
      · exact h.1 y hy

theorem sortByChips_descending (l : List LeaderEntry) : ChipsDescending (sortByChips l) := by
  induction l with
  | nil => simp [sortByChips, ChipsDescending]
  | cons e rest ih =>
    rw [sortByChips]
    exact insertByChips_descending e _ ih

theorem leaderboardRows_players (index : Nat) (l : List LeaderEntry) :
    (leaderboardRows index l).map (fun row => row.player) = l := by
  induction l generalizing index with
  | nil => rfl
  | cons p rest ih => simp [leaderboardRows, ih]

theorem leaderboardRows_champion (index : Nat) (l : List LeaderEntry) :
    ∀ (i : Nat) (row : LeaderboardRow), (leaderboardRows index l)[i]? = some row →
      (row.champion = true ↔ index + i = 0) ∧ row.rank = index + i + 1 := by
  induction l generalizing index with
  | nil => intro i row h; simp [leaderboardRows] at h
  | cons p rest ih =>
    intro i row h
    cases i with
    | zero =>
      simp [leaderboardRows] at h
      subst h
      simp
    | succ j =>
      simp [leaderboardRows] at h
      have := ih (index + 1) j row h
      constructor
      · rw [this.1]; omega
      · rw [this.2]; omega

/-- C19: the list that `endGame` stores as leaderboard is a permutation of the entries
`{id, nickname, chips}` of the game's players, one per player with the chips unchanged,
in non-increasing order of chips, and the game's own list of players is not reordered;
`sortedPlayers` of the component `Leaderboard` is a permutation of the array `players` in
non-increasing order of chips, and `players` itself is left as it was; the rows are the
sorted players in order, the row of index 0 and no other is marked champion, and its
chips are greater than or equal to those of every row. -/
theorem leaderboard_ordered (E : Engine) (s : Server) (socketId roomId : String)
    (room : Room) (players : List LeaderEntry)
    (hroom : lookup roomId s.rooms = some room) (hcreator : room.creator = socketId)
    (hstarted : room.game.gameState ≠ .WAITING) (hrunning : room.game.gameState ≠ .GAME_OVER) :
    (∃ room' board, lookup roomId (endGame E s socketId roomId).state.rooms = some room' ∧
      room'.leaderboard = some board ∧
      board.Perm (room.game.players.map (fun r => leaderEntry (room.heap r))) ∧
      ChipsDescending board ∧
      room'.game.players = room.game.players ∧ room'.heap = room.heap) ∧
    (Leaderboard players).players = players ∧
    (Leaderboard players).sortedPlayers.Perm players ∧
    ChipsDescending (Leaderboard players).sortedPlayers ∧
    (Leaderboard players).rows.map (fun row => row.player)
      = (Leaderboard players).sortedPlayers ∧
    (∀ i row, (Leaderboard players).rows[i]? = some row →
      (row.champion = true ↔ i = 0) ∧ row.rank = i + 1) ∧
    (∀ first rest, (Leaderboard players).rows = first :: rest →
      first.champion = true ∧
      ∀ row ∈ (Leaderboard players).rows, first.player.chips ≥ row.player.chips) := by
  refine ⟨?_, rfl, sortByChips_perm players, sortByChips_descending players,
    leaderboardRows_players 0 _, ?_, ?_⟩
  · rw [endGame_state E s socketId roomId room hroom hcreator (by simp [hstarted, hrunning])]
    refine ⟨_, leaderboardOf room.heap room.game.players, lookup_setRoom_self _ _ _, by simp,
      ?_, ?_, by simp, by simp⟩
    · exact sortByChips_perm _
    · exact sortByChips_descending _
  · intro i row h
    have := leaderboardRows_champion 0 _ i row h
    simpa using this
  · intro first rest hrows
    have hplayers := leaderboardRows_players 0 (Leaderboard players).sortedPlayers
    have hdesc : ChipsDescending (Leaderboard players).sortedPlayers :=
      sortByChips_descending players
    have hrows' : leaderboardRows 0 (Leaderboard players).sortedPlayers = first :: rest := hrows
    constructor
    · have := (leaderboardRows_champion 0 _ 0 first (by rw [hrows']; simp)).1
      simpa using this
    · intro row hrow
      rw [hrows'] at hplayers
      rw [← hplayers] at hdesc
      simp only [List.map_cons, ChipsDescending, List.pairwise_cons] at hdesc
      have hrow' : row ∈ first :: rest := by
        have : (Leaderboard players).rows = first :: rest := hrows
        rw [this] at hrow
        exact hrow
      rcases List.mem_cons.1 hrow' with h | h
      · subst h; exact le_refl _
      · exact hdesc.1 row.player (List.mem_map.2 ⟨row, h, rfl⟩)

/-- C19 at concrete inputs: the creator ends the sample room during `PREFLOP`, and the
client renders the leaderboard of Bob with 980 and Ann with 990 chips. -/
theorem leaderboard_ordered_witness :
    (∃ room' board,
      lookup "r1" (endGame specEngine (sampleServer .PREFLOP) "sock-a" "r1").state.rooms
        = some room' ∧
      room'.leaderboard = some board ∧ ChipsDescending board) ∧
    (Leaderboard
      [{ id := "sock-b", nickname := "Bob", chips := 980 },
       { id := "sock-a", nickname := "Ann", chips := 990 }]).rows
      = [{ rank := 1, champion := true,
           player := { id := "sock-a", nickname := "Ann", chips := 990 } },
         { rank := 2, champion := false,
           player := { id := "sock-b", nickname := "Bob", chips := 980 } }] :=
  have ⟨room', board, h1, h2, _, h4, _⟩ :=
    (leaderboard_ordered specEngine (sampleServer .PREFLOP) "sock-a" "r1" (sampleRoom .PREFLOP)
      [] (by rfl) (by decide) (by decide) (by decide)).1
  ⟨⟨room', board, h1, h2, h4⟩, by decide⟩

/-! ## The document title -/

theorem useDocumentTitle_inRound (g : TitleInput) (currentPlayerId : JsVal)
    (h : g.inRound) :
    useDocumentTitle (some g) currentPlayerId
      = if g.currentPlayerTurn = currentPlayerId then YOUR_TURN_TITLE else WAITING_TITLE := by
  have hidle : ¬ (g.gameState = .str "WAITING" ∨ g.gameState = .str "SHOWDOWN" ∨
      g.gameState = .str "SHOWDOWN_COMPLETE") := by
    unfold TitleInput.inRound at h
    rcases h with h | h | h | h <;> rw [h] <;> decide
  have h' : g.gameState = .str "PREFLOP" ∨ g.gameState = .str "FLOP" ∨
      g.gameState = .str "TURN" ∨ g.gameState = .str "RIVER" := h
  unfold useDocumentTitle
  simp only [if_neg hidle]
  rw [if_pos h']

theorem useDocumentTitle_idle (g : TitleInput) (currentPlayerId : JsVal)
    (h : ¬ g.inRound) : useDocumentTitle (some g) currentPlayerId = DEFAULT_TITLE := by
  have h' : ¬ (g.gameState = .str "PREFLOP" ∨ g.gameState = .str "FLOP" ∨
      g.gameState = .str "TURN" ∨ g.gameState = .str "RIVER") := h
  unfold useDocumentTitle
  simp only
  split
  · rfl
  · rfl

/-- C20: the title chosen by `useDocumentTitle` is `YOUR_TURN_TITLE` if and only if
`gameState` is present, its `gameState` field is one of `PREFLOP`, `FLOP`, `TURN`, `RIVER`
and its `currentPlayerTurn` is strictly equal to `currentPlayerId`; it is `WAITING_TITLE`
if and only if the state is one of those four and `currentPlayerTurn` differs from
`currentPlayerId`; and it is `DEFAULT_TITLE` in every other case, that is without a
`gameState` or with any other value of the state. -/
theorem useDocumentTitle_cases (gameState : Option TitleInput) (currentPlayerId : JsVal) :
    (useDocumentTitle gameState currentPlayerId = YOUR_TURN_TITLE ↔
      ∃ g, gameState = some g ∧ g.inRound ∧ g.currentPlayerTurn = currentPlayerId) ∧
    (useDocumentTitle gameState currentPlayerId = WAITING_TITLE ↔
      ∃ g, gameState = some g ∧ g.inRound ∧ g.currentPlayerTurn ≠ currentPlayerId) ∧
    (useDocumentTitle gameState currentPlayerId = DEFAULT_TITLE ↔
      gameState = none ∨ ∃ g, gameState = some g ∧ ¬ g.inRound) := by
  have h1 : YOUR_TURN_TITLE ≠ WAITING_TITLE := by decide
  have h2 : YOUR_TURN_TITLE ≠ DEFAULT_TITLE := by decide
  have h3 : WAITING_TITLE ≠ DEFAULT_TITLE := by decide
  cases gameState with
  | none =>
    have h : useDocumentTitle none currentPlayerId = DEFAULT_TITLE := rfl
    rw [h]
    refine ⟨⟨fun h => absurd h.symm h2, ?_⟩, ⟨fun h => absurd h.symm h3, ?_⟩, ?_⟩
    · rintro ⟨g, hg, _⟩; cases hg
    · rintro ⟨g, hg, _⟩; cases hg
    · simp
  | some g =>
    by_cases hr : g.inRound
    · rw [useDocumentTitle_inRound g currentPlayerId hr]
      by_cases ht : g.currentPlayerTurn = currentPlayerId
      · rw [if_pos ht]
        refine ⟨⟨fun _ => ⟨g, rfl, hr, ht⟩, fun _ => rfl⟩, ⟨fun h => absurd h h1, ?_⟩,
          ⟨fun h => absurd h h2, ?_⟩⟩
        · rintro ⟨g', hg, _, hne⟩
          cases hg
          exact absurd ht hne
        · rintro (h | ⟨g', hg, hn⟩)
          · cases h
          · cases hg
            exact absurd hr hn
      · rw [if_neg ht]
        refine ⟨⟨fun h => absurd h.symm h1, ?_⟩, ⟨fun _ => ⟨g, rfl, hr, ht⟩, fun _ => rfl⟩,
          ⟨fun h => absurd h h3, ?_⟩⟩
        · rintro ⟨g', hg, _, he⟩
          cases hg
          exact absurd he ht
        · rintro (h | ⟨g', hg, hn⟩)
          · cases h
          · cases hg
            exact absurd hr hn
    · rw [useDocumentTitle_idle g currentPlayerId hr]
      refine ⟨⟨fun h => absurd h.symm h2, ?_⟩, ⟨fun h => absurd h.symm h3, ?_⟩,
        ⟨fun _ => Or.inr ⟨g, rfl, hr⟩, fun _ => rfl⟩⟩
      · rintro ⟨g', hg, hr', _⟩
        cases hg
        exact absurd hr' hr
      · rintro ⟨g', hg, hr', _⟩
        cases hg
        exact absurd hr' hr

/-- C20 at concrete inputs: during `FLOP` the title tells the player to act whose turn it
is and the other one to wait; in `GAME_OVER` it is the default title. -/
theorem useDocumentTitle_cases_witness :
    useDocumentTitle (some { gameState := .str "FLOP", currentPlayerTurn := .str "sock-a" })
        (.str "sock-a") = YOUR_TURN_TITLE ∧
    useDocumentTitle (some { gameState := .str "FLOP", currentPlayerTurn := .str "sock-a" })
        (.str "sock-b") = WAITING_TITLE ∧
    useDocumentTitle (some { gameState := .str "GAME_OVER", currentPlayerTurn := .str "sock-a" })
        (.str "sock-a") = DEFAULT_TITLE :=
  ⟨(useDocumentTitle_cases _ _).1.2 ⟨_, rfl, by decide, rfl⟩,
   (useDocumentTitle_cases _ _).2.1.2 ⟨_, rfl, by decide, by decide⟩,
   (useDocumentTitle_cases _ _).2.2.2 (Or.inr ⟨_, rfl, by decide⟩)⟩

/-! ## `Game.addPlayer` is called in `WAITING` only -/

/-- Whatever the request, a call of `Game.addPlayer` is made by `joinRoom` or by
`switchToPlayer`, in `WAITING`. -/
theorem handle_addPlayer_phase (E : Engine) (s : Server) (req : Request) :
    ∀ c ∈ (handle E s req).calls, ∀ r, c.method = .addPlayer r →
      c.phase = .WAITING ∧
      ((∃ socketId roomId nickname asSpectator,
          req = .joinRoom socketId roomId nickname asSpectator) ∨
        ∃ socketId roomId, req = .switchToPlayer socketId roomId) := by
  intro c hc r hm
  cases req with
  | attemptReconnect socketId roomId nickname =>
    obtain ⟨o, h⟩ := attemptReconnect_calls E s socketId roomId nickname c hc
    rw [h] at hm; simp at hm
  | createRoom socketId roomId nickname =>
    simp [handle, createRoom_calls] at hc
  | joinRoom socketId roomId nickname asSpectator =>
    exact ⟨(joinRoom_calls E s socketId roomId nickname asSpectator c hc).2,
      Or.inl ⟨_, _, _, _, rfl⟩⟩
  | startGame socketId roomId =>
    rcases startGame_calls E s socketId roomId with h | ⟨room, _, _, _, h | h⟩
    · simp [handle, h] at hc
    · simp [handle, h.2] at hc
      subst hc
      simp at hm
    · simp [handle, h.2] at hc
      subst hc
      simp at hm
  | switchToPlayer socketId roomId =>
    exact ⟨(switchToPlayer_calls E s socketId roomId c hc).2, Or.inr ⟨_, _, rfl⟩⟩
  | switchToSpectator socketId roomId =>
    have h := switchToSpectator_calls E s socketId roomId c hc
    rw [h] at hm; simp at hm
  | playerAction socketId roomId action betAmount =>
    have h := playerAction_calls E s socketId roomId action betAmount c hc
    rw [h] at hm; simp at hm
  | prepareNextHand socketId roomId =>
    rcases prepareNextHand_calls E s socketId roomId with h | ⟨room, _, _, _, h⟩
    · simp [handle, h] at hc
    · simp [handle, h] at hc
      subst hc
      simp at hm
  | sendMessage socketId roomId message =>
    simp [handle, sendMessage_calls] at hc
  | leaveRoom socketId roomId =>
    have h := leaveRoom_calls E s socketId roomId c hc
    rw [h] at hm; simp at hm
  | resetGame socketId roomId =>
    simp [handle, resetGame_calls] at hc
  | endGame socketId roomId =>
    simp [handle, endGame_calls] at hc
  | closeRoom socketId roomId =>
    simp [handle, closeRoom_calls] at hc
  | disconnect socketId now =>
    simp [handle, disconnect, disconnectLoop_calls] at hc
  | removalTimeout timer =>
    have h := disconnectTimeout_calls E s timer c hc
    rw [h] at hm; simp at hm
  | updateRoomSettings socketId roomId settings =>
    simp [handle, updateRoomSettings_calls] at hc
  | updateInitialChips socketId roomId initialChips =>
    simp [handle, updateInitialChips_calls] at hc
  | cleanup now =>
    simp [handle, cleanupDisconnectedPlayers] at hc

/-- C21: every call of `Game.addPlayer` made by the server (by `joinRoom` and by
`switchToPlayer`, the only callers) happens while `gameState` is `WAITING`. A `joinRoom`
request for a room in any other state calls no engine method and leaves `room.players`, the
game and the player objects as they were: with `asSpectator` set the joiner is recorded in
`room.spectators`, otherwise the only effect is one `gameInProgress` to the sender. -/
theorem addPlayer_only_when_waiting (E : Engine) (s : Server)
    (socketId roomId nickname : String) (asSpectator : Bool) (room : Room)
    (hroom : lookup roomId s.rooms = some room)
    (hphase : room.game.gameState ≠ .WAITING) :
    (∀ (s' : Server) (req : Request), ∀ c ∈ (handle E s' req).calls, ∀ r,
      c.method = .addPlayer r → c.phase = .WAITING) ∧
    (joinRoom E s socketId roomId nickname asSpectator).calls = [] ∧
    (∀ room', lookup roomId (joinRoom E s socketId roomId nickname asSpectator).state.rooms
        = some room' →
      room'.players = room.players ∧ room'.game = room.game ∧ room'.heap = room.heap) ∧
    (¬ jsTrim nickname = "" → lookup socketId room.players = none →
      lookup socketId room.spectators = none →
      (asSpectator = true →
        ∃ room', lookup roomId
            (joinRoom E s socketId roomId nickname asSpectator).state.rooms = some room' ∧
          lookup socketId room'.spectators
            = some { id := socketId, nickname := jsTrim nickname }) ∧
      (asSpectator = false →
        (joinRoom E s socketId roomId nickname asSpectator).state = s ∧
        (joinRoom E s socketId roomId nickname asSpectator).emits
          = [{ target := .socket socketId, event := "gameInProgress",
               payload := .gameInProgress roomId }])) := by
  refine ⟨fun s' req c hc r hm => (handle_addPlayer_phase E s' req c hc r hm).1, ?_, ?_, ?_⟩
  · unfold joinRoom
    split
    · rfl
    · simp only [hroom]
      split
      · rfl
      · split
        · rfl
        · split
          · rfl
          · rename_i h1 h2
            exfalso
            apply h2
            right
            exact hphase
  · intro room' h
    unfold joinRoom at h
    split at h
    · rw [reject_state, hroom] at h; cases h; exact ⟨rfl, rfl, rfl⟩
    · simp only [hroom] at h
      split at h
      · rw [reject_state, hroom] at h; cases h; exact ⟨rfl, rfl, rfl⟩
      · split at h
        · simp only [hroom] at h; cases h; exact ⟨rfl, rfl, rfl⟩
        · split at h
          · rw [broadcast_setRoom_state, lookup_setRoom_self] at h
            cases h
            simp
          · rename_i h1 h2
            exfalso
            apply h2
            right
            exact hphase
  · intro hnick hp hsp
    have hin : ¬ ((lookup socketId room.players).isSome = true ∨
        (lookup socketId room.spectators).isSome = true) := by
      simp [hp, hsp]
    constructor
    · intro hs
      have h1 : ¬ (room.game.gameState ≠ .WAITING ∧ asSpectator = false) := by simp [hs]
      have h2 : asSpectator = true ∨ room.game.gameState ≠ .WAITING := Or.inl hs
      unfold joinRoom
      simp only [if_neg hnick, hroom, if_neg hin, if_neg h1, if_pos h2]
      rw [broadcast_setRoom_state]
      refine ⟨_, lookup_setRoom_self _ _ _, ?_⟩
      simp [lookup_insert_self]
    · intro hs
      have h1 : room.game.gameState ≠ .WAITING ∧ asSpectator = false := ⟨hphase, hs⟩
      have hout : joinRoom E s socketId roomId nickname asSpectator
          = { state := s,
              emits := [{ target := .socket socketId, event := "gameInProgress",
                          payload := .gameInProgress roomId }] } := by
        unfold joinRoom
        simp only [if_neg hnick, hroom, if_neg hin, if_pos h1]
      rw [hout]
      exact ⟨rfl, rfl⟩

/-- C21 at a concrete input: Cid asks to join the sample room during `PREFLOP`, first as a
player, then as a spectator. -/
theorem addPlayer_only_when_waiting_witness :
    (joinRoom specEngine (sampleServer .PREFLOP) "sock-c" "r1" "Cid" false).state
      = sampleServer .PREFLOP ∧
    (joinRoom specEngine (sampleServer .PREFLOP) "sock-c" "r1" "Cid" true).calls = [] ∧
    ∃ room', lookup "r1"
        (joinRoom specEngine (sampleServer .PREFLOP) "sock-c" "r1" "Cid" true).state.rooms
        = some room' ∧
      lookup "sock-c" room'.spectators = some { id := "sock-c", nickname := jsTrim "Cid" } :=
  have h := addPlayer_only_when_waiting specEngine (sampleServer .PREFLOP) "sock-c" "r1" "Cid"
    false (sampleRoom .PREFLOP) (by rfl) (by decide)
  have h' := addPlayer_only_when_waiting specEngine (sampleServer .PREFLOP) "sock-c" "r1" "Cid"
    true (sampleRoom .PREFLOP) (by rfl) (by decide)
  ⟨((h.2.2.2 (by decide) (by decide) (by decide)).2 rfl).1, h'.2.1,
   (h'.2.2.2 (by decide) (by decide) (by decide)).1 rfl⟩

/-! ## Who reaches `Game.playerAction` -/

/-- A call logged by the `playerAction` handler comes from a seated sender. -/
theorem playerAction_calls_seated (E : Engine) (s : Server) (socketId roomId : String)
    (action betAmount : JsVal) :
    ∀ c ∈ (playerAction E s socketId roomId action betAmount).calls,
      ∃ room, lookup roomId s.rooms = some room ∧
        (lookup socketId room.players).isSome = true := by
  intro c hc
  unfold playerAction at hc
  split at hc
  · simp at hc
  · rename_i room hroom
    split at hc
    · simp at hc
    · rename_i hseat
      refine ⟨room, hroom, ?_⟩
      cases h : lookup socketId room.players with
      | none => simp [h] at hseat
      | some r => rfl

/-- Whatever the request, a call of `Game.playerAction` comes from a `playerAction` event, for
the sender's own socket id, with the action and amount of the event. -/
theorem handle_playerAction_origin (E : Engine) (s : Server) (req : Request) :
    ∀ c ∈ (handle E s req).calls, ∀ playerId action betAmount,
      c.method = .playerAction playerId action betAmount →
      ∃ roomId, req = .playerAction playerId roomId action betAmount := by
  intro c hc pid a b hm
  cases req with
  | attemptReconnect socketId roomId nickname =>
    obtain ⟨o, h⟩ := attemptReconnect_calls E s socketId roomId nickname c hc
    rw [h] at hm; simp at hm
  | createRoom socketId roomId nickname =>
    simp [handle, createRoom_calls] at hc
  | joinRoom socketId roomId nickname asSpectator =>
    obtain ⟨⟨r, h⟩, _⟩ := joinRoom_calls E s socketId roomId nickname asSpectator c hc
    rw [h] at hm; simp at hm
  | startGame socketId roomId =>
    rcases startGame_calls E s socketId roomId with h | ⟨room, _, _, _, h | h⟩
    · simp [handle, h] at hc
    · simp [handle, h.2] at hc
      subst hc
      simp at hm
    · simp [handle, h.2] at hc
      subst hc
      simp at hm
  | switchToPlayer socketId roomId =>
    obtain ⟨⟨r, h⟩, _⟩ := switchToPlayer_calls E s socketId roomId c hc
    rw [h] at hm; simp at hm
  | switchToSpectator socketId roomId =>
    have h := switchToSpectator_calls E s socketId roomId c hc
    rw [h] at hm; simp at hm
  | playerAction socketId roomId action betAmount =>
    have h := playerAction_calls E s socketId roomId action betAmount c hc
    rw [h] at hm
    simp at hm
    obtain ⟨h1, h2, h3⟩ := hm
    subst h1 h2 h3
    exact ⟨roomId, rfl⟩
  | prepareNextHand socketId roomId =>
    rcases prepareNextHand_calls E s socketId roomId with h | ⟨room, _, _, _, h⟩
    · simp [handle, h] at hc
    · simp [handle, h] at hc
      subst hc
      simp at hm
  | sendMessage socketId roomId message =>
    simp [handle, sendMessage_calls] at hc
  | leaveRoom socketId roomId =>
    have h := leaveRoom_calls E s socketId roomId c hc
    rw [h] at hm; simp at hm
  | resetGame socketId roomId =>
    simp [handle, resetGame_calls] at hc
  | endGame socketId roomId =>
    simp [handle, endGame_calls] at hc
  | closeRoom socketId roomId =>
    simp [handle, closeRoom_calls] at hc
  | disconnect socketId now =>
    simp [handle, disconnect, disconnectLoop_calls] at hc
  | removalTimeout timer =>
    have h := disconnectTimeout_calls E s timer c hc
    rw [h] at hm; simp at hm
  | updateRoomSettings socketId roomId settings =>
    simp [handle, updateRoomSettings_calls] at hc
  | updateInitialChips socketId roomId initialChips =>
    simp [handle, updateInitialChips_calls] at hc
  | cleanup now =>
    simp [handle, cleanupDisconnectedPlayers] at hc

/-- C24: the `playerAction` handler calls `Game.playerAction` only with the sending socket's id
as `playerId`, and only when that id is a key of `room.players`. A sender who is not seated (a
spectator, or a socket outside the room) gets the error `您不在此房间中`, no call is made and
the state is unchanged. No other handler calls `Game.playerAction`. -/
theorem playerAction_only_seated_sender (E : Engine) (s : Server) (socketId roomId : String)
    (action betAmount : JsVal) (room : Room)
    (hroom : lookup roomId s.rooms = some room) :
    (∀ c ∈ (playerAction E s socketId roomId action betAmount).calls,
      c.method = .playerAction socketId action betAmount ∧
      (lookup socketId room.players).isSome = true) ∧
    (lookup socketId room.players = none →
      (playerAction E s socketId roomId action betAmount).calls = [] ∧
      (playerAction E s socketId roomId action betAmount).state = s ∧
      (playerAction E s socketId roomId action betAmount).emits
        = [errorTo socketId "您不在此房间中"]) ∧
    (∀ (s' : Server) (req : Request), ∀ c ∈ (handle E s' req).calls,
      ∀ playerId act amount, c.method = .playerAction playerId act amount →
        ∃ roomId', req = .playerAction playerId roomId' act amount) := by
  refine ⟨fun c hc => ⟨playerAction_calls E s socketId roomId action betAmount c hc, ?_⟩, ?_,
    fun s' req => handle_playerAction_origin E s' req⟩
  · obtain ⟨room', h, hs⟩ := playerAction_calls_seated E s socketId roomId action betAmount c hc
    rw [hroom] at h
    cases h
    exact hs
  · intro hout
    have h : playerAction E s socketId roomId action betAmount
        = reject s socketId "您不在此房间中" := by
      unfold playerAction
      simp [hroom, hout]
    rw [h]
    exact ⟨rfl, rfl, rfl⟩

/-- C24 at a concrete input: during `PREFLOP`, the spectator Cid and the outsider `sock-z` send
a raise and reach no engine; Bob, who is seated, reaches it under his own id. -/
theorem playerAction_only_seated_sender_witness :
    (playerAction specEngine (watchedServer .PREFLOP) "sock-c" "r1" (.str "raise")
        (.num 40)).calls = [] ∧
    (playerAction specEngine (watchedServer .PREFLOP) "sock-z" "r1" (.str "raise")
        (.num 40)).calls = [] ∧
    (playerAction specEngine (watchedServer .PREFLOP) "sock-b" "r1" (.str "call")
        (.num 0)).calls
      = [{ method := .playerAction "sock-b" (.str "call") (.num 0), phase := .PREFLOP }] :=
  ⟨((playerAction_only_seated_sender specEngine (watchedServer .PREFLOP) "sock-c" "r1"
      (.str "raise") (.num 40) (watchedRoom .PREFLOP) (by rfl)).2.1 (by decide)).1,
   ((playerAction_only_seated_sender specEngine (watchedServer .PREFLOP) "sock-z" "r1"
      (.str "raise") (.num 40) (watchedRoom .PREFLOP) (by rfl)).2.1 (by decide)).1,
   by rfl⟩

/-! ## The removal timer after a reconnection -/

theorem lookup_filter_none {α : Type} (k : String) (p : String × α → Bool)
    (m : List (String × α)) (h : lookup k m = none) : lookup k (m.filter p) = none := by
  induction m with
  | nil => rfl
  | cons e rest ih =>
    obtain ⟨k0, v0⟩ := e
    by_cases h0 : k0 = k
    · simp [lookup, h0] at h
    · have hr : lookup k rest = none := by simpa [lookup, h0] using h
      by_cases hp : p (k0, v0) = true
      · simp [List.filter, hp, lookup, h0, ih hr]
      · simp [List.filter, hp, ih hr]

theorem broadcast_records (E : Engine) (o : Outcome) (roomId : String) :
    (Outcome.broadcast E o roomId).state.disconnectedPlayers = o.state.disconnectedPlayers := by
  unfold Outcome.broadcast broadcastGameState
  split <;> rfl

theorem removeFromRoom_records (E : Engine) (s : Server) (socketId roomId : String)
    (room : Room) (wasCreator : Bool) (first : List Emit) (ops : List SocketOp) :
    (removeFromRoom E s socketId roomId room wasCreator first ops).state.disconnectedPlayers
      = s.disconnectedPlayers := by
  unfold removeFromRoom
  simp only
  split
  · rfl
  · split <;> simp [broadcast_records, Server.setRoom]

theorem disconnectLoop_records (records : List (String × DisconnectInfo)) (socketId : String)
    (now : Int) (rooms : List (String × Room)) :
    (disconnectLoop records socketId now rooms).state.disconnectedPlayers = records ∨
    ∃ info, (disconnectLoop records socketId now rooms).state.disconnectedPlayers
      = insert socketId info records := by
  induction rooms with
  | nil => left; rfl
  | cons e rest ih =>
    obtain ⟨rid, room⟩ := e
    unfold disconnectLoop
    split
    · left; rfl
    · split
      · right; exact ⟨_, rfl⟩
      · exact ih

/-- No request but the `disconnect` of a socket makes a record for that socket in
`disconnectedPlayers`. -/
theorem handle_no_record (E : Engine) (s : Server) (req : Request) (k : String)
    (hk : lookup k s.disconnectedPlayers = none)
    (hreq : ∀ now, req ≠ .disconnect k now) :
    lookup k (handle E s req).state.disconnectedPlayers = none := by
  cases req with
  | attemptReconnect socketId roomId nickname =>
    show lookup k (attemptReconnect E s socketId roomId nickname).state.disconnectedPlayers = none
    unfold attemptReconnect
    repeat' split
    all_goals simp [broadcast_records, reconnectFailed, hk]
    all_goals exact lookup_filter_none _ _ _ hk
  | createRoom socketId roomId nickname =>
    show lookup k (createRoom E s socketId roomId nickname).state.disconnectedPlayers = none
    unfold createRoom
    repeat' split
    all_goals simp [broadcast_records, Server.setRoom, reject, hk]
  | joinRoom socketId roomId nickname asSpectator =>
    show lookup k (joinRoom E s socketId roomId nickname asSpectator).state.disconnectedPlayers
      = none
    unfold joinRoom
    repeat' split
    all_goals simp [broadcast_records, Server.setRoom, reject, hk]
  | startGame socketId roomId =>
    show lookup k (startGame E s socketId roomId).state.disconnectedPlayers = none
    unfold startGame
    repeat' split
    all_goals simp [broadcast_records, Server.setRoom, reject, hk]
  | switchToPlayer socketId roomId =>
    show lookup k (switchToPlayer E s socketId roomId).state.disconnectedPlayers = none
    unfold switchToPlayer
    repeat' split
    all_goals simp [broadcast_records, Server.setRoom, reject, hk]
  | switchToSpectator socketId roomId =>
    show lookup k (switchToSpectator E s socketId roomId).state.disconnectedPlayers = none
    unfold switchToSpectator
    repeat' split
    all_goals simp [broadcast_records, Server.setRoom, reject, hk]
  | playerAction socketId roomId action betAmount =>
    show lookup k (playerAction E s socketId roomId action betAmount).state.disconnectedPlayers
      = none
    unfold playerAction
    repeat' split
    all_goals simp [broadcast_records, Server.setRoom, reject, hk]
  | prepareNextHand socketId roomId =>
    show lookup k (prepareNextHand E s socketId roomId).state.disconnectedPlayers = none
    unfold prepareNextHand
    repeat' split
    all_goals simp [broadcast_records, Server.setRoom, reject, hk]
  | sendMessage socketId roomId message =>
    show lookup k (sendMessage s socketId roomId message).state.disconnectedPlayers = none
    unfold sendMessage
    repeat' split
    all_goals simp [reject, hk]
  | leaveRoom socketId roomId =>
    show lookup k (leaveRoom E s socketId roomId).state.disconnectedPlayers = none
    unfold leaveRoom
    repeat' split
    all_goals simp [removeFromRoom_records, reject, hk]
    all_goals exact lookup_filter_none _ _ _ hk
  | resetGame socketId roomId =>
    show lookup k (resetGame E s socketId roomId).state.disconnectedPlayers = none
    unfold resetGame
    repeat' split
    all_goals simp [broadcast_records, Server.setRoom, reject, hk]
  | endGame socketId roomId =>
    show lookup k (endGame E s socketId roomId).state.disconnectedPlayers = none
    unfold endGame
    repeat' split
    all_goals simp [broadcast_records, Server.setRoom, reject, hk]
  | closeRoom socketId roomId =>
    show lookup k (closeRoom s socketId roomId).state.disconnectedPlayers = none
    unfold closeRoom
    repeat' split
    all_goals simp [reject, hk]
  | disconnect socketId now =>
    have hne : k ≠ socketId := fun h => hreq now (by rw [h])
    show lookup k (disconnect s socketId now).state.disconnectedPlayers = none
    unfold disconnect
    rcases disconnectLoop_records s.disconnectedPlayers socketId now s.rooms with h | ⟨info, h⟩
    · rw [h]; exact hk
    · rw [h, lookup_insert_ne _ _ _ _ hne]; exact hk
  | removalTimeout timer =>
    show lookup k (disconnectTimeout E s timer).state.disconnectedPlayers = none
    unfold disconnectTimeout
    split
    · exact hk
    · simp only
      split
      · exact lookup_filter_none _ _ _ hk
      · split
        · exact lookup_filter_none _ _ _ hk
        · rw [removeFromRoom_records]
          exact lookup_filter_none _ _ _ hk
  | updateRoomSettings socketId roomId settings =>
    show lookup k (updateRoomSettings E s socketId roomId settings).state.disconnectedPlayers
      = none
    unfold updateRoomSettings
    repeat' split
    all_goals simp [broadcast_records, Server.setRoom, reject, hk]
  | updateInitialChips socketId roomId initialChips =>
    show lookup k (updateInitialChips E s socketId roomId initialChips).state.disconnectedPlayers
      = none
    unfold updateInitialChips
    repeat' split
    all_goals simp [broadcast_records, Server.setRoom, reject, hk]
  | cleanup now =>
    exact lookup_filter_none _ _ _ hk

theorem runRequests_no_record (E : Engine) (k : String) (reqs : List Request) :
    ∀ s : Server, lookup k s.disconnectedPlayers = none →
      (∀ req ∈ reqs, ∀ now, req ≠ .disconnect k now) →
      lookup k (runRequests E s reqs).disconnectedPlayers = none := by
  induction reqs with
  | nil => intro s hk _; exact hk
  | cons req rest ih =>
    intro s hk hreqs
    exact ih (handle E s req).state
      (handle_no_record E s req k hk (hreqs req (List.mem_cons_self _ _)))
      (fun r hr => hreqs r (List.mem_cons_of_mem _ hr))

/-- C25: when a successful `attemptReconnect` has consumed the record of a disconnected player
(the record under the old socket id `oldId`), the firing of the 30-second timer set for
`oldId` does nothing: it returns the state it found, with no engine call, no emit, no socket
operation and no timer, so no player is removed and no room, game or `disconnectedPlayers`
entry changes. This holds whatever the server treats between the reconnection and the firing,
as long as the old socket does not disconnect a second time. -/
theorem reconnect_disarms_timer (E : Engine) (s : Server) (socketId roomId nickname : String)
    (oldId : String) (info : DisconnectInfo) (room : Room) (player : Ref)
    (hfind : findReconnect roomId nickname s.disconnectedPlayers = some (oldId, info))
    (hroom : lookup roomId s.rooms = some room)
    (hplayer : lookup oldId room.players = some player)
    (between : List Request)
    (hbetween : ∀ req ∈ between, ∀ now, req ≠ .disconnect oldId now)
    (timer : RemovalTimer) (htimer : timer.socketId = oldId) :
    lookup oldId (attemptReconnect E s socketId roomId nickname).state.disconnectedPlayers
      = none ∧
    disconnectTimeout E
        (runRequests E (attemptReconnect E s socketId roomId nickname).state between) timer
      = { state := runRequests E (attemptReconnect E s socketId roomId nickname).state between,
          emits := [], calls := [], socketOps := [], timers := [] } := by
  have h0 : lookup oldId (attemptReconnect E s socketId roomId nickname).state.disconnectedPlayers
      = none := by
    rw [attemptReconnect_state E s socketId roomId nickname oldId info room player hfind hroom
      hplayer]
    exact lookup_erase_self oldId s.disconnectedPlayers
  refine ⟨h0, ?_⟩
  have h1 := runRequests_no_record E oldId between _ h0 hbetween
  unfold disconnectTimeout
  rw [htimer, h1]
  rfl

/-- C25 at a concrete input: Bob's socket `sock-b` has dropped during `PREFLOP`; Bob comes back
on `sock-b2`, Ann sends a chat message, and then the timer of `sock-b` fires and changes
nothing. Bob keeps his seat under the new id. Fired without the reconnection, the same timer
calls `Game.removePlayer`. -/
theorem reconnect_disarms_timer_witness :
    disconnectTimeout specEngine
        (runRequests specEngine
          (attemptReconnect specEngine droppedServer "sock-b2" "r1" "Bob").state
          [.sendMessage "sock-a" "r1" (.str "hi")]) droppedTimer
      = { state := runRequests specEngine
            (attemptReconnect specEngine droppedServer "sock-b2" "r1" "Bob").state
            [.sendMessage "sock-a" "r1" (.str "hi")] } ∧
    Server.playerIdsOf (runRequests specEngine
        (attemptReconnect specEngine droppedServer "sock-b2" "r1" "Bob").state
        [.sendMessage "sock-a" "r1" (.str "hi")]) "r1" = some ["sock-a", "sock-b2"] ∧
    (disconnectTimeout specEngine droppedServer droppedTimer).calls
      = [{ method := .removePlayer "sock-b", phase := .PREFLOP }] :=
  ⟨(reconnect_disarms_timer specEngine droppedServer "sock-b2" "r1" "Bob" "sock-b"
      { roomId := "r1", nickname := "Bob", lastSeen := 0, socketId := "sock-b" }
      (sampleRoom .PREFLOP) 1 (by rfl) (by rfl) (by rfl)
      [.sendMessage "sock-a" "r1" (.str "hi")] (by simp) droppedTimer rfl).2,
   by rfl, by rfl⟩

/-! ## `room.players` never outgrows `maxPlayers` -/

theorem length_insert_le {α : Type} (k : String) (v : α) (m : List (String × α)) :
    (insert k v m).length ≤ m.length + 1 := by
  induction m with
  | nil => simp [insert]
  | cons e rest ih =>
    obtain ⟨k0, v0⟩ := e
    unfold insert
    split
    · simp
    · simpa using ih

theorem length_erase_le {α : Type} (k : String) (m : List (String × α)) :
    (erase k m).length ≤ m.length :=
  List.length_filter_le _ _

theorem length_erase_lt {α : Type} (k : String) (m : List (String × α)) (v : α)
    (h : lookup k m = some v) : (erase k m).length + 1 ≤ m.length := by
  induction m with
  | nil => simp [lookup] at h
  | cons e rest ih =>
    obtain ⟨k0, v0⟩ := e
    by_cases h0 : k0 = k
    · have h1 : erase k ((k0, v0) :: rest) = erase k rest := by
        simp [erase, List.filter, h0]
      rw [h1]
      have := length_erase_le k rest
      simp only [List.length_cons]
      omega
    · have h1 : erase k ((k0, v0) :: rest) = (k0, v0) :: erase k rest := by
        simp [erase, List.filter, h0]
      have h2 : lookup k rest = some v := by simpa [lookup, h0] using h
      rw [h1]
      simpa using ih h2

theorem mem_insert {α : Type} (k : String) (v : α) (m : List (String × α)) (e : String × α)
    (h : e ∈ insert k v m) : e = (k, v) ∨ e ∈ m := by
  induction m with
  | nil => left; simpa [insert] using h
  | cons e0 rest ih =>
    obtain ⟨k0, v0⟩ := e0
    unfold insert at h
    split at h
    · rcases List.mem_cons.mp h with h1 | h1
      · left; exact h1
      · right; exact List.mem_cons_of_mem _ h1
    · rcases List.mem_cons.mp h with h1 | h1
      · right; rw [h1]; exact List.mem_cons_self _ _
      · rcases ih h1 with h2 | h2
        · left; exact h2
        · right; exact List.mem_cons_of_mem _ h2

theorem mem_erase {α : Type} (k : String) (m : List (String × α)) (e : String × α)
    (h : e ∈ erase k m) : e ∈ m :=
  (List.mem_filter.mp h).1

theorem lookup_mem {α : Type} (k : String) (m : List (String × α)) (v : α)
    (h : lookup k m = some v) : (k, v) ∈ m := by
  induction m with
  | nil => simp [lookup] at h
  | cons e rest ih =>
    obtain ⟨k0, v0⟩ := e
    by_cases h0 : k0 = k
    · simp [lookup, h0] at h
      subst h0 h
      exact List.mem_cons_self _ _
    · have h2 : lookup k rest = some v := by simpa [lookup, h0] using h
      exact List.mem_cons_of_mem _ (ih h2)

theorem bounded_of_lookup (s : Server) (roomId : String) (room : Room) (h : s.Bounded)
    (hl : lookup roomId s.rooms = some room) : room.Bounded :=
  h (roomId, room) (lookup_mem _ _ _ hl)

theorem bounded_same (room room' : Room) (h : room.Bounded)
    (hp : room'.players = room.players) (hm : room'.maxPlayers = room.maxPlayers) :
    room'.Bounded := by
  unfold Room.Bounded at *
  rw [hp, hm]
  exact h

theorem bounded_setRoom (s : Server) (roomId : String) (room : Room) (h : s.Bounded)
    (hr : room.Bounded) : (s.setRoom roomId room).Bounded := by
  intro e he
  rcases mem_insert _ _ _ _ he with h1 | h1
  · rw [h1]; exact hr
  · exact h e h1

theorem bounded_eraseRoom (s : Server) (roomId : String) (h : s.Bounded) :
    Server.Bounded { s with rooms := erase roomId s.rooms } :=
  fun e he => h e (mem_erase _ _ _ he)

theorem ensureSettings_bounded (room : Room) (h : room.Bounded) : room.ensureSettings.Bounded := by
  unfold Room.ensureSettings
  split
  · exact h
  · exact h

theorem bounded_broadcast (E : Engine) (o : Outcome) (roomId : String) (h : o.state.Bounded) :
    (Outcome.broadcast E o roomId).state.Bounded := by
  unfold Outcome.broadcast broadcastGameState
  split
  · exact h
  · rename_i room hl
    exact bounded_setRoom _ _ _ h (ensureSettings_bounded _ (bounded_of_lookup _ _ _ h hl))

theorem bounded_write (s : Server) (roomId : String) (room room' : Room)
    (h : s.Bounded) (hl : lookup roomId s.rooms = some room)
    (hp : room'.players = room.players) (hm : room'.maxPlayers = room.maxPlayers) :
    (s.setRoom roomId room').Bounded :=
  bounded_setRoom _ _ _ h (bounded_same _ _ (bounded_of_lookup _ _ _ h hl) hp hm)

theorem seatPlayer_bounded (E : Engine) (room : Room) (socketId nickname : String)
    (h : room.Bounded) (hfree : ¬ (keys room.players).length ≥ room.maxPlayers) :
    (seatPlayer E room socketId nickname).Bounded := by
  unfold Room.Bounded at *
  have h1 := length_insert_le socketId room.nextRef room.players
  simp only [keys, List.length_map] at h hfree
  simp only [seatPlayer, keys, List.length_map]
  exact ⟨by omega, h.2⟩

theorem removeFromRoom_bounded (E : Engine) (s : Server) (socketId roomId : String)
    (room : Room) (wasCreator : Bool) (first : List Emit) (ops : List SocketOp)
    (h : s.Bounded) (hr : room.Bounded) :
    (removeFromRoom E s socketId roomId room wasCreator first ops).state.Bounded := by
  have hb : ∀ creator : String,
      Room.Bounded { room.withTable (E.removePlayer room.table socketId).1 with
        players := erase socketId room.players, creator := creator } := by
    intro creator
    unfold Room.Bounded at *
    have h1 := length_erase_le socketId room.players
    simp only [keys, List.length_map] at hr
    simp only [keys, List.length_map, Room.withTable]
    exact ⟨by omega, hr.2⟩
  unfold removeFromRoom
  simp only
  split
  · exact bounded_eraseRoom _ _ h
  · split
    · exact bounded_broadcast _ _ _ (bounded_setRoom _ _ _ h (hb _))
    · exact bounded_broadcast _ _ _ (bounded_setRoom _ _ _ h (hb _))

theorem disconnectLoop_bounded (records : List (String × DisconnectInfo)) (socketId : String)
    (now : Int) (rooms : List (String × Room)) (h : ∀ e ∈ rooms, e.2.Bounded) :
    (disconnectLoop records socketId now rooms).state.Bounded := by
  induction rooms with
  | nil => intro e he; simp [disconnectLoop] at he
  | cons e0 rest ih =>
    obtain ⟨rid, room⟩ := e0
    have hroom : room.Bounded := h (rid, room) (List.mem_cons_self _ _)
    have hrest : ∀ e ∈ rest, e.2.Bounded := fun e he => h e (List.mem_cons_of_mem _ he)
    unfold disconnectLoop
    split
    · intro e he
      rcases List.mem_cons.mp he with h1 | h1
      · rw [h1]; exact hroom
      · exact hrest e h1
    · split
      · exact h
      · intro e he
        rcases List.mem_cons.mp he with h1 | h1
        · rw [h1]; exact hroom
        · exact ih hrest e h1

/-- Every request leaves every room bounded. -/
theorem handle_bounded (E : Engine) (s : Server) (req : Request) (h : s.Bounded) :
    (handle E s req).state.Bounded := by
  cases req with
  | attemptReconnect socketId roomId nickname =>
    show (attemptReconnect E s socketId roomId nickname).state.Bounded
    unfold attemptReconnect
    split
    · exact h
    · rename_i oldId info hfind
      split
      · exact h
      · rename_i room hroom
        split
        · exact h
        · rename_i player hplayer
          apply bounded_broadcast
          refine bounded_setRoom { rooms := s.rooms, disconnectedPlayers := _ } _ _ h ?_
          have hr := bounded_of_lookup _ _ _ h hroom
          unfold Room.Bounded at *
          have h1 := length_erase_lt oldId room.players player hplayer
          have h2 := length_insert_le socketId player (erase oldId room.players)
          simp only [keys, List.length_map] at hr
          simp only [keys, List.length_map]
          exact ⟨by omega, hr.2⟩
  | createRoom socketId roomId nickname =>
    show (createRoom E s socketId roomId nickname).state.Bounded
    unfold createRoom
    split
    · exact h
    · apply bounded_broadcast
      apply bounded_setRoom _ _ _ h
      exact ⟨by simp [keys], rfl⟩
  | joinRoom socketId roomId nickname asSpectator =>
    show (joinRoom E s socketId roomId nickname asSpectator).state.Bounded
    unfold joinRoom
    split
    · exact h
    · split
      · exact h
      · rename_i room hroom
        split
        · exact h
        · split
          · exact h
          · split
            · exact bounded_broadcast _ _ _ (bounded_write _ _ _ _ h hroom rfl rfl)
            · split
              · exact h
              · rename_i hfree
                exact bounded_broadcast _ _ _ (bounded_setRoom _ _ _ h
                  (seatPlayer_bounded E room socketId _ (bounded_of_lookup _ _ _ h hroom) hfree))
  | startGame socketId roomId =>
    show (startGame E s socketId roomId).state.Bounded
    unfold startGame
    split
    · exact h
    · rename_i room hroom
      repeat' split
      all_goals first
        | exact h
        | exact bounded_broadcast _ _ _ (bounded_write _ _ _ _ h hroom rfl rfl)
        | exact bounded_write _ _ _ _ h hroom rfl rfl
  | switchToPlayer socketId roomId =>
    show (switchToPlayer E s socketId roomId).state.Bounded
    unfold switchToPlayer
    split
    · exact h
    · rename_i room hroom
      split
      · exact h
      · split
        · exact h
        · split
          · exact h
          · rename_i hfree
            exact bounded_broadcast _ _ _ (bounded_setRoom _ _ _ h
              (seatPlayer_bounded E _ socketId _
                (bounded_same _ _ (bounded_of_lookup _ _ _ h hroom) rfl rfl) hfree))
  | switchToSpectator socketId roomId =>
    show (switchToSpectator E s socketId roomId).state.Bounded
    unfold switchToSpectator
    split
    · exact h
    · rename_i room hroom
      split
      · exact h
      · split
        · exact h
        · split
          · exact h
          · apply bounded_broadcast
            apply bounded_setRoom _ _ _ h
            have hr := bounded_of_lookup _ _ _ h hroom
            unfold Room.Bounded at *
            have h1 := length_erase_le socketId room.players
            simp only [keys, List.length_map] at hr
            simp only [keys, List.length_map, Room.withTable]
            exact ⟨by omega, hr.2⟩
  | playerAction socketId roomId action betAmount =>
    show (playerAction E s socketId roomId action betAmount).state.Bounded
    unfold playerAction
    split
    · exact h
    · rename_i room hroom
      repeat' split
      all_goals first
        | exact h
        | exact bounded_broadcast _ _ _ (bounded_write _ _ _ _ h hroom rfl rfl)
        | exact bounded_write _ _ _ _ h hroom rfl rfl
        | exact bounded_broadcast _ _ _ (bounded_setRoom _ _ _ h (ensureSettings_bounded _
            (bounded_same _ _ (bounded_of_lookup _ _ _ h hroom) rfl rfl)))
  | prepareNextHand socketId roomId =>
    show (prepareNextHand E s socketId roomId).state.Bounded
    unfold prepareNextHand
    split
    · exact h
    · rename_i room hroom
      repeat' split
      all_goals first
        | exact h
        | exact bounded_broadcast _ _ _ (bounded_write _ _ _ _ h hroom rfl rfl)
        | exact bounded_write _ _ _ _ h hroom rfl rfl
  | sendMessage socketId roomId message =>
    show (sendMessage s socketId roomId message).state.Bounded
    unfold sendMessage
    repeat' split
    all_goals exact h
  | leaveRoom socketId roomId =>
    show (leaveRoom E s socketId roomId).state.Bounded
    unfold leaveRoom
    split
    · exact h
    · rename_i room hroom
      split
      · exact h
      · exact removeFromRoom_bounded E _ _ _ _ _ _ _ h (bounded_of_lookup _ _ _ h hroom)
  | resetGame socketId roomId =>
    show (resetGame E s socketId roomId).state.Bounded
    unfold resetGame
    split
    · exact h
    · rename_i room hroom
      split
      · exact h
      · split
        · exact h
        · exact bounded_broadcast _ _ _ (bounded_write _ _ _ _ h hroom rfl rfl)
  | endGame socketId roomId =>
    show (endGame E s socketId roomId).state.Bounded
    unfold endGame
    split
    · exact h
    · rename_i room hroom
      split
      · exact h
      · split
        · exact h
        · exact bounded_broadcast _ _ _ (bounded_write _ _ _ _ h hroom rfl rfl)
  | closeRoom socketId roomId =>
    show (closeRoom s socketId roomId).state.Bounded
    unfold closeRoom
    split
    · exact h
    · split
      · exact h
      · exact bounded_eraseRoom _ _ h
  | disconnect socketId now =>
    exact disconnectLoop_bounded _ _ _ _ h
  | removalTimeout timer =>
    show (disconnectTimeout E s timer).state.Bounded
    unfold disconnectTimeout
    split
    · exact h
    · simp only
      split
      · exact h
      · rename_i room hroom
        split
        · exact h
        · exact removeFromRoom_bounded E _ _ _ _ _ _ _ h (bounded_of_lookup _ _ _ h hroom)
  | updateRoomSettings socketId roomId settings =>
    show (updateRoomSettings E s socketId roomId settings).state.Bounded
    unfold updateRoomSettings
    split
    · exact h
    · rename_i room hroom
      split
      · exact h
      · exact bounded_broadcast _ _ _ (bounded_write _ _ _ _ h hroom rfl rfl)
  | updateInitialChips socketId roomId initialChips =>
    show (updateInitialChips E s socketId roomId initialChips).state.Bounded
    unfold updateInitialChips
    split
    · exact h
    · rename_i room hroom
      repeat' split
      all_goals first
        | exact h
        | exact bounded_broadcast _ _ _ (bounded_write _ _ _ _ h hroom rfl rfl)
  | cleanup now =>
    exact h

theorem runRequests_bounded (E : Engine) (reqs : List Request) :
    ∀ s : Server, s.Bounded → (runRequests E s reqs).Bounded := by
  induction reqs with
  | nil => intro s h; exact h
  | cons req rest ih => intro s h; exact ih _ (handle_bounded E s req h)

/-- C26: in every state the server reaches from its start (no room) by treating requests, among
them `createRoom`, `joinRoom`, `switchToPlayer`, `switchToSpectator`, `leaveRoom`,
`attemptReconnect` and the firing of a removal timer, every room has at most `maxPlayers`
entries in `room.players`, and `maxPlayers` is 8. -/
theorem players_bounded (E : Engine) (reqs : List Request) (roomId : String) (room : Room)
    (hroom : lookup roomId (runRequests E emptyServer reqs).rooms = some room) :
    (keys room.players).length ≤ room.maxPlayers ∧ room.maxPlayers = 8 :=
  bounded_of_lookup _ _ _
    (runRequests_bounded E reqs emptyServer (fun e he => by simp [emptyServer] at he)) hroom

/-- C26 at a concrete input: after a `createRoom` and seven `joinRoom` the room holds eight
players; a ninth `joinRoom` is answered `Room is full` and seats nobody. -/
theorem players_bounded_witness :
    Server.playerIdsOf (runRequests specEngine emptyServer fullTableRequests) "r1"
      = some ["sock-1", "sock-2", "sock-3", "sock-4", "sock-5", "sock-6", "sock-7", "sock-8"] ∧
    (joinRoom specEngine (runRequests specEngine emptyServer fullTableRequests)
        "sock-9" "r1" "P9" false).emits = [errorTo "sock-9" "Room is full"] ∧
    Server.playerIdsOf (runRequests specEngine emptyServer
        (fullTableRequests ++ [.joinRoom "sock-9" "r1" "P9" false])) "r1"
      = some ["sock-1", "sock-2", "sock-3", "sock-4", "sock-5", "sock-6", "sock-7", "sock-8"] ∧
    ∃ room, lookup "r1" (runRequests specEngine emptyServer fullTableRequests).rooms
        = some room ∧
      (keys room.players).length ≤ room.maxPlayers ∧ room.maxPlayers = 8 :=
  ⟨by rfl, by rfl, by rfl,
   (Option.isSome_iff_exists.mp
      (by rfl : (lookup "r1"
        (runRequests specEngine emptyServer fullTableRequests).rooms).isSome = true)).elim
     (fun room hroom =>
       ⟨room, hroom, players_bounded specEngine fullTableRequests "r1" room hroom⟩)⟩

/-! ## The Hand Evaluator ranks the categories -/

theorem lexLt_irrefl (a : List Nat) : Spec.lexLt a a = false := by
  induction a with
  | nil => rfl
  | cons x rest ih => simp [Spec.lexLt, ih]

theorem lexLt_trans (a b c : List Nat) (hab : Spec.lexLt a b = true)
    (hbc : Spec.lexLt b c = true) : Spec.lexLt a c = true := by
  induction a generalizing b c with
  | nil =>
    cases b with
    | nil => simp [Spec.lexLt] at hab
    | cons y bs =>
      cases c with
      | nil => simp [Spec.lexLt] at hbc
      | cons z cs => rfl
  | cons x as ih =>
    cases b with
    | nil => simp [Spec.lexLt] at hab
    | cons y bs =>
      cases c with
      | nil => simp [Spec.lexLt] at hbc
      | cons z cs =>
        simp only [Spec.lexLt, Bool.or_eq_true, Bool.and_eq_true, decide_eq_true_eq] at *
        rcases hab with h1 | ⟨h1, h2⟩
        · rcases hbc with h3 | ⟨h3, h4⟩
          · left; omega
          · left; omega
        · rcases hbc with h3 | ⟨h3, h4⟩
          · left; omega
          · right; exact ⟨by omega, ih bs cs h2 h4⟩

theorem lexLt_total (a b : List Nat) :
    Spec.lexLt a b = true ∨ a = b ∨ Spec.lexLt b a = true := by
  induction a generalizing b with
  | nil =>
    cases b with
    | nil => right; left; rfl
    | cons y bs => left; rfl
  | cons x as ih =>
    cases b with
    | nil => right; right; rfl
    | cons y bs =>
      simp only [Spec.lexLt, Bool.or_eq_true, Bool.and_eq_true, decide_eq_true_eq]
      rcases Nat.lt_trichotomy x y with h | h | h
      · left; left; exact h
      · subst h
        rcases ih bs with h1 | h1 | h1
        · left; right; exact ⟨rfl, h1⟩
        · right; left; rw [h1]
        · right; right; right; exact ⟨rfl, h1⟩
      · right; right; left; exact h

/-- If `c` is not above `b` and `b` is not above `a`, then `c` is not above `a`. -/
theorem lexLt_not_trans (a b c : List Nat) (hab : Spec.lexLt a b = false)
    (hbc : Spec.lexLt b c = false) : Spec.lexLt a c = false := by
  cases h : Spec.lexLt a c with
  | false => rfl
  | true =>
    exfalso
    rcases lexLt_total a b with h1 | h1 | h1
    · rw [h1] at hab; cases hab
    · subst h1; rw [h] at hbc; cases hbc
    · rcases lexLt_total b c with h2 | h2 | h2
      · rw [h2] at hbc; cases hbc
      · subst h2; rw [h] at hab; cases hab
      · have h3 := lexLt_trans c b a h2 h1
        have h4 := lexLt_trans a c a h h3
        rw [lexLt_irrefl] at h4
        cases h4

/-- The value kept by `Spec.best` is the first one or one of the list, and none of them is
above it. -/
theorem best_spec (l : List HandValue) :
    ∀ acc : HandValue,
      (Spec.best acc l = acc ∨ Spec.best acc l ∈ l) ∧
      (Spec.best acc l).lt acc = false ∧
      ∀ v ∈ l, (Spec.best acc l).lt v = false := by
  induction l with
  | nil =>
    intro acc
    exact ⟨Or.inl rfl, lexLt_irrefl _, fun v hv => (by cases hv)⟩
  | cons x rest ih =>
    intro acc
    show (Spec.best (if acc.lt x then x else acc) rest = acc ∨
        Spec.best (if acc.lt x then x else acc) rest ∈ x :: rest) ∧
      (Spec.best (if acc.lt x then x else acc) rest).lt acc = false ∧
      ∀ v ∈ x :: rest, (Spec.best (if acc.lt x then x else acc) rest).lt v = false
    cases hx : acc.lt x with
    | true =>
      obtain ⟨h1, h2, h3⟩ := ih x
      simp only [if_true]
      refine ⟨?_, ?_, ?_⟩
      · rcases h1 with h1 | h1
        · right; rw [h1]; exact List.mem_cons_self _ _
        · right; exact List.mem_cons_of_mem _ h1
      · cases h : (Spec.best x rest).lt acc with
        | false => rfl
        | true =>
          have h4 := lexLt_trans _ _ _ h hx
          have h5 : (Spec.best x rest).lt x = true := h4
          rw [h2] at h5
          cases h5
      · intro v hv
        rcases List.mem_cons.mp hv with h | h
        · rw [h]; exact h2
        · exact h3 v h
    | false =>
      obtain ⟨h1, h2, h3⟩ := ih acc
      simp only [Bool.false_eq_true, if_false]
      refine ⟨?_, h2, ?_⟩
      · rcases h1 with h1 | h1
        · left; exact h1
        · right; exact List.mem_cons_of_mem _ h1
      · intro v hv
        rcases List.mem_cons.mp hv with h | h
        · rw [h]; exact lexLt_not_trans _ _ _ h2 hx
        · exact h3 v h

/-- No subset of five of the cards scores above what `evaluate` returns, and what it
returns is the score of such a subset when there are five cards or more. -/
theorem evaluate_best (holeCards communityCards : List Card) :
    (∀ hand ∈ Spec.choose 5 (holeCards ++ communityCards),
      (Spec.evaluate holeCards communityCards).lt (Spec.score5 hand) = false) ∧
    (Spec.choose 5 (holeCards ++ communityCards) ≠ [] →
      ∃ hand ∈ Spec.choose 5 (holeCards ++ communityCards),
        Spec.evaluate holeCards communityCards = Spec.score5 hand) := by
  unfold Spec.evaluate
  split
  · rename_i h
    rw [h]
    exact ⟨fun hand hh => (by cases hh), fun hne => absurd rfl hne⟩
  · rename_i first rest h
    rw [h]
    obtain ⟨h1, h2, h3⟩ := best_spec (rest.map Spec.score5) (Spec.score5 first)
    refine ⟨?_, fun _ => ?_⟩
    · intro hand hh
      rcases List.mem_cons.mp hh with h4 | h4
      · rw [h4]; exact h2
      · exact h3 _ (List.mem_map_of_mem _ h4)
    · rcases h1 with h1 | h1
      · exact ⟨first, List.mem_cons_self _ _, h1⟩
      · obtain ⟨hand, hm, he⟩ := List.mem_map.mp h1
        exact ⟨hand, List.mem_cons_of_mem _ hm, he.symm⟩

/-- A value of a lower category is below a value of a higher one. -/
theorem lt_of_category (a b : HandValue) (h : a.category.strength < b.category.strength) :
    a.lt b = true ∧ b.lt a = false := by
  unfold HandValue.lt HandValue.key
  constructor
  · simp only [Spec.lexLt, Bool.or_eq_true, decide_eq_true_eq]
    exact Or.inl h
  · have h1 : ¬ b.category.strength < a.category.strength := by omega
    have h2 : ¬ b.category.strength = a.category.strength := by omega
    simp [Spec.lexLt, h1, h2]

set_option maxRecDepth 100000 in
theorem sampleValue_category (c : Category) : (sampleValue c).category = c := by
  cases c <;> rfl

/-- Whatever the suits, ace to five scores as a straight (or straight flush) with the five
as its highest rank. -/
theorem wheel_score (a b c d e : Suit) :
    (Spec.evaluate [⟨a, 14⟩, ⟨b, 2⟩] [⟨c, 3⟩, ⟨d, 4⟩, ⟨e, 5⟩]).kickers = [5] ∧
    ((Spec.evaluate [⟨a, 14⟩, ⟨b, 2⟩] [⟨c, 3⟩, ⟨d, 4⟩, ⟨e, 5⟩]).category = .straight ∨
     (Spec.evaluate [⟨a, 14⟩, ⟨b, 2⟩] [⟨c, 3⟩, ⟨d, 4⟩, ⟨e, 5⟩]).category = .straightFlush) := by
  have h : Spec.evaluate [⟨a, 14⟩, ⟨b, 2⟩] [⟨c, 3⟩, ⟨d, 4⟩, ⟨e, 5⟩]
      = { category := Spec.categoryOf
            (Spec.isFlush [⟨a, 14⟩, ⟨b, 2⟩, ⟨c, 3⟩, ⟨d, 4⟩, ⟨e, 5⟩]) [14, 2, 3, 4, 5]
          kickers := [5]
          cards := [⟨a, 14⟩, ⟨b, 2⟩, ⟨c, 3⟩, ⟨d, 4⟩, ⟨e, 5⟩] } := rfl
  rw [h]
  refine ⟨rfl, ?_⟩
  cases Spec.isFlush [⟨a, 14⟩, ⟨b, 2⟩, ⟨c, 3⟩, ⟨d, 4⟩, ⟨e, 5⟩]
  · left; rfl
  · right; rfl

/-- Whatever the suits, two to six scores as a straight (or straight flush) with the six as
its highest rank. -/
theorem sixHigh_score (a b c d e : Suit) :
    (Spec.evaluate [⟨a, 2⟩, ⟨b, 3⟩] [⟨c, 4⟩, ⟨d, 5⟩, ⟨e, 6⟩]).kickers = [6] ∧
    ((Spec.evaluate [⟨a, 2⟩, ⟨b, 3⟩] [⟨c, 4⟩, ⟨d, 5⟩, ⟨e, 6⟩]).category = .straight ∨
     (Spec.evaluate [⟨a, 2⟩, ⟨b, 3⟩] [⟨c, 4⟩, ⟨d, 5⟩, ⟨e, 6⟩]).category = .straightFlush) := by
  have h : Spec.evaluate [⟨a, 2⟩, ⟨b, 3⟩] [⟨c, 4⟩, ⟨d, 5⟩, ⟨e, 6⟩]
      = { category := Spec.categoryOf
            (Spec.isFlush [⟨a, 2⟩, ⟨b, 3⟩, ⟨c, 4⟩, ⟨d, 5⟩, ⟨e, 6⟩]) [2, 3, 4, 5, 6]
          kickers := [6]
          cards := [⟨a, 2⟩, ⟨b, 3⟩, ⟨c, 4⟩, ⟨d, 5⟩, ⟨e, 6⟩] } := rfl
  rw [h]
  refine ⟨rfl, ?_⟩
  cases Spec.isFlush [⟨a, 2⟩, ⟨b, 3⟩, ⟨c, 4⟩, ⟨d, 5⟩, ⟨e, 6⟩]
  · left; rfl
  · right; rfl

/-- Of two values of one category the one with the lower single kicker is below. -/
theorem lt_of_kicker (a b : HandValue) (x y : Nat) (hc : a.category = b.category)
    (ha : a.kickers = [x]) (hb : b.kickers = [y]) (h : x < y) :
    a.lt b = true ∧ b.lt a = false := by
  unfold HandValue.lt HandValue.key
  rw [ha, hb, hc]
  have h1 : ¬ y < x := by omega
  have h2 : ¬ y = x := by omega
  simp [Spec.lexLt, h, h1, h2]

theorem sampleValue_lt (c d : Category) (h : c.strength < d.strength) :
    (sampleValue c).lt (sampleValue d) = true :=
  (lt_of_category _ _ (by rw [sampleValue_category, sampleValue_category]; exact h)).1

/-- C22: `evaluate` ranks straight flush > four of a kind > full house > flush > straight >
three of a kind > two pair > one pair > high card: of two hands of different categories the
one whose category comes later in this list has the strictly lower value, whatever the cards.
The value `evaluate` returns is that of the best subset of five of the cards. Seven-card
samples of the nine categories are scored in their category and form the strict chain. The
wheel A-2-3-4-5 is a straight whose top card is the five: it is strictly below the six-high
straight 2-3-4-5-6 of the same category, whatever the suits. -/
theorem evaluate_ranks_categories :
    ([Category.highCard, .onePair, .twoPair, .threeOfAKind, .straight, .flush, .fullHouse,
        .fourOfAKind, .straightFlush].map Category.strength = [0, 1, 2, 3, 4, 5, 6, 7, 8]) ∧
    (∀ hole1 community1 hole2 community2 : List Card,
      (Spec.evaluate hole1 community1).category.strength
          < (Spec.evaluate hole2 community2).category.strength →
        (Spec.evaluate hole1 community1).lt (Spec.evaluate hole2 community2) = true ∧
        (Spec.evaluate hole2 community2).lt (Spec.evaluate hole1 community1) = false) ∧
    (∀ (holeCards communityCards hand : List Card),
      hand ∈ Spec.choose 5 (holeCards ++ communityCards) →
        (Spec.evaluate holeCards communityCards).lt (Spec.score5 hand) = false) ∧
    (∀ c : Category, (sampleValue c).category = c) ∧
    ((sampleValue .highCard).lt (sampleValue .onePair) = true ∧
     (sampleValue .onePair).lt (sampleValue .twoPair) = true ∧
     (sampleValue .twoPair).lt (sampleValue .threeOfAKind) = true ∧
     (sampleValue .threeOfAKind).lt (sampleValue .straight) = true ∧
     (sampleValue .straight).lt (sampleValue .flush) = true ∧
     (sampleValue .flush).lt (sampleValue .fullHouse) = true ∧
     (sampleValue .fullHouse).lt (sampleValue .fourOfAKind) = true ∧
     (sampleValue .fourOfAKind).lt (sampleValue .straightFlush) = true) ∧
    (∀ a b c d e a' b' c' d' e' : Suit,
      (Spec.evaluate [⟨a, 14⟩, ⟨b, 2⟩] [⟨c, 3⟩, ⟨d, 4⟩, ⟨e, 5⟩]).category
          = (Spec.evaluate [⟨a', 2⟩, ⟨b', 3⟩] [⟨c', 4⟩, ⟨d', 5⟩, ⟨e', 6⟩]).category →
        (Spec.evaluate [⟨a, 14⟩, ⟨b, 2⟩] [⟨c, 3⟩, ⟨d, 4⟩, ⟨e, 5⟩]).lt
          (Spec.evaluate [⟨a', 2⟩, ⟨b', 3⟩] [⟨c', 4⟩, ⟨d', 5⟩, ⟨e', 6⟩]) = true ∧
        (Spec.evaluate [⟨a', 2⟩, ⟨b', 3⟩] [⟨c', 4⟩, ⟨d', 5⟩, ⟨e', 6⟩]).lt
          (Spec.evaluate [⟨a, 14⟩, ⟨b, 2⟩] [⟨c, 3⟩, ⟨d, 4⟩, ⟨e, 5⟩]) = false) ∧
    ((Spec.evaluate [⟨.clubs, 14⟩, ⟨.diamonds, 2⟩]
        [⟨.hearts, 3⟩, ⟨.spades, 4⟩, ⟨.clubs, 5⟩]).lt
      (Spec.evaluate [⟨.clubs, 2⟩, ⟨.diamonds, 3⟩]
        [⟨.hearts, 4⟩, ⟨.spades, 5⟩, ⟨.clubs, 6⟩]) = true) :=
  ⟨rfl,
   fun _ _ _ _ h => lt_of_category _ _ h,
   fun holeCards communityCards hand h => (evaluate_best holeCards communityCards).1 hand h,
   sampleValue_category,
   ⟨sampleValue_lt _ _ (by decide), sampleValue_lt _ _ (by decide),
    sampleValue_lt _ _ (by decide), sampleValue_lt _ _ (by decide),
    sampleValue_lt _ _ (by decide), sampleValue_lt _ _ (by decide),
    sampleValue_lt _ _ (by decide), sampleValue_lt _ _ (by decide)⟩,
   fun a b c d e a' b' c' d' e' h =>
     lt_of_kicker _ _ 5 6 h (wheel_score a b c d e).1 (sixHigh_score a' b' c' d' e').1
       (by decide),
   by rfl⟩

/-! ## Side pots -/

/-- The pots of three players who have put in 100, 100 and 50, the third all-in and the
first two not folded. -/
theorem pots_100_100_50 (p1 p2 p3 : Player)
    (h1 : p1.totalBetThisHand = 100) (h2 : p2.totalBetThisHand = 100)
    (h3 : p3.totalBetThisHand = 50)
    (s1 : p1.status ≠ .folded) (s2 : p2.status ≠ .folded) (s3 : p3.status = .allIn) :
    Spec.pots [p1, p2, p3]
      = [{ amount := 150, eligiblePlayerIds := [p1.id, p2.id, p3.id] },
         { amount := 100, eligiblePlayerIds := [p1.id, p2.id] }] := by
  have hl : Spec.tierLevels [p1, p2, p3] = [50, 100] := by
    cases hs1 : p1.status <;> cases hs2 : p2.status <;>
      simp [Spec.tierLevels, Spec.topBet, Spec.insertLevel, h1, h2, h3, s3, hs1, hs2]
  unfold Spec.pots
  rw [hl]
  simp [Spec.tierPots, Spec.share, h1, h2, h3, s1, s2, s3]

/-- C23: three players have contributed 100, 100 and 50, the third all-in and the first two
still in the hand. Collecting the bets gives a main pot of 150, eligible to all three, and one
side pot of 100, eligible to exactly the two players who contributed in full. -/
theorem collectBets_side_pot (t : Table) (p1 p2 p3 : Player)
    (hplayers : t.game.players.map t.heap = [p1, p2, p3])
    (h1 : p1.totalBetThisHand = 100) (h2 : p2.totalBetThisHand = 100)
    (h3 : p3.totalBetThisHand = 50)
    (s1 : p1.status ≠ .folded) (s2 : p2.status ≠ .folded) (s3 : p3.status = .allIn) :
    (Spec.collectBets t).game.mainPot = 150 ∧
    (Spec.collectBets t).game.sidePots
      = [{ amount := 100, eligiblePlayerIds := [p1.id, p2.id] }] ∧
    Spec.pots (t.game.players.map t.heap)
      = [{ amount := 150, eligiblePlayerIds := [p1.id, p2.id, p3.id] },
         { amount := 100, eligiblePlayerIds := [p1.id, p2.id] }] := by
  have h := pots_100_100_50 p1 p2 p3 h1 h2 h3 s1 s2 s3
  unfold Spec.collectBets
  simp only [hplayers, h]
  exact ⟨rfl, rfl, trivial⟩

/-- C23 at a concrete input: Ann and Bob have put in 100 each and Cid is all-in for 50.  The
bets of the street are reset and `totalBetThisHand` is kept. -/
theorem collectBets_side_pot_witness :
    (Spec.collectBets potTable).game.mainPot = 150 ∧
    (Spec.collectBets potTable).game.sidePots
      = [{ amount := 100, eligiblePlayerIds := ["sock-a", "sock-b"] }] ∧
    Spec.pots (potTable.game.players.map potTable.heap)
      = [{ amount := 150, eligiblePlayerIds := ["sock-a", "sock-b", "sock-c"] },
         { amount := 100, eligiblePlayerIds := ["sock-a", "sock-b"] }] ∧
    (potTable.game.players.map
        (fun r => ((Spec.collectBets potTable).heap r).currentBet)) = [0, 0, 0] ∧
    (potTable.game.players.map
        (fun r => ((Spec.collectBets potTable).heap r).totalBetThisHand)) = [100, 100, 50] :=
  have h := collectBets_side_pot potTable (potHeap 0) (potHeap 1) (potHeap 2) rfl rfl rfl rfl
    (by decide) (by decide) rfl
  ⟨h.1, h.2.1, h.2.2, by rfl, by rfl⟩

/-! ## Cases in which a handler departs from what is said of it -/

/-- C3, counterexample: in the waiting room where Ann is in-game and Bob sits out the game
holds one in-game player, and the `startGame` handler still calls `Game.startGame`: its
guard counts the seats of `game.players`.  The refusal comes from the engine. -/
theorem startGame_called_with_one_in_game_player :
    benchedRoom.game.gameState = .WAITING ∧
    inGameCount benchedRoom.heap benchedRoom.game.players = 1 ∧
    benchedRoom.game.players.length = 2 ∧
    (startGame specEngine benchedServer "sock-a" "r1").calls
      = [{ method := .startGame, phase := .WAITING }] ∧
    (startGame specEngine benchedServer "sock-a" "r1").emits
      = [errorTo "sock-a" "NotEnoughPlayers"] := by
  decide

/-- C11, at the failing input: the socket `sock-b` is seated in room `r1` and watches the
room `r0`, made earlier.  When it disconnects the loop of the handler stops at `r0`, where
it deletes the spectator: no record is stored, no timer is set, and `sock-b` keeps its seat
in `r1` with nothing left to remove it. -/
theorem disconnect_strands_seat :
    Server.playerIdsOf strandedServer "r1" = some ["sock-a", "sock-b"] ∧
    keys strandedServer.rooms = ["r0", "r1"] ∧
    (disconnect strandedServer "sock-b" 0).state.disconnectedPlayers = [] ∧
    (disconnect strandedServer "sock-b" 0).timers = [] ∧
    (disconnect strandedServer "sock-b" 0).calls = [] ∧
    (disconnect strandedServer "sock-b" 0).emits
      = [{ target := .to "r0", event := "spectatorLeft",
           payload := .spectatorLeft "r0" "sock-b" "Bob" }] ∧
    Server.playerIdsOf (disconnect strandedServer "sock-b" 0).state "r1"
      = some ["sock-a", "sock-b"] := by
  decide

/-- C12, at the failing input: Bob's socket has dropped from the waiting room and Ann's
socket `sock-a`, seated there, sends `attemptReconnect` with Bob's nickname.  The handler
does not test that the socket is already in the room: Bob's `Player` gets the id `sock-a`,
which Ann's `Player` has too.  When the game starts, both hands are sent to `sock-a`. -/
theorem dealPrivateCards_two_hands_one_connection :
    Server.gamePlayersOf readyServer "r1" = some [("sock-a", "Ann"), ("sock-b", "Bob")] ∧
    Server.gamePlayersOf hijackedServer "r1" = some [("sock-a", "Ann"), ("sock-a", "Bob")] ∧
    Server.playerIdsOf hijackedServer "r1" = some ["sock-a"] ∧
    dealsOf (startGame specEngine hijackedServer "sock-a" "r1").emits
      = [("sock-a", .dealPrivateCards [⟨.diamonds, 12⟩, ⟨.clubs, 3⟩]),
         ("sock-a", .dealPrivateCards [⟨.hearts, 5⟩, ⟨.spades, 11⟩])] := by
  decide

/-- When the players of a room's game have pairwise different ids, a `dealPrivateCards` that
is the own hand of a player reaches that player only: whichever player's id it is addressed
to, it carries the hand of that player. -/
theorem ownHand_unique (room : Room) (e : Emit) (h : OwnHand room e)
    (hids : ∀ r r', (r ∈ room.game.players ∨ r ∈ room.game.activePlayers) →
      (r' ∈ room.game.players ∨ r' ∈ room.game.activePlayers) →
      (room.heap r).id = (room.heap r').id → r = r') :
    ∀ r', (r' ∈ room.game.players ∨ r' ∈ room.game.activePlayers) →
      e.target.name = (room.heap r').id →
      e.payload = .dealPrivateCards (room.heap r').hand := by
  obtain ⟨r, hr, ht, hp⟩ := h
  intro r' hr' ht'
  have heq : r = r' := hids r r' hr hr' (by rw [← ht, ht'])
  rw [← heq]
  exact hp

end TexasHoldem
